import Mathlib

/-!
Verification development for the tile accelerator renderer core
(src/guest/pvr/tr.c): a shallow embedding of its data model and operations,
with theorems settling the specification's claims about it.

Modelling conventions:
* machine integers are `Nat`/`Int` (bit widths noted where they matter);
* the guest's float values are rationals, adequate for every property proved
  here (orderings, exact arithmetic identities, and determinism);
* the capacity-bounded C arrays are functions `Nat → _` together with an
  explicit element count, so that stale contents beyond the count exist in
  the model exactly as they do in memory;
* `LOG_FATAL`/`CHECK` process aborts are the `none` outcome of `Option`.
-/

/-! ## Polygon parsing helper primitives (tr.c lines 254-321) -/

/-- Truncation toward zero of a rational number, the effect of the C cast
`(int32_t)` applied to a float value (`Int.tdiv` on the reduced
numerator/denominator is t-division, i.e. rounds toward zero). -/
def ratTrunc (q : ℚ) : ℤ := Int.tdiv q.num q.den

/-- `ftou8` (tr.c): saturating float to uint8_t conversion,
`MIN(MAX((int32_t)(x * 255.0f), 0), 255)`. -/
def ftou8 (x : ℚ) : ℕ := (min (max (ratTrunc (x * 255)) 0) 255).toNat

/-- `fmulu8` (tr.c): fixed point multiply `(uint8_t)((uint32_t)a * b / 255)`.
For byte-sized inputs the quotient is at most 255, so the closing uint8_t
cast loses nothing and is omitted. -/
def fmulu8 (a b : ℕ) : ℕ := a * b / 255

/-- A packed RGBA color as four byte channels, in the byte order the parse
macros write them: `[r, g, b, a]`. -/
structure Color where
  r : ℕ
  g : ℕ
  b : ℕ
  a : ℕ
deriving DecidableEq

def zeroColor : Color := ⟨0, 0, 0, 0⟩

/-- A float RGBA color, the `face_color_{r,g,b,a}` payload of polygon
parameters and vertex parameters with float color. -/
structure FColor where
  r : ℚ
  g : ℚ
  b : ℚ
  a : ℚ
deriving DecidableEq

/-- `PARSE_PACKED_COLOR` (tr.c): decompose a packed `0xAARRGGBB` word into
the byte array `[R, G, B, A]`. -/
def parsePackedColor (c : ℕ) : Color :=
  { r := (c &&& 0x00ff0000) >>> 16
    g := (c &&& 0x0000ff00) >>> 8
    b := c &&& 0x000000ff
    a := (c &&& 0xff000000) >>> 24 }

/-- Re-serialization of the `[R,G,B,A]` byte array back into the
`0xAARRGGBB` layout. Written from the spec's words for the round-trip
property (section 8, property 7); compared against `parsePackedColor`. -/
def packColorAARRGGBB (c : Color) : ℕ :=
  c.a * 2 ^ 24 + c.r * 2 ^ 16 + c.g * 2 ^ 8 + c.b

/-- `PARSE_FLOAT_COLOR` (tr.c): clamp each float component to a byte. -/
def parseFloatColor (c : FColor) : Color :=
  ⟨ftou8 c.r, ftou8 c.g, ftou8 c.b, ftou8 c.a⟩

/-- `PARSE_INTENSITY` (tr.c): modulate a face color by a scalar intensity;
the alpha channel is copied through unmodified. -/
def parseIntensity (c : Color) (intensity : ℚ) : Color :=
  let i := ftou8 intensity
  ⟨fmulu8 c.r i, fmulu8 c.g i, fmulu8 c.b i, c.a⟩

/-! ## Vector helpers (core/math.h collaborators used by tr.c) -/

structure Vec3 where
  x : ℚ
  y : ℚ
  z : ℚ
deriving DecidableEq

structure Vec2 where
  u : ℚ
  v : ℚ
deriving DecidableEq

def zeroVec3 : Vec3 := ⟨0, 0, 0⟩
def zeroVec2 : Vec2 := ⟨0, 0⟩

def vec3_sub (a b : Vec3) : Vec3 := ⟨a.x - b.x, a.y - b.y, a.z - b.z⟩
def vec3_add (a b : Vec3) : Vec3 := ⟨a.x + b.x, a.y + b.y, a.z + b.z⟩
def vec3_cross (a b : Vec3) : Vec3 :=
  ⟨a.y * b.z - a.z * b.y, a.z * b.x - a.x * b.z, a.x * b.y - a.y * b.x⟩
def vec3_dot (a b : Vec3) : ℚ := a.x * b.x + a.y * b.y + a.z * b.z
def vec2_sub (a b : Vec2) : Vec2 := ⟨a.u - b.u, a.v - b.v⟩
def vec2_add (a b : Vec2) : Vec2 := ⟨a.u + b.u, a.v + b.v⟩

/-- The `MIN` macro of core/core.h: `(a) < (b) ? (a) : (b)`. -/
def qmin (a b : ℚ) : ℚ := if a < b then a else b

/-- `PARSE_UV16` (tr.c): each 16-bit half is shifted into the high bits of a
32-bit word and reinterpreted as an IEEE float, with the halves swapped
(first half to `uv[1]`, second to `uv[0]`). The embedding keeps the shifted
bit pattern as the coordinate value: an injective abstraction of the bit
cast, adequate here because no proved claim depends on the float reading of
these bits. -/
def parseUV16 (uv : ℕ × ℕ) : Vec2 :=
  ⟨((uv.2 <<< 16 : ℕ) : ℚ), ((uv.1 <<< 16 : ℕ) : ℚ)⟩

/-! ## Backend enums and translation tables (tr.c lines 75-110)

The numeric values of the backend enums live in render/render_backend.h;
only their identities matter here. The zero values used by `memset` in
`tr_reserve_surf` are fixed once below; every field a claim observes is
assigned by a handler before it is read. -/

inductive DepthFunc where
  | never
  | greater
  | equal
  | gequal
  | less
  | nequal
  | lequal
  | always
deriving DecidableEq

inductive CullFace where
  | none
  | back
  | front
deriving DecidableEq

inductive BlendFunc where
  | none
  | zero
  | one
  | dstColor
  | oneMinusDstColor
  | srcAlpha
  | oneMinusSrcAlpha
  | dstAlpha
  | oneMinusDstAlpha
  | srcColor
  | oneMinusSrcColor
deriving DecidableEq

inductive ShadeMode where
  | decal
  | modulate
  | decalAlpha
  | modulateAlpha
deriving DecidableEq

/-- `translate_depth_func` (tr.c); the input is the 3-bit
`isp.depth_compare_mode` field, so the catch-all arm is only taken for the
last table slot. -/
def translate_depth_func (d : ℕ) : DepthFunc :=
  match d with
  | 0 => .never
  | 1 => .greater
  | 2 => .equal
  | 3 => .gequal
  | 4 => .less
  | 5 => .nequal
  | 6 => .lequal
  | _ => .always

/-- `translate_cull` (tr.c); 2-bit `isp.culling_mode` field. -/
def translate_cull (c : ℕ) : CullFace :=
  match c with
  | 0 => .none
  | 1 => .none
  | 2 => .back
  | _ => .front

/-- `translate_src_blend_func` (tr.c); 3-bit `tsp.src_alpha_instr` field. -/
def translate_src_blend_func (b : ℕ) : BlendFunc :=
  match b with
  | 0 => .zero
  | 1 => .one
  | 2 => .dstColor
  | 3 => .oneMinusDstColor
  | 4 => .srcAlpha
  | 5 => .oneMinusSrcAlpha
  | 6 => .dstAlpha
  | _ => .oneMinusDstAlpha

/-- `translate_dst_blend_func` (tr.c); 3-bit `tsp.dst_alpha_instr` field. -/
def translate_dst_blend_func (b : ℕ) : BlendFunc :=
  match b with
  | 0 => .zero
  | 1 => .one
  | 2 => .srcColor
  | 3 => .oneMinusSrcColor
  | 4 => .srcAlpha
  | 5 => .oneMinusSrcAlpha
  | 6 => .dstAlpha
  | _ => .oneMinusDstAlpha

/-- `translate_shade_mode` (tr.c); 2-bit `tsp.texture_shading_instr`. -/
def translate_shade_mode (s : ℕ) : ShadeMode :=
  match s with
  | 0 => .decal
  | 1 => .modulate
  | 2 => .decalAlpha
  | _ => .modulateAlpha

/-! ## Data model: surfaces, vertices, render context (guest/pvr/tr.h) -/

/-- The `params` state bag of `struct ta_surface`; `params.full` equality
(the merge test) is structure equality here, covering every field the spec
requires of it. -/
structure SurfParams where
  texture : ℕ
  depth_write : Bool
  depth_func : DepthFunc
  cull : CullFace
  src_blend : BlendFunc
  dst_blend : BlendFunc
  shade : ShadeMode
  ignore_alpha : Bool
  ignore_texture_alpha : Bool
  offset_color : Bool
  alpha_test : Bool
  alpha_ref : ℕ
deriving DecidableEq

def zeroParams : SurfParams :=
  { texture := 0
    depth_write := false
    depth_func := .never
    cull := .none
    src_blend := .none
    dst_blend := .none
    shade := .decal
    ignore_alpha := false
    ignore_texture_alpha := false
    offset_color := false
    alpha_test := false
    alpha_ref := 0 }

structure TaSurface where
  params : SurfParams
  first_vert : ℕ
  num_verts : ℕ
  strip_offset : ℕ
deriving DecidableEq

def zeroSurf : TaSurface :=
  { params := zeroParams, first_vert := 0, num_verts := 0, strip_offset := 0 }

structure TaVertex where
  xyz : Vec3
  uv : Vec2
  color : Color
  offset_color : Color
deriving DecidableEq

def zeroVert : TaVertex :=
  { xyz := zeroVec3, uv := zeroVec2, color := zeroColor, offset_color := zeroColor }

/-- One of the five per-list surface index arrays of `struct tr_context`. -/
structure TrList where
  surfs : ℕ → ℕ
  num_surfs : ℕ
  num_orig_surfs : ℕ

/-- A diagnostic trail entry (`struct tr_param`). The byte offset field is
an artifact of the byte-level stream and is not represented; the decoded
stream is indexed by position. -/
structure TrParamRec where
  list_type : ℕ
  vert_type : ℕ
  last_surf : ℤ
  last_vert : ℤ
deriving DecidableEq

/-- `struct tr_context`: the output render context. Arrays are modelled as
total functions plus counts, so contents beyond a count model the stale
memory the C arrays hold there. -/
structure TrContext where
  surfs : ℕ → TaSurface
  num_surfs : ℕ
  verts : ℕ → TaVertex
  num_verts : ℕ
  indices : ℕ → ℕ
  num_indices : ℕ
  lists : ℕ → TrList
  params : ℕ → TrParamRec
  num_params : ℕ
  width : ℕ
  height : ℕ

/-- Point update of a function-modelled array. -/
def updF {α : Type} (f : ℕ → α) (i : ℕ) (x : α) : ℕ → α :=
  fun j => if j = i then x else f j

/-! ## TA list and vertex type constants (guest/pvr/ta.h) -/

def TA_LIST_OPAQUE : ℕ := 0
def TA_LIST_OPAQUE_MODVOL : ℕ := 1
def TA_LIST_TRANSLUCENT : ℕ := 2
def TA_LIST_TRANSLUCENT_MODVOL : ℕ := 3
def TA_LIST_PUNCH_THROUGH : ℕ := 4
def TA_NUM_LISTS : ℕ := 5

/-- The `TA_NUM_VERTS` sentinel: any value distinct from the vertex type
codes 0-8, 15, 16, 17 serves; the handler's default arm treats it as
unsupported. -/
def TA_NUM_VERTS : ℕ := 18

/-! ## Decoded input stream (the front-end contract of guest/pvr/ta.h)

The byte-level parameter buffer, its stride table (`ta_param_size`) and the
PCW bit layout belong to the front-end, which is not under src/. The stream
is therefore modelled at the decoded level: a list of tagged parameters,
each carrying the fields the renderer reads from it. The C source overlays
a union over the raw bytes; the embedding carries each union interpretation
as its own field. -/

structure Pcw where
  uv_16bit : Bool
  gouraud : Bool
  offset : Bool
  texture : Bool
  list_type : ℕ
  end_of_strip : Bool
deriving DecidableEq

/-- The ISP instruction word fields tr.c reads. -/
structure Isp where
  z_write_disable : Bool
  depth_compare_mode : ℕ
  culling_mode : ℕ
  texture : Bool
  offset : Bool
deriving DecidableEq

/-- The TSP instruction word fields tr.c reads. -/
structure Tsp where
  src_alpha_instr : ℕ
  dst_alpha_instr : ℕ
  texture_shading_instr : ℕ
  use_alpha : Bool
  ignore_tex_alpha : Bool
  filter_mode : ℕ
  clamp_u : Bool
  clamp_v : Bool
  flip_u : Bool
  flip_v : Bool
deriving DecidableEq

/-- The payload shapes of the five supported polygon parameter encodings
(`union poly_param`), plus the fatal catch-all. -/
inductive PolyData where
  | type0 (vert_type : ℕ)
  | type1 (vert_type : ℕ) (face_color : FColor)
  | type2 (vert_type : ℕ) (face_color : FColor) (face_offset_color : FColor)
  | sprite (vert_type : ℕ) (base_color : ℕ) (offset_color : ℕ)
  | modvol
  | unsupported (ty : ℕ)
deriving DecidableEq

structure PolyCmd where
  pcw : Pcw
  isp : Isp
  tsp : Tsp
  tcw : ℕ
  data : PolyData
deriving DecidableEq

/-- Modelled from the spec: `ta_poly_type` of the front-end (guest/pvr/ta.c,
not under src/), the poly-encoding selector of spec section 4.3. -/
def ta_poly_type (p : PolyCmd) : ℕ :=
  match p.data with
  | .type0 _ => 0
  | .type1 _ _ => 1
  | .type2 _ _ _ => 2
  | .sprite _ _ _ => 5
  | .modvol => 6
  | .unsupported t => t

/-- Modelled from the spec: `ta_vert_type` of the front-end. The vertex
encoding is determined by bits of the same global parameter control word
that selects the polygon encoding; for a modifier-volume global parameter
the vertex type is 17 (spec sections 4.3, 4.4 and 9: poly type 6 and vert
type 17 are the paired modifier-volume encodings, both skipped). For an
unsupported polygon type the handler aborts, so the value is irrelevant. -/
def ta_vert_type (p : PolyCmd) : ℕ :=
  match p.data with
  | .type0 v => v
  | .type1 v _ => v
  | .type2 v _ _ => v
  | .sprite v _ _ => v
  | .modvol => 17
  | .unsupported _ => TA_NUM_VERTS

/-- The decoded vertex parameter (`union vert_param`): every overlay the
handler may read, keyed off the active vertex type. -/
structure VertCmd where
  pcw : Pcw
  xyz : Vec3
  uv : Vec2
  uv16 : ℕ × ℕ
  base_color : ℕ
  offset_color : ℕ
  base_color_float : FColor
  offset_color_float : FColor
  base_intensity : ℚ
  offset_intensity : ℚ
  sprite_xyz_a : Vec3
  sprite_xyz_b : Vec3
  sprite_xyz_c : Vec3
  sprite_xy_d : ℚ × ℚ
  sprite_uv_a : ℕ × ℕ
  sprite_uv_b : ℕ × ℕ
  sprite_uv_c : ℕ × ℕ
deriving DecidableEq

/-- A decoded stream parameter, tagged by `pcw.para_type`. -/
inductive TaParam where
  | eol (pcw : Pcw)
  | userTileClip (pcw : Pcw)
  | objListSet (pcw : Pcw)
  | poly (cmd : PolyCmd)
  | vertex (cmd : VertCmd)
deriving DecidableEq

def TaParam.pcw : TaParam → Pcw
  | .eol w => w
  | .userTileClip w => w
  | .objListSet w => w
  | .poly c => c.pcw
  | .vertex c => c.pcw

/-- A decoded background vertex record (`ctx->bg_vertices`); the byte
offsets walked by `tr_parse_bg_vert` are front-end layout. -/
structure BgVert where
  xyz : Vec3
  uv : Vec2
  base_color : ℕ
  offset_color : ℕ
deriving DecidableEq

/-- The input TA context fields tr.c reads (`struct ta_context`). -/
structure TaCtx where
  stream : List TaParam
  bg_a : BgVert
  bg_b : BgVert
  bg_c : BgVert
  bg_isp : Isp
  bg_tsp : Tsp
  bg_tcw : ℕ
  alpha_ref : ℕ
  autosort : Bool
  video_width : ℕ
  video_height : ℕ

/-- The transient `struct tr` state (minus the backend/texture-callback
plumbing, which the texture oracle argument replaces). -/
structure Tr where
  last_vertex : Option VertCmd
  list_type : ℕ
  vert_type : ℕ
  face_color : Color
  face_offset_color : Color
  sprite_color : Color
  sprite_offset_color : Color
deriving DecidableEq

/-- A texture oracle abstracting `tr_convert_texture` together with its
external collaborators (`find_texture`, the texture decoder and the
backend): from the `(tsp, tcw)` register pair to the handle stored on the
surface. Texture pixel decoding and the cache are out of scope (spec
section 1); the oracle captures everything the render context observes. -/
def TexOracle : Type := Tsp → ℕ → ℕ

/-! ## Surface / vertex bookkeeping (tr.c lines 171-252) -/

/-- The staged, not yet committed surface slot `rc->surfs[rc->num_surfs]`. -/
def staged (rc : TrContext) : TaSurface := rc.surfs rc.num_surfs

def modStaged (rc : TrContext) (f : TaSurface → TaSurface) : TrContext :=
  { rc with surfs := updF rc.surfs rc.num_surfs (f (staged rc)) }

def modVert (rc : TrContext) (i : ℕ) (f : TaVertex → TaVertex) : TrContext :=
  { rc with verts := updF rc.verts i (f (rc.verts i)) }

/-- `tr_reserve_surf` (tr.c). With `copy_from_prev` the staged slot is
copied from the previous committed surface, else zero-filled; either way
its vertex range restarts at the current vertex count. The capacity CHECK
and the `CHECK(rc->num_surfs)` assertion guard states every caller below
establishes (the latter: a copying reserve only happens after a commit, so
`num_surfs ≥ 1`). -/
def tr_reserve_surf (rc : TrContext) (copy_from_prev : Bool) : TrContext :=
  let surf_index := rc.num_surfs
  let base := if copy_from_prev then rc.surfs (surf_index - 1) else zeroSurf
  let surf := { base with first_vert := rc.num_verts, num_verts := 0 }
  { rc with surfs := updF rc.surfs surf_index surf }

/-- `tr_reserve_vert` (tr.c): zero a fresh vertex slot after the staged
surface's vertices and extend the staged surface over it; returns the
reserved slot index. -/
def tr_reserve_vert (rc : TrContext) : TrContext × ℕ :=
  let vert_index := rc.num_verts + (staged rc).num_verts
  let rc1 := { rc with verts := updF rc.verts vert_index zeroVert }
  let rc2 := modStaged rc1 (fun s => { s with num_verts := s.num_verts + 1 })
  (rc2, vert_index)

/-- Append an entry to a per-list surface index array
(`list->surfs[list->num_surfs++] = entry`). -/
def listAppend (rc : TrContext) (lt : ℕ) (entry : ℕ) : TrContext :=
  let l := rc.lists lt
  { rc with
    lists := updF rc.lists lt
      { l with surfs := updF l.surfs l.num_surfs entry, num_surfs := l.num_surfs + 1 } }

/-- One iteration of `tr_commit_surf`'s per-triangle loop for translucent /
punch-through lists (tr.c lines 218-238): reuse the staged surface for
triangle 0, else reserve a copy of the previous one; restamp it as a
single-triangle surface at strip offset `i`, append it to the list, advance
the vertex count by one and the surface count by one. -/
def tr_commit_tri_step (lt : ℕ) (rc : TrContext) (i : ℕ) : TrContext :=
  let rc := if i = 0 then rc else tr_reserve_surf rc true
  let rc := modStaged rc
    (fun s => { s with strip_offset := i, first_vert := rc.num_verts, num_verts := 3 })
  let rc := listAppend rc lt rc.num_surfs
  { rc with num_verts := rc.num_verts + 1, num_surfs := rc.num_surfs + 1 }

/-- `tr_commit_surf` (tr.c). -/
def tr_commit_surf (tr : Tr) (rc : TrContext) : TrContext :=
  let l0 := rc.lists tr.list_type
  let rc := { rc with
    lists := updF rc.lists tr.list_type { l0 with num_orig_surfs := l0.num_orig_surfs + 1 } }
  if tr.list_type = TA_LIST_TRANSLUCENT ∨ tr.list_type = TA_LIST_PUNCH_THROUGH then
    let n := (staged rc).num_verts
    let rc := (List.range (n - 2)).foldl (tr_commit_tri_step tr.list_type) rc
    { rc with num_verts := rc.num_verts + 2 }
  else
    let nv := (staged rc).num_verts
    let rc := listAppend rc tr.list_type rc.num_surfs
    { rc with num_verts := rc.num_verts + nv, num_surfs := rc.num_surfs + 1 }

/-! ## Polygon parameter handler (tr.c lines 405-486) -/

/-- `tr_parse_poly_param` (tr.c). Resets `last_vertex`, latches the vertex
type, records face/sprite colors per encoding, and opens a new surface by
translating the ISP/TSP fields, then applying the list-type override chain
exactly as the source writes it (a single if / else-if chain; note that a
punch-through list satisfies the first branch's condition, so the chain's
punch-through arm is unreachable). `none` models `LOG_FATAL` on an
unsupported poly type. -/
def tr_parse_poly_param (texFn : TexOracle) (ctx : TaCtx) (tr : Tr) (rc : TrContext)
    (p : PolyCmd) : Option (Tr × TrContext) :=
  let tr := { tr with last_vertex := none, vert_type := ta_vert_type p }
  if ta_poly_type p = 6 then some (tr, rc)
  else
    let colorStep : Option Tr :=
      match p.data with
      | .type0 _ => some tr
      | .type1 _ fc => some { tr with face_color := parseFloatColor fc }
      | .type2 _ fc foc =>
          some { tr with face_color := parseFloatColor fc,
                         face_offset_color := parseFloatColor foc }
      | .sprite _ bc oc =>
          some { tr with sprite_color := parsePackedColor bc,
                         sprite_offset_color := parsePackedColor oc }
      | .modvol => some tr
      | .unsupported _ => none
    match colorStep with
    | none => none
    | some tr =>
      let rc := tr_reserve_surf rc false
      let params0 : SurfParams :=
        { texture := 0
          depth_write := ! p.isp.z_write_disable
          depth_func := translate_depth_func p.isp.depth_compare_mode
          cull := translate_cull p.isp.culling_mode
          src_blend := translate_src_blend_func p.tsp.src_alpha_instr
          dst_blend := translate_dst_blend_func p.tsp.dst_alpha_instr
          shade := translate_shade_mode p.tsp.texture_shading_instr
          ignore_alpha := ! p.tsp.use_alpha
          ignore_texture_alpha := p.tsp.ignore_tex_alpha
          offset_color := p.pcw.offset
          alpha_test := decide (tr.list_type = TA_LIST_PUNCH_THROUGH)
          alpha_ref := ctx.alpha_ref }
      let params1 :=
        if tr.list_type ≠ TA_LIST_TRANSLUCENT ∧ tr.list_type ≠ TA_LIST_TRANSLUCENT_MODVOL then
          { params0 with src_blend := .none, dst_blend := .none }
        else if (tr.list_type = TA_LIST_TRANSLUCENT ∨ tr.list_type = TA_LIST_TRANSLUCENT_MODVOL)
            ∧ ctx.autosort then
          { params0 with depth_func := .lequal }
        else if tr.list_type = TA_LIST_PUNCH_THROUGH then
          { params0 with depth_func := .gequal }
        else params0
      let params2 :=
        { params1 with texture := if p.pcw.texture then texFn p.tsp p.tcw else 0 }
      some (tr, modStaged rc (fun s => { s with params := params2 }))

/-- The surface-parameter translation of `tr_parse_poly_param` (tr.c lines
441-480) in isolation, keyed by the active list type; definitionally the
inline chain above (the handler's `tr->list_type` is the input's, untouched
by the color step). -/
def tr_poly_surf_params (texFn : TexOracle) (ctx : TaCtx) (lt : ℕ) (p : PolyCmd) :
    SurfParams :=
  let params0 : SurfParams :=
    { texture := 0
      depth_write := ! p.isp.z_write_disable
      depth_func := translate_depth_func p.isp.depth_compare_mode
      cull := translate_cull p.isp.culling_mode
      src_blend := translate_src_blend_func p.tsp.src_alpha_instr
      dst_blend := translate_dst_blend_func p.tsp.dst_alpha_instr
      shade := translate_shade_mode p.tsp.texture_shading_instr
      ignore_alpha := ! p.tsp.use_alpha
      ignore_texture_alpha := p.tsp.ignore_tex_alpha
      offset_color := p.pcw.offset
      alpha_test := decide (lt = TA_LIST_PUNCH_THROUGH)
      alpha_ref := ctx.alpha_ref }
  let params1 :=
    if lt ≠ TA_LIST_TRANSLUCENT ∧ lt ≠ TA_LIST_TRANSLUCENT_MODVOL then
      { params0 with src_blend := .none, dst_blend := .none }
    else if (lt = TA_LIST_TRANSLUCENT ∨ lt = TA_LIST_TRANSLUCENT_MODVOL)
        ∧ ctx.autosort then
      { params0 with depth_func := .lequal }
    else if lt = TA_LIST_PUNCH_THROUGH then
      { params0 with depth_func := .gequal }
    else params0
  { params1 with texture := if p.pcw.texture then texFn p.tsp p.tcw else 0 }

/-! ## Vertex parameter handler (tr.c lines 488-665) -/

/-- Outcome of the body of `tr_parse_vert_param`'s vertex-type switch:
process abort, early return (degenerate sprite: drop without committing),
or fall-through to the end-of-strip commit check. -/
inductive VertOutcome where
  | fatal
  | dropped (rc : TrContext)
  | emitted (rc : TrContext)

/-- The sprite arm of the vertex-type switch (tr.c lines 574-650,
vertex types 15 and 16). The four vertices are reserved in the order
bottom-left (a), top-left (b), bottom-right (d), top-right (c); the fourth
corner receives only x/y and the colors before the plane test.
`vec3_normalize` returns the length and scales `n` in place; its zero test
is represented by the squared length (zero exactly when the length is), and
because the subsequent z solve is invariant under the scaling of `n` and
`d`, it is written with the unnormalized normal. -/
def tr_parse_sprite_vert (tr : Tr) (rc : TrContext) (p : VertCmd) : VertOutcome :=
  if ¬ p.pcw.end_of_strip then .fatal
  else
    let (rc, ia) := tr_reserve_vert rc
    let (rc, ib) := tr_reserve_vert rc
    let (rc, idd) := tr_reserve_vert rc
    let (rc, ic) := tr_reserve_vert rc
    let rc := modVert rc ia (fun v =>
      { v with xyz := p.sprite_xyz_a, uv := parseUV16 p.sprite_uv_a,
               color := tr.sprite_color, offset_color := tr.sprite_offset_color })
    let rc := modVert rc ib (fun v =>
      { v with xyz := p.sprite_xyz_b, uv := parseUV16 p.sprite_uv_b,
               color := tr.sprite_color, offset_color := tr.sprite_offset_color })
    let rc := modVert rc ic (fun v =>
      { v with xyz := p.sprite_xyz_c, uv := parseUV16 p.sprite_uv_c,
               color := tr.sprite_color, offset_color := tr.sprite_offset_color })
    let rc := modVert rc idd (fun v =>
      { v with xyz := ⟨p.sprite_xy_d.1, p.sprite_xy_d.2, v.xyz.z⟩,
               color := tr.sprite_color, offset_color := tr.sprite_offset_color })
    let xyz_ba := vec3_sub p.sprite_xyz_a p.sprite_xyz_b
    let xyz_bc := vec3_sub p.sprite_xyz_c p.sprite_xyz_b
    let n := vec3_cross xyz_ba xyz_bc
    let d := vec3_dot n p.sprite_xyz_b
    if vec3_dot n n = 0 ∨ n.z = 0 then .dropped rc
    else
      let rc := modVert rc idd (fun v =>
        { v with xyz := ⟨v.xyz.x, v.xyz.y, (d - n.x * v.xyz.x - n.y * v.xyz.y) / n.z⟩ })
      let uv_ba := vec2_sub (parseUV16 p.sprite_uv_a) (parseUV16 p.sprite_uv_b)
      let uv_bc := vec2_sub (parseUV16 p.sprite_uv_c) (parseUV16 p.sprite_uv_b)
      let vd_uv := vec2_add (vec2_add (parseUV16 p.sprite_uv_b) uv_ba) uv_bc
      let rc := modVert rc idd (fun v => { v with uv := vd_uv })
      .emitted rc

/-- The vertex-type switch of `tr_parse_vert_param` (tr.c lines 505-655):
reserve a vertex and fill it per the active encoding. -/
def tr_parse_vert_body (tr : Tr) (rc : TrContext) (p : VertCmd) : VertOutcome :=
  match tr.vert_type with
  | 0 =>
      let (rc, vi) := tr_reserve_vert rc
      .emitted (modVert rc vi (fun v =>
        { v with xyz := p.xyz, color := parsePackedColor p.base_color }))
  | 1 =>
      let (rc, vi) := tr_reserve_vert rc
      .emitted (modVert rc vi (fun v =>
        { v with xyz := p.xyz, color := parseFloatColor p.base_color_float }))
  | 2 =>
      let (rc, vi) := tr_reserve_vert rc
      .emitted (modVert rc vi (fun v =>
        { v with xyz := p.xyz, color := parseIntensity tr.face_color p.base_intensity }))
  | 3 =>
      let (rc, vi) := tr_reserve_vert rc
      .emitted (modVert rc vi (fun v =>
        { v with xyz := p.xyz, uv := p.uv,
                 color := parsePackedColor p.base_color,
                 offset_color := parsePackedColor p.offset_color }))
  | 4 =>
      let (rc, vi) := tr_reserve_vert rc
      .emitted (modVert rc vi (fun v =>
        { v with xyz := p.xyz, uv := parseUV16 p.uv16,
                 color := parsePackedColor p.base_color,
                 offset_color := parsePackedColor p.offset_color }))
  | 5 =>
      let (rc, vi) := tr_reserve_vert rc
      .emitted (modVert rc vi (fun v =>
        { v with xyz := p.xyz, uv := p.uv,
                 color := parseFloatColor p.base_color_float,
                 offset_color := parseFloatColor p.offset_color_float }))
  | 6 =>
      let (rc, vi) := tr_reserve_vert rc
      .emitted (modVert rc vi (fun v =>
        { v with xyz := p.xyz, uv := parseUV16 p.uv16,
                 color := parseFloatColor p.base_color_float,
                 offset_color := parseFloatColor p.offset_color_float }))
  | 7 =>
      let (rc, vi) := tr_reserve_vert rc
      .emitted (modVert rc vi (fun v =>
        { v with xyz := p.xyz, uv := p.uv,
                 color := parseIntensity tr.face_color p.base_intensity,
                 offset_color := parseIntensity tr.face_offset_color p.offset_intensity }))
  | 8 =>
      let (rc, vi) := tr_reserve_vert rc
      .emitted (modVert rc vi (fun v =>
        { v with xyz := p.xyz, uv := parseUV16 p.uv16,
                 color := parseIntensity tr.face_color p.base_intensity,
                 offset_color := parseIntensity tr.face_offset_color p.offset_intensity }))
  | 15 => tr_parse_sprite_vert tr rc p
  | 16 => tr_parse_sprite_vert tr rc p
  | _ => .fatal

/-- `tr_parse_vert_param` (tr.c). Vertex type 17 (modifier volume) returns
untouched; a previous end-of-strip vertex triggers a copying surface
reserve; the current parameter becomes `last_vertex`; the body runs; a
current end-of-strip commits. `none` models the `LOG_FATAL` /
`CHECK(end_of_strip)` aborts. -/
def tr_parse_vert_param (tr : Tr) (rc : TrContext) (p : VertCmd) :
    Option (Tr × TrContext) :=
  if tr.vert_type = 17 then some (tr, rc)
  else
    let rc :=
      match tr.last_vertex with
      | some lv => if lv.pcw.end_of_strip then tr_reserve_surf rc true else rc
      | none => rc
    let tr := { tr with last_vertex := some p }
    match tr_parse_vert_body tr rc p with
    | .fatal => none
    | .dropped rc => some (tr, rc)
    | .emitted rc =>
        if p.pcw.end_of_strip then some (tr, tr_commit_surf tr rc)
        else some (tr, rc)

/-- The strip-continuation step of `tr_parse_vert_param` in isolation: a
previous end-of-strip vertex triggers the copying surface reserve. -/
def vertPhase1 (tr : Tr) (rc : TrContext) : TrContext :=
  match tr.last_vertex with
  | some lv => if lv.pcw.end_of_strip then tr_reserve_surf rc true else rc
  | none => rc

/-- The tail of `tr_parse_vert_param` in isolation: run the vertex-type
switch, then commit when the current parameter ends the strip. -/
def vertTail (tr : Tr) (rc : TrContext) (p : VertCmd) : Option (Tr × TrContext) :=
  match tr_parse_vert_body tr rc p with
  | .fatal => none
  | .dropped rc => some (tr, rc)
  | .emitted rc =>
      if p.pcw.end_of_strip then some (tr, tr_commit_surf tr rc) else some (tr, rc)

/-- `tr_parse_eol` (tr.c lines 667-672). -/
def tr_parse_eol (tr : Tr) : Tr :=
  { tr with last_vertex := none, list_type := TA_NUM_LISTS, vert_type := TA_NUM_VERTS }

/-! ## Background parser (tr.c lines 323-403) -/

/-- `tr_parse_bg_vert` (tr.c), at the level of the decoded background
vertex record: uv is read only when `bg_isp.texture` is set and the offset
color only when `bg_isp.offset` is set; unread fields keep the reserve's
zero fill. -/
def tr_parse_bg_vert (ctx : TaCtx) (bv : BgVert) (v : TaVertex) : TaVertex :=
  { v with
    xyz := bv.xyz
    uv := if ctx.bg_isp.texture then bv.uv else v.uv
    color := parsePackedColor bv.base_color
    offset_color :=
      if ctx.bg_isp.offset then parsePackedColor bv.offset_color else v.offset_color }

/-- `tr_parse_bg` (tr.c): synthesize the opaque background quad; the fourth
vertex is the parallelogram completion `vd = vb + (vb - va) + (vc - va)`
for position and uv, copying color and offset color from `va`. -/
def tr_parse_bg (texFn : TexOracle) (ctx : TaCtx) (tr : Tr) (rc : TrContext) :
    Tr × TrContext :=
  let tr := { tr with list_type := TA_LIST_OPAQUE }
  let rc := tr_reserve_surf rc false
  let bgParams : SurfParams :=
    { zeroParams with
      texture := if ctx.bg_isp.texture then texFn ctx.bg_tsp ctx.bg_tcw else 0
      depth_write := ! ctx.bg_isp.z_write_disable
      depth_func := translate_depth_func ctx.bg_isp.depth_compare_mode
      cull := translate_cull ctx.bg_isp.culling_mode
      src_blend := .none
      dst_blend := .none }
  let rc := modStaged rc (fun s => { s with params := bgParams })
  let r1 := tr_reserve_vert rc
  let rc := r1.1
  let ia := r1.2
  let r2 := tr_reserve_vert rc
  let rc := r2.1
  let ib := r2.2
  let r3 := tr_reserve_vert rc
  let rc := r3.1
  let ic := r3.2
  let r4 := tr_reserve_vert rc
  let rc := r4.1
  let idd := r4.2
  let rc := modVert rc ia (tr_parse_bg_vert ctx ctx.bg_a)
  let rc := modVert rc ib (tr_parse_bg_vert ctx ctx.bg_b)
  let rc := modVert rc ic (tr_parse_bg_vert ctx ctx.bg_c)
  let va := rc.verts ia
  let vb := rc.verts ib
  let vc := rc.verts ic
  let vd_xyz := vec3_add (vec3_add vb.xyz (vec3_sub vb.xyz va.xyz)) (vec3_sub vc.xyz va.xyz)
  let vd_uv := vec2_add (vec2_add vb.uv (vec2_sub vb.uv va.uv)) (vec2_sub vc.uv va.uv)
  let rc := modVert rc idd (fun v =>
    { v with xyz := vd_xyz, uv := vd_uv, color := va.color, offset_color := va.offset_color })
  let rc := tr_commit_surf tr rc
  ({ tr with list_type := TA_NUM_LISTS }, rc)

/-! ## Stream driver (tr.c lines 837-898) -/

/-- Modelled from the spec: `ta_pcw_list_type_valid` of the front-end
(guest/pvr/ta.c, not under src/) -- "the safe interpretation: only adopt
the new list if no list is currently active" (spec section 4.1). -/
def ta_pcw_list_type_valid (_pcw : Pcw) (current_list_type : ℕ) : Bool :=
  current_list_type == TA_NUM_LISTS

/-- One iteration of `tr_convert_context`'s stream loop: possibly adopt the
PCW's list type, dispatch on the parameter tag, then record a diagnostic
trail entry. `none` models `LOG_FATAL` (`TA_PARAM_OBJ_LIST_SET` or a fatal
handler path). -/
def tr_step (texFn : TexOracle) (ctx : TaCtx) (st : Tr × TrContext) (p : TaParam) :
    Option (Tr × TrContext) :=
  let (tr, rc) := st
  let tr :=
    if ta_pcw_list_type_valid p.pcw tr.list_type then
      { tr with list_type := p.pcw.list_type }
    else tr
  let dispatched : Option (Tr × TrContext) :=
    match p with
    | .eol _ => some (tr_parse_eol tr, rc)
    | .userTileClip _ => some (tr, rc)
    | .objListSet _ => none
    | .poly c => tr_parse_poly_param texFn ctx tr rc c
    | .vertex c => tr_parse_vert_param tr rc c
  match dispatched with
  | none => none
  | some (tr, rc) =>
      let entry : TrParamRec :=
        { list_type := tr.list_type
          vert_type := tr.vert_type
          last_surf := (rc.num_surfs : ℤ) - 1
          last_vert := (rc.num_verts : ℤ) - 1 }
      some (tr, { rc with params := updF rc.params rc.num_params entry,
                          num_params := rc.num_params + 1 })

/-- The list-type adoption step of `tr_step` in isolation. -/
def tr_adopt (tr : Tr) (p : TaParam) : Tr :=
  if ta_pcw_list_type_valid p.pcw tr.list_type then
    { tr with list_type := p.pcw.list_type }
  else tr

/-- The parameter dispatch of `tr_step` in isolation. -/
def tr_dispatch (texFn : TexOracle) (ctx : TaCtx) (tr : Tr) (rc : TrContext) :
    TaParam → Option (Tr × TrContext)
  | .eol _ => some (tr_parse_eol tr, rc)
  | .userTileClip _ => some (tr, rc)
  | .objListSet _ => none
  | .poly c => tr_parse_poly_param texFn ctx tr rc c
  | .vertex c => tr_parse_vert_param tr rc c

/-! ## Surface sort (tr.c lines 744-772) -/

/-- The `minz` key `tr_sort_surfaces` computes per surface: the minimum of
the three staged vertex z values (two applications of the `MIN` macro). -/
def surf_minz (rc : TrContext) (surf_index : ℕ) : ℚ :=
  let s := rc.surfs surf_index
  qmin (qmin (rc.verts s.first_vert).xyz.z (rc.verts (s.first_vert + 1)).xyz.z)
    (rc.verts (s.first_vert + 2)).xyz.z

/-- Modelled from the spec: the merge step of `msort_noalloc` (core/sort.c,
not under src/) -- spec section 4.7: a stable merge sort with an auxiliary
buffer. The comparator answers, as `tr_compare_surf` does, whether the
first element may stay in front of the second; merging takes from the left
run when the comparator holds, which preserves submission order for ties.
Fuel keeps the recursion structural; any fuel at least the total length
gives the merge. -/
def mergeRuns {α : Type} (le : α → α → Bool) : ℕ → List α → List α → List α
  | 0, xs, ys => xs ++ ys
  | _ + 1, [], ys => ys
  | _ + 1, x :: xs, [] => x :: xs
  | fuel + 1, x :: xs, y :: ys =>
      if le x y then x :: mergeRuns le fuel xs (y :: ys)
      else y :: mergeRuns le fuel (x :: xs) ys

/-- Modelled from the spec: `msort_noalloc` (see `mergeRuns`): split in
half, sort the halves, merge. -/
def msortFuel {α : Type} (le : α → α → Bool) : ℕ → List α → List α
  | 0, l => l
  | fuel + 1, l =>
      if l.length ≤ 1 then l
      else
        let n := l.length / 2
        mergeRuns le l.length (msortFuel le fuel (l.take n)) (msortFuel le fuel (l.drop n))

def msort {α : Type} (le : α → α → Bool) (l : List α) : List α :=
  msortFuel le l.length l

/-- The entries of a per-list surface index array, as a list. -/
def listEntries (rc : TrContext) (lt : ℕ) : List ℕ :=
  (List.range (rc.lists lt).num_surfs).map (rc.lists lt).surfs

/-- `tr_sort_surfaces` (tr.c): stable-sort a list's entries ascending by
`minz`. The `CHECK_EQ(surf->num_verts, 3)` assertion inside the minz loop
is the `none` (process abort) outcome. -/
def tr_sort_surfaces (rc : TrContext) (list_type : ℕ) : Option TrContext :=
  let l := rc.lists list_type
  let entries := listEntries rc list_type
  if entries.all (fun si => (rc.surfs si).num_verts == 3) then
    let sorted := msort (fun i j => decide (surf_minz rc i ≤ surf_minz rc j)) entries
    some { rc with
      lists := updF rc.lists list_type
        { l with surfs := fun i => if i < l.num_surfs then sorted.getD i 0 else l.surfs i } }
  else none

/-! ## Index generation (tr.c lines 674-742) -/

/-- `tr_can_merge_surfs` (tr.c): equality of the `params.full` state. -/
def tr_can_merge_surfs (a b : TaSurface) : Bool := a.params == b.params

/-- Append one index (`rc->indices[rc->num_indices++] = ix`). -/
def pushIndex (rc : TrContext) (ix : ℕ) : TrContext :=
  { rc with indices := updF rc.indices rc.num_indices ix,
            num_indices := rc.num_indices + 1 }

/-- One triangle of `tr_generate_indices`' emission loop (tr.c lines
716-729): with the accumulated strip offset odd emit `(v, v+1, v+2)`, else
`(v, v+2, v+1)`, maintaining a CCW winding for the CW-fed strip. -/
def emitSurfTri (rc : TrContext) (strip_offset vertex_offset : ℕ) : TrContext :=
  if strip_offset &&& 1 = 1 then
    pushIndex (pushIndex (pushIndex rc vertex_offset) (vertex_offset + 1)) (vertex_offset + 2)
  else
    pushIndex (pushIndex (pushIndex rc vertex_offset) (vertex_offset + 2)) (vertex_offset + 1)

/-- The per-surface triangle emission of `tr_generate_indices`: triangles
`j` in `0 .. num_verts - 2`, at strip offset `strip_offset + j` and vertex
offset `first_vert + j`. -/
def emitSurfIndices (rc : TrContext) (s : TaSurface) : TrContext :=
  (List.range (s.num_verts - 2)).foldl
    (fun rc j => emitSurfTri rc (s.strip_offset + j) (s.first_vert + j)) rc

/-- The inner merge walk of `tr_generate_indices` (the `j` loop): from
position `j`, emit and absorb surfaces into the group while they merge with
the group root. The source's pointer comparison `surf != root` is equality
of the surface indices. Returns the context, the stop position and the
updated total merge count. Fuel keeps the recursion structural; the callers
pass the list length, which the position never exceeds. -/
def genInner (lt root_si n : ℕ) : ℕ → TrContext → ℕ → ℕ → TrContext × ℕ × ℕ
  | 0, rc, j, num_merged => (rc, j, num_merged)
  | fuel + 1, rc, j, num_merged =>
      if j < n then
        let si := (rc.lists lt).surfs j
        if si ≠ root_si ∧ ¬ tr_can_merge_surfs (rc.surfs root_si) (rc.surfs si) then
          (rc, j, num_merged)
        else
          let num_merged := if si ≠ root_si then num_merged + 1 else num_merged
          let rc := emitSurfIndices rc (rc.surfs si)
          genInner lt root_si n fuel rc (j + 1) num_merged
      else (rc, j, num_merged)

/-- The outer group walk of `tr_generate_indices` (the `i` loop): for each
group, record the first index, run the inner walk, rewrite the group root
to point at the emitted indices, and compact the list slot
(`list->surfs[j - num_merged - 1] = list->surfs[i]`; on every execution the
written position is `i` minus the previously merged count, so the natural
subtraction agrees with the C int arithmetic). -/
def genOuter (lt n : ℕ) : ℕ → TrContext → ℕ → ℕ → TrContext × ℕ
  | 0, rc, _, num_merged => (rc, num_merged)
  | fuel + 1, rc, i, num_merged =>
      if i < n then
        let root_si := (rc.lists lt).surfs i
        let first_index := rc.num_indices
        let (rc, j, num_merged') := genInner lt root_si n n rc i num_merged
        let rc := { rc with
          surfs := updF rc.surfs root_si
            { rc.surfs root_si with first_vert := first_index,
                                    num_verts := rc.num_indices - first_index } }
        let l := rc.lists lt
        let rc := { rc with
          lists := updF rc.lists lt
            { l with surfs := updF l.surfs (j - num_merged' - 1) root_si } }
        genOuter lt n fuel rc j num_merged'
      else (rc, num_merged)

/-- `tr_generate_indices` (tr.c): run the merged emission over a list, then
shrink the list's surface count by the number of merged entries. -/
def tr_generate_indices (rc : TrContext) (lt : ℕ) : TrContext :=
  let n := (rc.lists lt).num_surfs
  let (rc, num_merged) := genOuter lt n n rc 0 0
  let l := rc.lists lt
  { rc with lists := updF rc.lists lt { l with num_surfs := l.num_surfs - num_merged } }

/-! ## Reset and the whole conversion (tr.c lines 774-794, 837-909) -/

/-- `tr_reset` (tr.c), on the render context side: zero every counter and
the five per-list counters. The array contents (and the lists beyond the
five) keep whatever they held. -/
def tr_reset_rc (rc : TrContext) : TrContext :=
  { rc with
    num_params := 0
    num_surfs := 0
    num_verts := 0
    num_indices := 0
    lists := fun i =>
      if i < TA_NUM_LISTS then
        { rc.lists i with num_surfs := 0, num_orig_surfs := 0 }
      else rc.lists i }

/-- `tr_reset` (tr.c), on the transient state side: the local `struct tr`
has every field the conversion reads assigned here. -/
def tr_reset_tr : Tr :=
  { last_vertex := none
    list_type := TA_NUM_LISTS
    vert_type := TA_NUM_VERTS
    face_color := zeroColor
    face_offset_color := zeroColor
    sprite_color := zeroColor
    sprite_offset_color := zeroColor }

/-- `tr_convert_context` (tr.c): reset, viewport, background quad, the
stream walk, the optional translucent/punch-through sorts, then index
generation for all five lists. `none` models a `LOG_FATAL` abort anywhere
in the walk or the sort assertion. -/
def tr_convert_context (texFn : TexOracle) (ctx : TaCtx) (rc : TrContext) :
    Option TrContext :=
  let rc := tr_reset_rc rc
  let rc := { rc with width := ctx.video_width, height := ctx.video_height }
  let (tr, rc) := tr_parse_bg texFn ctx tr_reset_tr rc
  match ctx.stream.foldlM (tr_step texFn ctx) (tr, rc) with
  | none => none
  | some (_, rc) =>
      let sorted : Option TrContext :=
        if ctx.autosort then
          match tr_sort_surfaces rc TA_LIST_TRANSLUCENT with
          | none => none
          | some rc => tr_sort_surfaces rc TA_LIST_PUNCH_THROUGH
        else some rc
      match sorted with
      | none => none
      | some rc => some ((List.range TA_NUM_LISTS).foldl tr_generate_indices rc)

/-! ## Render driver (tr.c lines 796-835) -/

/-- The backend calls the render driver issues, carrying what the backend
receives: `begin_ta_surfaces` gets the viewport and the vertex and index
arrays up to their counts, `draw_ta_surface` the drawn surface's index. -/
inductive RenderEvent where
  | beginSurfaces (width height : ℕ) (verts : List TaVertex) (indices : List ℕ)
  | draw (surf : ℕ)
  | endSurfaces
deriving DecidableEq

/-- The entry walk of `tr_render_list` (tr.c): draw each entry; when an
entry equals `end_surf`, stop after that draw. Returns the events and the
stopped flag. -/
def renderWalk (end_surf : ℤ) : List ℕ → List RenderEvent × Bool
  | [] => ([], false)
  | s :: rest =>
      if (s : ℤ) = end_surf then ([.draw s], true)
      else
        let (evs, st) := renderWalk end_surf rest
        (.draw s :: evs, st)

/-- `tr_render_list` (tr.c): nothing is drawn once `stopped` is set. -/
def tr_render_list (rc : TrContext) (lt : ℕ) (end_surf : ℤ) (stopped : Bool) :
    List RenderEvent × Bool :=
  if stopped then ([], true)
  else renderWalk end_surf (listEntries rc lt)

/-- `tr_render_context_until` (tr.c): begin, walk OPAQUE then PUNCH_THROUGH
then TRANSLUCENT with the shared stopped flag, end unconditionally. -/
def tr_render_context_until (rc : TrContext) (end_surf : ℤ) : List RenderEvent :=
  let b := RenderEvent.beginSurfaces rc.width rc.height
    ((List.range rc.num_verts).map rc.verts) ((List.range rc.num_indices).map rc.indices)
  let (e1, s1) := tr_render_list rc TA_LIST_OPAQUE end_surf false
  let (e2, s2) := tr_render_list rc TA_LIST_PUNCH_THROUGH end_surf s1
  let (e3, _) := tr_render_list rc TA_LIST_TRANSLUCENT end_surf s2
  b :: (e1 ++ e2 ++ e3) ++ [RenderEvent.endSurfaces]

/-- `tr_render_context` (tr.c): `tr_render_context_until` with -1. -/
def tr_render_context (rc : TrContext) : List RenderEvent :=
  tr_render_context_until rc (-1)

/-- The draw prefix the spec describes for C5: every entry up to and
including the first one equal to `end_surf`, all of them when none is. -/
def drawsUntil (end_surf : ℤ) : List ℕ → List ℕ
  | [] => []
  | s :: rest => if (s : ℤ) = end_surf then [s] else s :: drawsUntil end_surf rest

/-! ## Agreement and invariant relations for the determinism claim -/

/-- Whether the last parsed vertex parameter carried end-of-strip. -/
def lastEos (tr : Tr) : Bool :=
  match tr.last_vertex with
  | some lv => lv.pcw.end_of_strip
  | none => false

/-- States in which the staged surface slot (and its vertex run) was written
since the last commit: a vertex-emitting type is latched (a non-modvol
polygon parameter opened a surface) and the previous vertex, if any, did not
close the strip (a commit leaves `last_vertex` pointing at its end-of-strip
vertex until the next reserve overwrites the slot). -/
def stagedLive (tr : Tr) : Prop := tr.vert_type ≤ 16 ∧ lastEos tr = false

/-- Observable agreement of two render contexts: equal counts and equal
array contents within the counts (including the five per-list arrays). -/
structure AgreeRC (a b : TrContext) : Prop where
  ns : a.num_surfs = b.num_surfs
  nv : a.num_verts = b.num_verts
  ni : a.num_indices = b.num_indices
  np : a.num_params = b.num_params
  w : a.width = b.width
  h : a.height = b.height
  surfs : ∀ i, i < a.num_surfs → a.surfs i = b.surfs i
  verts : ∀ i, i < a.num_verts → a.verts i = b.verts i
  idx : ∀ i, i < a.num_indices → a.indices i = b.indices i
  lists : ∀ lt, lt < TA_NUM_LISTS →
    (a.lists lt).num_surfs = (b.lists lt).num_surfs ∧
    (a.lists lt).num_orig_surfs = (b.lists lt).num_orig_surfs ∧
    ∀ i, i < (a.lists lt).num_surfs → (a.lists lt).surfs i = (b.lists lt).surfs i
  pars : ∀ i, i < a.num_params → a.params i = b.params i

/-- `AgreeRC` strengthened with unconditional agreement of the staged
surface slot and its vertex run; the working relation inside a handler,
between a reserve and the following commit. -/
structure AgreeS (a b : TrContext) : Prop where
  rc : AgreeRC a b
  staged_eq : staged a = staged b
  staged_verts : ∀ i, i < (staged a).num_verts →
    a.verts (a.num_verts + i) = b.verts (b.num_verts + i)

/-- Full-state agreement between two conversions: identical transient
state, observable agreement, and staged agreement whenever the staged slot
is live. -/
structure AgreeSt (s t : Tr × TrContext) : Prop where
  tr_eq : s.1 = t.1
  rc : AgreeRC s.2 t.2
  staged_surf : stagedLive s.1 → staged s.2 = staged t.2
  staged_verts : stagedLive s.1 → ∀ i, i < (staged s.2).num_verts →
    s.2.verts (s.2.num_verts + i) = t.2.verts (t.2.num_verts + i)

/-- Single-run structural invariant carried across the stream walk: at
least the background surface exists, every list entry indexes a committed
surface, and translucent / punch-through entries are single-triangle
surfaces whose vertex range is within the committed vertices. -/
structure RcInv (rc : TrContext) : Prop where
  one_surf : 1 ≤ rc.num_surfs
  entries_lt : ∀ lt, lt < TA_NUM_LISTS → ∀ i, i < (rc.lists lt).num_surfs →
    (rc.lists lt).surfs i < rc.num_surfs
  tp_tri : ∀ lt, lt = TA_LIST_TRANSLUCENT ∨ lt = TA_LIST_PUNCH_THROUGH →
    ∀ i, i < (rc.lists lt).num_surfs →
      (rc.surfs ((rc.lists lt).surfs i)).num_verts = 3 ∧
      (rc.surfs ((rc.lists lt).surfs i)).first_vert + 3 ≤ rc.num_verts

/-- Agreement of two conversion outcomes: both abort, or both succeed with
observably equal render contexts. -/
def convertsAgree : Option TrContext → Option TrContext → Prop
  | none, none => True
  | some a, some b => AgreeRC a b
  | _, _ => False

/-! ## Concrete fixtures for witnesses -/

def pcw0 : Pcw :=
  { uv_16bit := false, gouraud := false, offset := false, texture := false,
    list_type := 0, end_of_strip := false }

def isp0 : Isp :=
  { z_write_disable := false, depth_compare_mode := 0, culling_mode := 0,
    texture := false, offset := false }

def tsp0 : Tsp :=
  { src_alpha_instr := 0, dst_alpha_instr := 0, texture_shading_instr := 0,
    use_alpha := false, ignore_tex_alpha := false, filter_mode := 0,
    clamp_u := false, clamp_v := false, flip_u := false, flip_v := false }

def emptyList : TrList := { surfs := fun _ => 0, num_surfs := 0, num_orig_surfs := 0 }

def rc0 : TrContext :=
  { surfs := fun _ => zeroSurf
    num_surfs := 0
    verts := fun _ => zeroVert
    num_verts := 0
    indices := fun _ => 0
    num_indices := 0
    lists := fun _ => emptyList
    params := fun _ => ⟨0, 0, 0, 0⟩
    num_params := 0
    width := 0
    height := 0 }

def vert0 : VertCmd :=
  { pcw := pcw0, xyz := zeroVec3, uv := zeroVec2, uv16 := (0, 0),
    base_color := 0, offset_color := 0,
    base_color_float := ⟨0, 0, 0, 0⟩, offset_color_float := ⟨0, 0, 0, 0⟩,
    base_intensity := 0, offset_intensity := 0,
    sprite_xyz_a := zeroVec3, sprite_xyz_b := zeroVec3, sprite_xyz_c := zeroVec3,
    sprite_xy_d := (0, 0), sprite_uv_a := (0, 0), sprite_uv_b := (0, 0),
    sprite_uv_c := (0, 0) }

def poly0 : PolyCmd :=
  { pcw := pcw0, isp := isp0, tsp := tsp0, tcw := 0, data := .type0 0 }

def texFn0 : TexOracle := fun _ _ => 0

def bgv0 : BgVert := { xyz := zeroVec3, uv := zeroVec2, base_color := 0, offset_color := 0 }

def ctx0 : TaCtx :=
  { stream := [], bg_a := bgv0, bg_b := bgv0, bg_c := bgv0,
    bg_isp := isp0, bg_tsp := tsp0, bg_tcw := 0, alpha_ref := 0,
    autosort := false, video_width := 640, video_height := 480 }

/-! ## Stream well-formedness for the determinism claim

A translucent / punch-through strip committed with a single staged vertex
still advances the vertex count by two (the unconditional `rc->num_verts +=
2` after the per-triangle loop), counting one never-written slot whose
contents are whatever the render context held before. The determinism
statement therefore carries a stream predicate ruling exactly that out:
every translucent / punch-through strip closes with at least two vertices.
The predicate mirrors the handler state it needs: current list type (with
the same adoption rule), latched vertex type, whether the last vertex ended
a strip, and the staged vertex count. -/

structure StripState where
  lt : ℕ
  vt : ℕ
  eos : Bool
  cnt : ℕ
deriving DecidableEq

def stripAdopt (st : StripState) (p : TaParam) : ℕ :=
  if st.lt == TA_NUM_LISTS then p.pcw.list_type else st.lt

def stripStateNext (st : StripState) (p : TaParam) : StripState :=
  let lt := stripAdopt st p
  match p with
  | .eol _ => ⟨TA_NUM_LISTS, TA_NUM_VERTS, false, st.cnt⟩
  | .userTileClip _ => ⟨lt, st.vt, st.eos, st.cnt⟩
  | .objListSet _ => ⟨lt, st.vt, st.eos, st.cnt⟩
  | .poly c => ⟨lt, ta_vert_type c, false, 0⟩
  | .vertex c =>
      if st.vt = 17 then ⟨lt, st.vt, st.eos, st.cnt⟩
      else
        let cnt1 := if st.eos then 0 else st.cnt
        let cnt2 := if st.vt = 15 ∨ st.vt = 16 then cnt1 + 4 else cnt1 + 1
        ⟨lt, st.vt, c.pcw.end_of_strip, cnt2⟩

def stripCheck (st : StripState) (p : TaParam) : Bool :=
  match p with
  | .vertex c =>
      if st.vt = 17 then true
      else
        let lt := stripAdopt st p
        let cnt1 := if st.eos then 0 else st.cnt
        let cnt2 := if st.vt = 15 ∨ st.vt = 16 then cnt1 + 4 else cnt1 + 1
        if c.pcw.end_of_strip ∧ (lt = TA_LIST_TRANSLUCENT ∨ lt = TA_LIST_PUNCH_THROUGH) then
          decide (2 ≤ cnt2)
        else true
  | _ => true

def stripsOk : StripState → List TaParam → Bool
  | _, [] => true
  | st, p :: rest => stripCheck st p && stripsOk (stripStateNext st p) rest

/-- The predicate state at the start of the stream walk (matching the state
`tr_reset` and the background parse leave behind). -/
def stripState0 : StripState := ⟨TA_NUM_LISTS, TA_NUM_VERTS, false, 0⟩

/-- Correspondence between the walker state and the predicate state. -/
def stripStateMatches (s : Tr × TrContext) (st : StripState) : Prop :=
  st.lt = s.1.list_type ∧ st.vt = s.1.vert_type ∧ st.eos = lastEos s.1 ∧
  (stagedLive s.1 → st.cnt = (staged s.2).num_verts)

/-! ## Fixtures for the determinism counterexample -/

/-- A stream with a single-vertex translucent strip: one translucent type-0
polygon parameter followed by one end-of-strip vertex. -/
def ctxCE : TaCtx :=
  { ctx0 with stream :=
      [TaParam.poly { poly0 with pcw := { pcw0 with list_type := TA_LIST_TRANSLUCENT } },
       TaParam.vertex { vert0 with pcw := { pcw0 with list_type := TA_LIST_TRANSLUCENT, end_of_strip := true } }] }

/-- A prior render context whose stale vertex memory differs from `rc0`. -/
def rcP2 : TrContext :=
  { rc0 with verts := fun _ => { zeroVert with xyz := ⟨7, 7, 7⟩ } }

/-- The footprint of a vertex-handler body on the render context: counters,
committed surfaces and the per-list arrays untouched, the staged vertex
count advanced by `k` (the body only reserves staged vertices and writes
their slots). -/
structure BodyShape (k : ℕ) (c c' : TrContext) : Prop where
  ns : c'.num_surfs = c.num_surfs
  nv : c'.num_verts = c.num_verts
  stg : (staged c').num_verts = (staged c).num_verts + k
  surfs : ∀ j, j < c.num_surfs → c'.surfs j = c.surfs j
  lists : ∀ l, c'.lists l = c.lists l
  np : c'.num_params = c.num_params
  prs : c'.params = c.params
  ni : c'.num_indices = c.num_indices
  idx : c'.indices = c.indices

/-! # Theorems -/

/-! ## Array update basics -/

theorem updF_self {α : Type} (f : ℕ → α) (i : ℕ) (x : α) : updF f i x i = x := by
  simp [updF]

theorem updF_ne {α : Type} (f : ℕ → α) (i : ℕ) (x : α) (j : ℕ) (h : j ≠ i) :
    updF f i x j = f j := by
  simp [updF, h]

/-! ## C7: ftou8 saturation -/

theorem ratTrunc_intCast (n : ℤ) : ratTrunc (n : ℚ) = n := by
  simp [ratTrunc, Rat.num_intCast, Rat.den_intCast]

/-- C7: `ftou8` converts a float to a byte by truncating `f*255` toward
zero and saturating to [0, 255]: `ftou8(-1.0) = 0`, `ftou8(2.0) = 255`,
`ftou8(0.5) = 127`; the result never exceeds 255. -/
theorem C7_ftou8_saturating :
    ftou8 (-1) = 0 ∧ ftou8 2 = 255 ∧ ftou8 (1 / 2) = 127 ∧ ∀ x : ℚ, ftou8 x ≤ 255 := by
  refine ⟨?_, ?_, ?_, ?_⟩
  · have h : ((-1 : ℚ) * 255) = ((-255 : ℤ) : ℚ) := by norm_num
    unfold ftou8
    rw [h, ratTrunc_intCast]
    decide
  · have h : ((2 : ℚ) * 255) = ((510 : ℤ) : ℚ) := by norm_num
    unfold ftou8
    rw [h, ratTrunc_intCast]
    decide
  · have h : ((1 / 2 : ℚ) * 255) = 255 / 2 := by norm_num
    have hn : ((255 : ℚ) / 2).num = 255 := by norm_num
    have hd : ((255 : ℚ) / 2).den = 2 := by norm_num
    unfold ftou8 ratTrunc
    rw [h, hn, hd]
    decide
  · intro x
    unfold ftou8
    have h1 : min (max (ratTrunc (x * 255)) 0) 255 ≤ 255 := min_le_right _ _
    omega

/-! ## C9: packed color round trip -/

theorem shiftRight_and_distrib (x y k : ℕ) :
    (x &&& y) >>> k = (x >>> k) &&& (y >>> k) := by
  apply Nat.eq_of_testBit_eq
  intro i
  simp [Nat.testBit_shiftRight, Nat.testBit_and, Nat.add_comm]

theorem parsePackedColor_eq_divmod (w : ℕ) :
    parsePackedColor w =
      ⟨w / 2 ^ 16 % 2 ^ 8, w / 2 ^ 8 % 2 ^ 8, w % 2 ^ 8, w / 2 ^ 24 % 2 ^ 8⟩ := by
  have hr : (w &&& 0x00ff0000) >>> 16 = w / 2 ^ 16 % 2 ^ 8 := by
    rw [shiftRight_and_distrib]
    have h : (0x00ff0000 : ℕ) >>> 16 = 2 ^ 8 - 1 := by decide
    rw [h, Nat.and_pow_two_sub_one_eq_mod, Nat.shiftRight_eq_div_pow]
  have hg : (w &&& 0x0000ff00) >>> 8 = w / 2 ^ 8 % 2 ^ 8 := by
    rw [shiftRight_and_distrib]
    have h : (0x0000ff00 : ℕ) >>> 8 = 2 ^ 8 - 1 := by decide
    rw [h, Nat.and_pow_two_sub_one_eq_mod, Nat.shiftRight_eq_div_pow]
  have hb : w &&& 0x000000ff = w % 2 ^ 8 := by
    have h : (0x000000ff : ℕ) = 2 ^ 8 - 1 := by decide
    rw [h, Nat.and_pow_two_sub_one_eq_mod]
  have ha : (w &&& 0xff000000) >>> 24 = w / 2 ^ 24 % 2 ^ 8 := by
    rw [shiftRight_and_distrib]
    have h : (0xff000000 : ℕ) >>> 24 = 2 ^ 8 - 1 := by decide
    rw [h, Nat.and_pow_two_sub_one_eq_mod, Nat.shiftRight_eq_div_pow]
  unfold parsePackedColor
  rw [hr, hg, hb, ha]

/-- C9: parsing a 32-bit `0xAARRGGBB` word yields the `[R, G, B, A]` bytes,
and re-serializing those bytes into the `0xAARRGGBB` layout restores the
word, for every 32-bit input. -/
theorem C9_packed_color_roundtrip (w : ℕ) (hw : w < 2 ^ 32) :
    parsePackedColor w =
      ⟨w / 2 ^ 16 % 2 ^ 8, w / 2 ^ 8 % 2 ^ 8, w % 2 ^ 8, w / 2 ^ 24 % 2 ^ 8⟩ ∧
    packColorAARRGGBB (parsePackedColor w) = w := by
  refine ⟨parsePackedColor_eq_divmod w, ?_⟩
  rw [parsePackedColor_eq_divmod]
  show w / 2 ^ 24 % 2 ^ 8 * 2 ^ 24 + w / 2 ^ 16 % 2 ^ 8 * 2 ^ 16 +
    w / 2 ^ 8 % 2 ^ 8 * 2 ^ 8 + w % 2 ^ 8 = w
  omega

theorem C9_packed_color_roundtrip_witness :
    (0x11223344 : ℕ) < 2 ^ 32 ∧
    packColorAARRGGBB (parsePackedColor 0x11223344) = 0x11223344 :=
  ⟨by decide, (C9_packed_color_roundtrip 0x11223344 (by decide)).2⟩

/-! ## C8: intensity-encoded vertex channels -/

/-- C8: for intensity-encoded vertices (types 2, 7, 8) the handler body
emits a vertex whose RGB channels are `face_color_channel * ftou8(intensity)
/ 255` in truncating integer arithmetic, with the alpha channel copied from
the face color unchanged; for types 7 and 8 the offset color likewise from
`face_offset_color` and the offset intensity. The division is not a shift:
`fmulu8 255 255 = 255` while `(255*255) >>> 8 = 254`. -/
theorem C8_intensity_channels (tr : Tr) (rc : TrContext) (p : VertCmd)
    (h : tr.vert_type = 2 ∨ tr.vert_type = 7 ∨ tr.vert_type = 8) :
    ∃ rc', tr_parse_vert_body tr rc p = .emitted rc' ∧
      (rc'.verts (rc.num_verts + (staged rc).num_verts)).color =
        ⟨tr.face_color.r * ftou8 p.base_intensity / 255,
         tr.face_color.g * ftou8 p.base_intensity / 255,
         tr.face_color.b * ftou8 p.base_intensity / 255,
         tr.face_color.a⟩ ∧
      ((tr.vert_type = 7 ∨ tr.vert_type = 8) →
        (rc'.verts (rc.num_verts + (staged rc).num_verts)).offset_color =
          ⟨tr.face_offset_color.r * ftou8 p.offset_intensity / 255,
           tr.face_offset_color.g * ftou8 p.offset_intensity / 255,
           tr.face_offset_color.b * ftou8 p.offset_intensity / 255,
           tr.face_offset_color.a⟩) ∧
      fmulu8 255 255 ≠ (255 * 255) >>> 8 := by
  rcases h with h | h | h <;>
    refine ⟨_, by rw [tr_parse_vert_body, h], ?_, ?_, by decide⟩ <;>
    simp [h, tr_parse_vert_body, tr_reserve_vert, modVert, modStaged, staged, updF,
      parseIntensity, fmulu8]

theorem C8_intensity_channels_witness :
    ((2 : ℕ) = 2 ∨ (2 : ℕ) = 7 ∨ (2 : ℕ) = 8) ∧
    ∃ rc', tr_parse_vert_body { tr_reset_tr with vert_type := 2 } rc0 vert0 = .emitted rc' ∧
      (rc'.verts (rc0.num_verts + (staged rc0).num_verts)).color =
        ⟨({ tr_reset_tr with vert_type := 2 } : Tr).face_color.r * ftou8 vert0.base_intensity / 255,
         ({ tr_reset_tr with vert_type := 2 } : Tr).face_color.g * ftou8 vert0.base_intensity / 255,
         ({ tr_reset_tr with vert_type := 2 } : Tr).face_color.b * ftou8 vert0.base_intensity / 255,
         ({ tr_reset_tr with vert_type := 2 } : Tr).face_color.a⟩ ∧
      ((({ tr_reset_tr with vert_type := 2 } : Tr).vert_type = 7 ∨
        ({ tr_reset_tr with vert_type := 2 } : Tr).vert_type = 8) →
        (rc'.verts (rc0.num_verts + (staged rc0).num_verts)).offset_color =
          ⟨({ tr_reset_tr with vert_type := 2 } : Tr).face_offset_color.r * ftou8 vert0.offset_intensity / 255,
           ({ tr_reset_tr with vert_type := 2 } : Tr).face_offset_color.g * ftou8 vert0.offset_intensity / 255,
           ({ tr_reset_tr with vert_type := 2 } : Tr).face_offset_color.b * ftou8 vert0.offset_intensity / 255,
           ({ tr_reset_tr with vert_type := 2 } : Tr).face_offset_color.a⟩) ∧
      fmulu8 255 255 ≠ (255 * 255) >>> 8 :=
  ⟨Or.inl rfl, C8_intensity_channels { tr_reset_tr with vert_type := 2 } rc0 vert0 (Or.inl rfl)⟩

/-! ## C3: triangle winding of index generation -/

theorem pushIndex_num (rc : TrContext) (x : ℕ) :
    (pushIndex rc x).num_indices = rc.num_indices + 1 := rfl

theorem pushIndex_read_lt (rc : TrContext) (x i : ℕ) (h : i < rc.num_indices) :
    (pushIndex rc x).indices i = rc.indices i :=
  updF_ne _ _ _ _ (by omega)

theorem pushIndex_read_self (rc : TrContext) (x : ℕ) :
    (pushIndex rc x).indices rc.num_indices = x :=
  updF_self _ _ _

theorem emitSurfTri_num (rc : TrContext) (so vo : ℕ) :
    (emitSurfTri rc so vo).num_indices = rc.num_indices + 3 := by
  unfold emitSurfTri
  split <;> simp [pushIndex_num]

theorem emitSurfTri_preserve (rc : TrContext) (so vo i : ℕ) (h : i < rc.num_indices) :
    (emitSurfTri rc so vo).indices i = rc.indices i := by
  unfold emitSurfTri
  split <;>
    rw [pushIndex_read_lt _ _ _ (by simp [pushIndex_num]; omega),
      pushIndex_read_lt _ _ _ (by simp [pushIndex_num]; omega),
      pushIndex_read_lt _ _ _ h]

theorem emitSurfTri_read (rc : TrContext) (so vo : ℕ) :
    ((emitSurfTri rc so vo).indices rc.num_indices,
     (emitSurfTri rc so vo).indices (rc.num_indices + 1),
     (emitSurfTri rc so vo).indices (rc.num_indices + 2)) =
      if so &&& 1 = 1 then (vo, vo + 1, vo + 2) else (vo, vo + 2, vo + 1) := by
  unfold emitSurfTri
  split_ifs <;> simp only [Prod.mk.injEq] <;> refine ⟨?_, ?_, ?_⟩
  · rw [pushIndex_read_lt _ _ _ (by simp only [pushIndex_num]; omega),
      pushIndex_read_lt _ _ _ (by simp only [pushIndex_num]; omega)]
    exact pushIndex_read_self rc vo
  · rw [pushIndex_read_lt _ _ _ (by simp only [pushIndex_num]; omega)]
    exact pushIndex_read_self (pushIndex rc vo) (vo + 1)
  · exact pushIndex_read_self (pushIndex (pushIndex rc vo) (vo + 1)) (vo + 2)
  · rw [pushIndex_read_lt _ _ _ (by simp only [pushIndex_num]; omega),
      pushIndex_read_lt _ _ _ (by simp only [pushIndex_num]; omega)]
    exact pushIndex_read_self rc vo
  · rw [pushIndex_read_lt _ _ _ (by simp only [pushIndex_num]; omega)]
    exact pushIndex_read_self (pushIndex rc vo) (vo + 2)
  · exact pushIndex_read_self (pushIndex (pushIndex rc vo) (vo + 2)) (vo + 1)

theorem emitFold_num (so fv : ℕ) :
    ∀ (k : ℕ) (rc : TrContext),
      ((List.range k).foldl (fun rc j => emitSurfTri rc (so + j) (fv + j)) rc).num_indices =
        rc.num_indices + 3 * k := by
  intro k
  induction k with
  | zero => intro rc; simp
  | succ k ih =>
      intro rc
      rw [List.range_succ, List.foldl_append]
      simp only [List.foldl_cons, List.foldl_nil]
      rw [emitSurfTri_num, ih]
      omega

theorem emitFold_preserve (so fv : ℕ) :
    ∀ (k : ℕ) (rc : TrContext) (i : ℕ), i < rc.num_indices →
      ((List.range k).foldl (fun rc j => emitSurfTri rc (so + j) (fv + j)) rc).indices i =
        rc.indices i := by
  intro k
  induction k with
  | zero => intro rc i _; rfl
  | succ k ih =>
      intro rc i h
      rw [List.range_succ, List.foldl_append]
      simp only [List.foldl_cons, List.foldl_nil]
      rw [emitSurfTri_preserve, ih _ _ h]
      rw [emitFold_num]
      omega

theorem emitFold_read (so fv : ℕ) :
    ∀ (k : ℕ) (rc : TrContext) (j : ℕ), j < k →
      (((List.range k).foldl (fun rc j => emitSurfTri rc (so + j) (fv + j)) rc).indices
          (rc.num_indices + 3 * j),
        ((List.range k).foldl (fun rc j => emitSurfTri rc (so + j) (fv + j)) rc).indices
          (rc.num_indices + 3 * j + 1),
        ((List.range k).foldl (fun rc j => emitSurfTri rc (so + j) (fv + j)) rc).indices
          (rc.num_indices + 3 * j + 2)) =
        if (so + j) &&& 1 = 1 then (fv + j, fv + j + 1, fv + j + 2)
        else (fv + j, fv + j + 2, fv + j + 1) := by
  intro k
  induction k with
  | zero => intro rc j h; omega
  | succ k ih =>
      intro rc j h
      rw [List.range_succ, List.foldl_append]
      simp only [List.foldl_cons, List.foldl_nil]
      rcases Nat.lt_or_ge j k with hk | hk
      · have hnum := emitFold_num so fv k rc
        rw [emitSurfTri_preserve _ _ _ _ (by omega), emitSurfTri_preserve _ _ _ _ (by omega),
          emitSurfTri_preserve _ _ _ _ (by omega)]
        exact ih rc j hk
      · have hjk : j = k := by omega
        subst hjk
        have hnum := emitFold_num so fv j rc
        have h0 : rc.num_indices + 3 * j =
            ((List.range j).foldl (fun rc i => emitSurfTri rc (so + i) (fv + i)) rc).num_indices := by
          omega
        rw [h0]
        exact emitSurfTri_read _ _ _

/-- C3: every triangle emitted by index generation from surface `s` at
triangle position `j` (vertex offset `v = first_vert + j`) is the triple
`(v, v+1, v+2)` exactly when `strip_offset + j` is odd, and `(v, v+2, v+1)`
otherwise. -/
theorem C3_index_winding (rc : TrContext) (s : TaSurface) (j : ℕ)
    (hj : j < s.num_verts - 2) :
    (((emitSurfIndices rc s).indices (rc.num_indices + 3 * j),
      (emitSurfIndices rc s).indices (rc.num_indices + 3 * j + 1),
      (emitSurfIndices rc s).indices (rc.num_indices + 3 * j + 2)) =
      if (s.strip_offset + j) % 2 = 1
      then (s.first_vert + j, s.first_vert + j + 1, s.first_vert + j + 2)
      else (s.first_vert + j, s.first_vert + j + 2, s.first_vert + j + 1)) ∧
    (((emitSurfIndices rc s).indices (rc.num_indices + 3 * j),
      (emitSurfIndices rc s).indices (rc.num_indices + 3 * j + 1),
      (emitSurfIndices rc s).indices (rc.num_indices + 3 * j + 2)) =
        (s.first_vert + j, s.first_vert + j + 1, s.first_vert + j + 2) ↔
      (s.strip_offset + j) % 2 = 1) := by
  have h := emitFold_read s.strip_offset s.first_vert (s.num_verts - 2) rc j hj
  have hmod : (s.strip_offset + j) &&& 1 = (s.strip_offset + j) % 2 := Nat.and_one_is_mod _
  rw [hmod] at h
  have hgoal : ((emitSurfIndices rc s).indices (rc.num_indices + 3 * j),
      (emitSurfIndices rc s).indices (rc.num_indices + 3 * j + 1),
      (emitSurfIndices rc s).indices (rc.num_indices + 3 * j + 2)) =
      if (s.strip_offset + j) % 2 = 1
      then (s.first_vert + j, s.first_vert + j + 1, s.first_vert + j + 2)
      else (s.first_vert + j, s.first_vert + j + 2, s.first_vert + j + 1) := h
  refine ⟨hgoal, ?_⟩
  rcases eq_or_ne ((s.strip_offset + j) % 2) 1 with hp | hp
  · rw [hp] at hgoal ⊢
    simp only [if_pos rfl] at hgoal
    simp [hgoal]
  · rw [if_neg hp] at hgoal
    rw [hgoal]
    constructor
    · intro hEq
      exfalso
      have h21 := congrArg (fun t => t.2.1) hEq
      simp at h21
    · intro hEq
      exact absurd hEq hp

theorem C3_index_winding_witness :
    (1 : ℕ) < ({ zeroSurf with num_verts := 4 } : TaSurface).num_verts - 2 ∧
    (((emitSurfIndices rc0 { zeroSurf with num_verts := 4 }).indices (rc0.num_indices + 3 * 1),
      (emitSurfIndices rc0 { zeroSurf with num_verts := 4 }).indices (rc0.num_indices + 3 * 1 + 1),
      (emitSurfIndices rc0 { zeroSurf with num_verts := 4 }).indices (rc0.num_indices + 3 * 1 + 2)) =
      if (({ zeroSurf with num_verts := 4 } : TaSurface).strip_offset + 1) % 2 = 1
      then (({ zeroSurf with num_verts := 4 } : TaSurface).first_vert + 1,
            ({ zeroSurf with num_verts := 4 } : TaSurface).first_vert + 1 + 1,
            ({ zeroSurf with num_verts := 4 } : TaSurface).first_vert + 1 + 2)
      else (({ zeroSurf with num_verts := 4 } : TaSurface).first_vert + 1,
            ({ zeroSurf with num_verts := 4 } : TaSurface).first_vert + 1 + 2,
            ({ zeroSurf with num_verts := 4 } : TaSurface).first_vert + 1 + 1)) :=
  ⟨by decide, (C3_index_winding rc0 { zeroSurf with num_verts := 4 } 1 (by decide)).1⟩

/-! ## C5: render driver order and early stop -/

theorem renderWalk_eq (e : ℤ) :
    ∀ l : List ℕ,
      renderWalk e l =
        ((drawsUntil e l).map RenderEvent.draw, l.any fun s => decide ((s : ℤ) = e)) := by
  intro l
  induction l with
  | nil => rfl
  | cons s rest ih =>
      unfold renderWalk drawsUntil
      by_cases h : (s : ℤ) = e
      · simp [h]
      · simp [h, ih]

theorem drawsUntil_append (e : ℤ) :
    ∀ l1 l2 : List ℕ,
      drawsUntil e (l1 ++ l2) =
        if l1.any (fun s => decide ((s : ℤ) = e)) then drawsUntil e l1
        else drawsUntil e l1 ++ drawsUntil e l2 := by
  intro l1
  induction l1 with
  | nil => intro l2; simp [drawsUntil]
  | cons s rest ih =>
      intro l2
      simp only [List.cons_append, drawsUntil, List.any_cons, List.append_eq]
      by_cases h : (s : ℤ) = e
      · simp [h]
      · rw [if_neg h, if_neg h, ih]
        by_cases hr : rest.any (fun s => decide ((s : ℤ) = e))
        · simp [h, hr]
        · simp [h, hr]

theorem tr_render_list_eq (rc : TrContext) (lt : ℕ) (e : ℤ) (st : Bool) :
    tr_render_list rc lt e st =
      (if st then [] else (drawsUntil e (listEntries rc lt)).map RenderEvent.draw,
       st || (listEntries rc lt).any fun s => decide ((s : ℤ) = e)) := by
  cases st <;> simp [tr_render_list, renderWalk_eq]

/-- C5: `tr_render_context_until` begins, then draws the three lists in the
fixed order OPAQUE, PUNCH_THROUGH, TRANSLUCENT, stopping after the first
drawn surface whose index equals `end_surf` with no further draws from any
list, and ends unconditionally; `tr_render_context` is exactly
`tr_render_context_until` at -1. -/
theorem C5_render_order_stop (rc : TrContext) (e : ℤ) :
    tr_render_context_until rc e =
      RenderEvent.beginSurfaces rc.width rc.height ((List.range rc.num_verts).map rc.verts)
          ((List.range rc.num_indices).map rc.indices) ::
        (drawsUntil e (listEntries rc TA_LIST_OPAQUE ++ listEntries rc TA_LIST_PUNCH_THROUGH ++
          listEntries rc TA_LIST_TRANSLUCENT)).map RenderEvent.draw ++
        [RenderEvent.endSurfaces] ∧
    tr_render_context rc = tr_render_context_until rc (-1) := by
  refine ⟨?_, rfl⟩
  unfold tr_render_context_until
  simp only [tr_render_list_eq, Bool.false_or, Bool.false_eq_true, if_false]
  rw [drawsUntil_append, drawsUntil_append]
  by_cases h1 : (listEntries rc TA_LIST_OPAQUE).any (fun s => decide ((s : ℤ) = e)) <;>
    by_cases h2 : (listEntries rc TA_LIST_PUNCH_THROUGH).any (fun s => decide ((s : ℤ) = e)) <;>
    simp [h1, h2, List.any_append]

/-! ## C1: the punch-through depth-func override is dead code

In `tr_parse_poly_param` (tr.c lines 469-480) the three list-type override
rules form one `if / else if / else if` chain. A punch-through list
satisfies the first branch's condition (it is neither translucent list), so
the chain's final arm, which would set `depth_func = GEQUAL`, can never
execute: after a punch-through polygon parameter the surface keeps the
table-translated depth func. `alpha_test` and `alpha_ref` are set as the
claim states (unconditionally, before the chain). -/

theorem C1_punch_through_depth_override_dead :
    ∃ tr' rc',
      tr_parse_poly_param texFn0 { ctx0 with alpha_ref := 0x40 }
          { tr_reset_tr with list_type := TA_LIST_PUNCH_THROUGH } rc0 poly0 =
        some (tr', rc') ∧
      (staged rc').params.alpha_test = true ∧
      (staged rc').params.alpha_ref = 0x40 ∧
      (staged rc').params.depth_func = DepthFunc.never ∧
      DepthFunc.never ≠ DepthFunc.gequal := by
  refine ⟨_, _, rfl, ?_, ?_, ?_, by decide⟩ <;>
    simp [tr_parse_poly_param, staged, modStaged, tr_reserve_surf, updF, poly0, isp0, tsp0,
      pcw0, ctx0, tr_reset_tr, ta_poly_type, ta_vert_type, TA_LIST_PUNCH_THROUGH,
      TA_LIST_TRANSLUCENT, TA_LIST_TRANSLUCENT_MODVOL, translate_depth_func, texFn0, rc0]

/-! ## C2: commit splits translucent strips into per-triangle surfaces -/

theorem commit_tri_step_spec (lt : ℕ) (rc : TrContext) (i : ℕ) :
    (tr_commit_tri_step lt rc i).num_surfs = rc.num_surfs + 1 ∧
    (tr_commit_tri_step lt rc i).num_verts = rc.num_verts + 1 ∧
    (tr_commit_tri_step lt rc i).verts = rc.verts ∧
    (tr_commit_tri_step lt rc i).indices = rc.indices ∧
    (tr_commit_tri_step lt rc i).num_indices = rc.num_indices ∧
    (tr_commit_tri_step lt rc i).params = rc.params ∧
    (tr_commit_tri_step lt rc i).num_params = rc.num_params ∧
    (tr_commit_tri_step lt rc i).width = rc.width ∧
    (tr_commit_tri_step lt rc i).height = rc.height ∧
    (∀ l, l ≠ lt → (tr_commit_tri_step lt rc i).lists l = rc.lists l) ∧
    ((tr_commit_tri_step lt rc i).lists lt).num_surfs = (rc.lists lt).num_surfs + 1 ∧
    ((tr_commit_tri_step lt rc i).lists lt).num_orig_surfs = (rc.lists lt).num_orig_surfs ∧
    (∀ j, j ≠ rc.num_surfs → (tr_commit_tri_step lt rc i).surfs j = rc.surfs j) ∧
    (∀ p, p ≠ (rc.lists lt).num_surfs →
      ((tr_commit_tri_step lt rc i).lists lt).surfs p = (rc.lists lt).surfs p) ∧
    ((tr_commit_tri_step lt rc i).surfs rc.num_surfs).num_verts = 3 ∧
    ((tr_commit_tri_step lt rc i).surfs rc.num_surfs).strip_offset = i ∧
    ((tr_commit_tri_step lt rc i).surfs rc.num_surfs).first_vert = rc.num_verts ∧
    ((tr_commit_tri_step lt rc i).lists lt).surfs (rc.lists lt).num_surfs = rc.num_surfs := by
  obtain hi | hi := eq_or_ne i 0 <;>
    refine ⟨?_, ?_, ?_, ?_, ?_, ?_, ?_, ?_, ?_, ?_, ?_, ?_, ?_, ?_, ?_, ?_, ?_, ?_⟩ <;>
      first
      | (intro x hx
         simp [tr_commit_tri_step, tr_reserve_surf, modStaged, listAppend, staged, updF, hi, hx])
      | simp [tr_commit_tri_step, tr_reserve_surf, modStaged, listAppend, staged, updF, hi]

theorem commitLoop_spec (lt : ℕ) :
    ∀ (k : ℕ) (rc : TrContext),
      ((List.range k).foldl (tr_commit_tri_step lt) rc).num_surfs = rc.num_surfs + k ∧
      ((List.range k).foldl (tr_commit_tri_step lt) rc).num_verts = rc.num_verts + k ∧
      ((List.range k).foldl (tr_commit_tri_step lt) rc).verts = rc.verts ∧
      ((List.range k).foldl (tr_commit_tri_step lt) rc).indices = rc.indices ∧
      ((List.range k).foldl (tr_commit_tri_step lt) rc).num_indices = rc.num_indices ∧
      ((List.range k).foldl (tr_commit_tri_step lt) rc).params = rc.params ∧
      ((List.range k).foldl (tr_commit_tri_step lt) rc).num_params = rc.num_params ∧
      ((List.range k).foldl (tr_commit_tri_step lt) rc).width = rc.width ∧
      ((List.range k).foldl (tr_commit_tri_step lt) rc).height = rc.height ∧
      (∀ l, l ≠ lt → ((List.range k).foldl (tr_commit_tri_step lt) rc).lists l = rc.lists l) ∧
      (((List.range k).foldl (tr_commit_tri_step lt) rc).lists lt).num_surfs =
        (rc.lists lt).num_surfs + k ∧
      (((List.range k).foldl (tr_commit_tri_step lt) rc).lists lt).num_orig_surfs =
        (rc.lists lt).num_orig_surfs ∧
      (∀ j, j < rc.num_surfs →
        ((List.range k).foldl (tr_commit_tri_step lt) rc).surfs j = rc.surfs j) ∧
      (∀ p, p < (rc.lists lt).num_surfs →
        (((List.range k).foldl (tr_commit_tri_step lt) rc).lists lt).surfs p =
          (rc.lists lt).surfs p) ∧
      (∀ i, i < k →
        (((List.range k).foldl (tr_commit_tri_step lt) rc).surfs (rc.num_surfs + i)).num_verts = 3 ∧
        (((List.range k).foldl (tr_commit_tri_step lt) rc).surfs
          (rc.num_surfs + i)).strip_offset = i ∧
        (((List.range k).foldl (tr_commit_tri_step lt) rc).surfs
          (rc.num_surfs + i)).first_vert = rc.num_verts + i ∧
        (((List.range k).foldl (tr_commit_tri_step lt) rc).lists lt).surfs
          ((rc.lists lt).num_surfs + i) = rc.num_surfs + i) := by
  intro k
  induction k with
  | zero => intro rc; simp
  | succ k ih =>
      intro rc
      rw [List.range_succ, List.foldl_append]
      simp only [List.foldl_cons, List.foldl_nil]
      obtain ⟨h1, h2, h3, h4, h5, h6, h7, h8, h9, h10, h11, h12, h13, h14, h15⟩ := ih rc
      obtain ⟨s1, s2, s3, s4, s5, s6, s7, s8, s9, s10, s11, s12, s13, s14, s15, s16, s17, s18⟩ :=
        commit_tri_step_spec lt ((List.range k).foldl (tr_commit_tri_step lt) rc) k
      refine ⟨by omega, by omega, s3.trans h3, s4.trans h4, s5.trans h5, s6.trans h6,
        s7.trans h7, s8.trans h8, s9.trans h9, ?_, by omega, s12.trans h12, ?_, ?_, ?_⟩
      · intro l hl
        exact (s10 l hl).trans (h10 l hl)
      · intro j hj
        exact (s13 j (by omega)).trans (h13 j hj)
      · intro p hp
        exact (s14 p (by omega)).trans (h14 p hp)
      · intro i hik
        obtain hik' | hik' := Nat.lt_or_ge i k
        · obtain ⟨a1, a2, a3, a4⟩ := h15 i hik'
          refine ⟨?_, ?_, ?_, ?_⟩
          · rw [s13 _ (by omega)]; exact a1
          · rw [s13 _ (by omega)]; exact a2
          · rw [s13 _ (by omega)]; exact a3
          · rw [s14 _ (by omega)]; exact a4
        · have hik2 : i = k := by omega
          subst hik2
          refine ⟨?_, ?_, ?_, ?_⟩
          · have := s15; rw [h1] at this; exact this
          · have := s16; rw [h1] at this; exact this
          · have := s17; rw [h1, h2] at this; exact this
          · have := s18; rw [h1, h11] at this; exact this

/-- C2: committing a strip of `n ≥ 3` staged vertices on a translucent or
punch-through list produces exactly `n-2` single-triangle surfaces
(`num_verts = 3`, `strip_offset = i`, `first_vert` equal to the vertex
count at that step), appends their indices to the list, advances the vertex
count by one per triangle plus two after the loop (total `n`), and the
surface count by `n-2`; on an opaque or opaque-modvol list it appends
exactly one entry for the staged surface, which is left covering the full
strip. -/
theorem C2_commit_surf_split (tr : Tr) (rc : TrContext) :
    ((tr.list_type = TA_LIST_TRANSLUCENT ∨ tr.list_type = TA_LIST_PUNCH_THROUGH) →
      3 ≤ (staged rc).num_verts →
      (tr_commit_surf tr rc).num_surfs = rc.num_surfs + ((staged rc).num_verts - 2) ∧
      (tr_commit_surf tr rc).num_verts = rc.num_verts + (staged rc).num_verts ∧
      ((tr_commit_surf tr rc).lists tr.list_type).num_surfs =
        (rc.lists tr.list_type).num_surfs + ((staged rc).num_verts - 2) ∧
      (∀ i, i < (staged rc).num_verts - 2 →
        ((tr_commit_surf tr rc).surfs (rc.num_surfs + i)).num_verts = 3 ∧
        ((tr_commit_surf tr rc).surfs (rc.num_surfs + i)).strip_offset = i ∧
        ((tr_commit_surf tr rc).surfs (rc.num_surfs + i)).first_vert = rc.num_verts + i ∧
        ((tr_commit_surf tr rc).lists tr.list_type).surfs
          ((rc.lists tr.list_type).num_surfs + i) = rc.num_surfs + i)) ∧
    ((tr.list_type = TA_LIST_OPAQUE ∨ tr.list_type = TA_LIST_OPAQUE_MODVOL) →
      (tr_commit_surf tr rc).num_surfs = rc.num_surfs + 1 ∧
      (tr_commit_surf tr rc).num_verts = rc.num_verts + (staged rc).num_verts ∧
      ((tr_commit_surf tr rc).lists tr.list_type).num_surfs =
        (rc.lists tr.list_type).num_surfs + 1 ∧
      ((tr_commit_surf tr rc).lists tr.list_type).surfs (rc.lists tr.list_type).num_surfs =
        rc.num_surfs ∧
      (tr_commit_surf tr rc).surfs = rc.surfs) := by
  constructor
  · intro hl hn
    set rcA : TrContext := { rc with lists := updF rc.lists tr.list_type { rc.lists tr.list_type with num_orig_surfs := (rc.lists tr.list_type).num_orig_surfs + 1 } } with hrcA
    have heq : tr_commit_surf tr rc =
        { (List.range ((staged rcA).num_verts - 2)).foldl (tr_commit_tri_step tr.list_type) rcA with
          num_verts := ((List.range ((staged rcA).num_verts - 2)).foldl
            (tr_commit_tri_step tr.list_type) rcA).num_verts + 2 } := by
      unfold tr_commit_surf
      rw [if_pos hl]
    have hsA : staged rcA = staged rc := rfl
    have hnsA : rcA.num_surfs = rc.num_surfs := rfl
    have hnvA : rcA.num_verts = rc.num_verts := rfl
    have hlA : (rcA.lists tr.list_type).num_surfs = (rc.lists tr.list_type).num_surfs := by
      rw [hrcA]
      simp [updF_self]
    obtain ⟨h1, h2, _h3, _h4, _h5, _h6, _h7, _h8, _h9, _h10, h11, _h12, _h13, _h14, h15⟩ :=
      commitLoop_spec tr.list_type ((staged rcA).num_verts - 2) rcA
    rw [hsA] at h1 h2 h11 h15
    rw [hnsA] at h1 h15
    rw [hnvA] at h2 h15
    rw [hlA] at h11 h15
    rw [heq, hsA]
    refine ⟨?_, ?_, ?_, ?_⟩
    · show ((List.range ((staged rc).num_verts - 2)).foldl
        (tr_commit_tri_step tr.list_type) rcA).num_surfs = rc.num_surfs + ((staged rc).num_verts - 2)
      omega
    · show ((List.range ((staged rc).num_verts - 2)).foldl
          (tr_commit_tri_step tr.list_type) rcA).num_verts + 2 =
        rc.num_verts + (staged rc).num_verts
      omega
    · show (((List.range ((staged rc).num_verts - 2)).foldl
          (tr_commit_tri_step tr.list_type) rcA).lists tr.list_type).num_surfs =
        (rc.lists tr.list_type).num_surfs + ((staged rc).num_verts - 2)
      omega
    · intro i hi
      exact h15 i hi
  · intro hl
    have hne : ¬(tr.list_type = TA_LIST_TRANSLUCENT ∨ tr.list_type = TA_LIST_PUNCH_THROUGH) := by
      rcases hl with h | h <;> rw [h] <;> decide
    unfold tr_commit_surf
    rw [if_neg hne]
    refine ⟨rfl, rfl, ?_, ?_, rfl⟩ <;>
      simp [listAppend, staged, updF_self]

theorem C2_commit_surf_split_witness :
    (tr_commit_surf { tr_reset_tr with list_type := TA_LIST_TRANSLUCENT }
        { rc0 with surfs := fun _ => { zeroSurf with num_verts := 4 } }).num_surfs = 2 ∧
    (tr_commit_surf { tr_reset_tr with list_type := TA_LIST_OPAQUE }
        { rc0 with surfs := fun _ => { zeroSurf with num_verts := 4 } }).num_surfs = 1 :=
  ⟨((C2_commit_surf_split { tr_reset_tr with list_type := TA_LIST_TRANSLUCENT }
      { rc0 with surfs := fun _ => { zeroSurf with num_verts := 4 } }).1
      (Or.inl rfl) (by decide)).1,
    ((C2_commit_surf_split { tr_reset_tr with list_type := TA_LIST_OPAQUE }
      { rc0 with surfs := fun _ => { zeroSurf with num_verts := 4 } }).2 (Or.inl rfl)).1⟩

/-! ## C6: degenerate sprites are dropped without committing -/

/-- C6: a sprite vertex parameter (active vertex type 15 or 16, end-of-strip
set as sprites require) whose three complete vertices give a plane normal
`n = cross(a-b, c-b)` with `|n| = 0` (as the squared length) or `n.z = 0`
makes the vertex handler return without committing: the surface count and
every per-list surface array are unchanged. -/
theorem C6_degenerate_sprite_drop (tr : Tr) (rc : TrContext) (p : VertCmd)
    (hv : tr.vert_type = 15 ∨ tr.vert_type = 16)
    (heos : p.pcw.end_of_strip = true)
    (hdeg : vec3_dot
        (vec3_cross (vec3_sub p.sprite_xyz_a p.sprite_xyz_b)
          (vec3_sub p.sprite_xyz_c p.sprite_xyz_b))
        (vec3_cross (vec3_sub p.sprite_xyz_a p.sprite_xyz_b)
          (vec3_sub p.sprite_xyz_c p.sprite_xyz_b)) = 0 ∨
      (vec3_cross (vec3_sub p.sprite_xyz_a p.sprite_xyz_b)
        (vec3_sub p.sprite_xyz_c p.sprite_xyz_b)).z = 0) :
    ∃ tr' rc', tr_parse_vert_param tr rc p = some (tr', rc') ∧
      rc'.num_surfs = rc.num_surfs ∧ rc'.lists = rc.lists := by
  have h17 : ¬ tr.vert_type = 17 := by rcases hv with h | h <;> rw [h] <;> decide
  rcases hlv : tr.last_vertex with _ | lv
  · rcases hv with h | h <;>
      · simp only [tr_parse_vert_param, if_neg h17, hlv, tr_parse_vert_body, h,
          tr_parse_sprite_vert, heos, Bool.not_true, Bool.false_eq_true, if_false]
        rw [if_pos hdeg]
        exact ⟨_, _, rfl, rfl, rfl⟩
  · cases heol : lv.pcw.end_of_strip <;> rcases hv with h | h <;>
      · simp only [tr_parse_vert_param, if_neg h17, hlv, heol, tr_parse_vert_body, h,
          tr_parse_sprite_vert, heos, Bool.not_true, Bool.false_eq_true, Bool.true_eq_false,
          if_false, if_true]
        rw [if_pos hdeg]
        exact ⟨_, _, rfl, rfl, rfl⟩

theorem C6_degenerate_sprite_drop_witness :
    (({ tr_reset_tr with vert_type := 15 } : Tr).vert_type = 15 ∨
      ({ tr_reset_tr with vert_type := 15 } : Tr).vert_type = 16) ∧
    ({ vert0 with pcw := { pcw0 with end_of_strip := true }, sprite_xyz_c := ⟨1, 1, 1⟩ } : VertCmd).pcw.end_of_strip = true ∧
    ∃ tr' rc',
      tr_parse_vert_param { tr_reset_tr with vert_type := 15 } rc0
          { vert0 with pcw := { pcw0 with end_of_strip := true }, sprite_xyz_c := ⟨1, 1, 1⟩ } = some (tr', rc') ∧
      rc'.num_surfs = rc0.num_surfs ∧ rc'.lists = rc0.lists :=
  ⟨Or.inl rfl, rfl,
    C6_degenerate_sprite_drop _ _ _ (Or.inl rfl) rfl
      (Or.inr (by simp [vert0, vec3_cross, vec3_sub, zeroVec3]))⟩

/-! ## C4: sort is ascending by minz and stable -/

theorem mergeRuns_perm {α : Type} (le : α → α → Bool) :
    ∀ (fuel : ℕ) (xs ys : List α), (mergeRuns le fuel xs ys).Perm (xs ++ ys) := by
  intro fuel
  induction fuel with
  | zero => intro xs ys; simp [mergeRuns]
  | succ fuel ih =>
      intro xs ys
      match xs, ys with
      | [], ys => simp [mergeRuns]
      | x :: xs, [] => simp [mergeRuns]
      | x :: xs, y :: ys =>
          rw [mergeRuns]
          split
          · exact (ih xs (y :: ys)).cons x
          · exact ((ih (x :: xs) ys).cons y).trans List.perm_middle.symm

theorem mem_mergeRuns {α : Type} (le : α → α → Bool) (fuel : ℕ) (xs ys : List α) (z : α) :
    z ∈ mergeRuns le fuel xs ys ↔ z ∈ xs ∨ z ∈ ys := by
  rw [(mergeRuns_perm le fuel xs ys).mem_iff, List.mem_append]

theorem mergeRuns_sorted {α : Type} (key : α → ℚ) :
    ∀ (fuel : ℕ) (xs ys : List α), xs.length + ys.length ≤ fuel →
      List.Pairwise (fun a b => key a ≤ key b) xs →
      List.Pairwise (fun a b => key a ≤ key b) ys →
      List.Pairwise (fun a b => key a ≤ key b)
        (mergeRuns (fun a b => decide (key a ≤ key b)) fuel xs ys) := by
  intro fuel
  induction fuel with
  | zero =>
      intro xs ys hf hx hy
      have hxs : xs = [] := by
        cases xs with
        | nil => rfl
        | cons a t => simp at hf
      have hys : ys = [] := by
        cases ys with
        | nil => rfl
        | cons a t =>
            subst hxs
            simp at hf
      subst hxs; subst hys
      simp [mergeRuns]
  | succ fuel ih =>
      intro xs ys hf hx hy
      match xs, ys with
      | [], ys => rw [mergeRuns]; exact hy
      | x :: xs, [] => rw [mergeRuns]; exact hx
      | x :: xs, y :: ys =>
          rw [mergeRuns]
          rw [List.pairwise_cons] at hx hy
          split
          · rename_i hle
            rw [decide_eq_true_eq] at hle
            rw [List.pairwise_cons]
            constructor
            · intro z hz
              rw [mem_mergeRuns] at hz
              rcases hz with hz | hz
              · exact hx.1 z hz
              · rcases List.mem_cons.mp hz with hz | hz
                · subst hz; exact hle
                · exact le_trans hle (hy.1 z hz)
            · exact ih xs (y :: ys) (by simp at hf ⊢; omega) hx.2
                (List.pairwise_cons.mpr hy)
          · rename_i hle
            rw [decide_eq_true_eq] at hle
            push_neg at hle
            rw [List.pairwise_cons]
            constructor
            · intro z hz
              rw [mem_mergeRuns] at hz
              rcases hz with hz | hz
              · rcases List.mem_cons.mp hz with hz | hz
                · subst hz; exact le_of_lt hle
                · exact le_trans (le_of_lt hle) (hx.1 z hz)
              · exact hy.1 z hz
            · exact ih (x :: xs) ys (by simp at hf ⊢; omega)
                (List.pairwise_cons.mpr hx) hy.2

theorem mergeRuns_filter {α : Type} (key : α → ℚ) (c : ℚ) :
    ∀ (fuel : ℕ) (xs ys : List α), xs.length + ys.length ≤ fuel →
      List.Pairwise (fun a b => key a ≤ key b) xs →
      (mergeRuns (fun a b => decide (key a ≤ key b)) fuel xs ys).filter
          (fun a => decide (key a = c)) =
        xs.filter (fun a => decide (key a = c)) ++ ys.filter (fun a => decide (key a = c)) := by
  intro fuel
  induction fuel with
  | zero =>
      intro xs ys _ _
      rw [mergeRuns, List.filter_append]
  | succ fuel ih =>
      intro xs ys hf hx
      match xs, ys with
      | [], ys => rw [mergeRuns]; simp
      | x :: xs, [] => rw [mergeRuns]; simp
      | x :: xs, y :: ys =>
          rw [mergeRuns]
          rw [List.pairwise_cons] at hx
          split
          · rw [List.filter_cons, List.filter_cons,
              ih xs (y :: ys) (by simp at hf ⊢; omega) hx.2]
            split <;> rename_i hc <;> simp
          · rename_i hle
            have hyx : key y < key x := lt_of_not_le (by simpa using hle)
            rw [List.filter_cons,
              ih (x :: xs) ys (by simp at hf ⊢; omega) (List.pairwise_cons.mpr hx)]
            by_cases hpy : key y = c
            · have hnil : (x :: xs).filter (fun a => decide (key a = c)) = [] := by
                rw [List.filter_eq_nil_iff]
                intro a ha
                simp only [decide_eq_true_eq]
                intro hc
                have hxa : key x ≤ key a := by
                  rcases List.mem_cons.mp ha with h | h
                  · rw [h]
                  · exact hx.1 a h
                rw [hc, ← hpy] at hxa
                exact absurd hxa (not_le.mpr hyx)
              rw [hnil]
              simp [List.filter_cons, hpy]
            · simp [List.filter_cons, hpy]

theorem msortFuel_perm {α : Type} (le : α → α → Bool) :
    ∀ (fuel : ℕ) (l : List α), (msortFuel le fuel l).Perm l := by
  intro fuel
  induction fuel with
  | zero => intro l; rw [msortFuel]
  | succ fuel ih =>
      intro l
      rw [msortFuel]
      split
      · exact List.Perm.refl l
      · refine ((mergeRuns_perm le l.length _ _).trans ?_)
        refine ((ih _).append (ih _)).trans ?_
        rw [List.take_append_drop]

theorem msortFuel_length {α : Type} (le : α → α → Bool) (fuel : ℕ) (l : List α) :
    (msortFuel le fuel l).length = l.length :=
  (msortFuel_perm le fuel l).length_eq

theorem mem_msortFuel {α : Type} (le : α → α → Bool) (fuel : ℕ) (l : List α) (x : α) :
    x ∈ msortFuel le fuel l ↔ x ∈ l :=
  (msortFuel_perm le fuel l).mem_iff

theorem msortFuel_sorted {α : Type} (key : α → ℚ) :
    ∀ (fuel : ℕ) (l : List α), l.length ≤ fuel →
      List.Pairwise (fun a b => key a ≤ key b)
        (msortFuel (fun a b => decide (key a ≤ key b)) fuel l) := by
  intro fuel
  induction fuel with
  | zero =>
      intro l hf
      rw [msortFuel]
      match l, hf with
      | [], _ => exact List.Pairwise.nil
  | succ fuel ih =>
      intro l hf
      rw [msortFuel]
      split
      · rename_i hlen
        match l, hlen with
        | [], _ => exact List.Pairwise.nil
        | [x], _ => exact List.pairwise_singleton _ x
      · rename_i hlen
        push_neg at hlen
        apply mergeRuns_sorted
        · rw [msortFuel_length, msortFuel_length, List.length_take, List.length_drop]
          omega
        · exact ih _ (by rw [List.length_take]; omega)
        · exact ih _ (by rw [List.length_drop]; omega)

theorem msortFuel_filter {α : Type} (key : α → ℚ) (c : ℚ) :
    ∀ (fuel : ℕ) (l : List α), l.length ≤ fuel →
      (msortFuel (fun a b => decide (key a ≤ key b)) fuel l).filter
          (fun a => decide (key a = c)) =
        l.filter (fun a => decide (key a = c)) := by
  intro fuel
  induction fuel with
  | zero => intro l _; rw [msortFuel]
  | succ fuel ih =>
      intro l hf
      rw [msortFuel]
      split
      · rfl
      · rename_i hlen
        push_neg at hlen
        rw [mergeRuns_filter key c]
        · rw [ih _ (by rw [List.length_take]; omega), ih _ (by rw [List.length_drop]; omega),
            ← List.filter_append, List.take_append_drop]
        · rw [msortFuel_length, msortFuel_length, List.length_take, List.length_drop]
          omega
        · exact msortFuel_sorted key fuel _ (by rw [List.length_take]; omega)

theorem msort_sorted {α : Type} (key : α → ℚ) (l : List α) :
    List.Pairwise (fun a b => key a ≤ key b)
      (msort (fun a b => decide (key a ≤ key b)) l) :=
  msortFuel_sorted key l.length l le_rfl

theorem msort_filter {α : Type} (key : α → ℚ) (c : ℚ) (l : List α) :
    (msort (fun a b => decide (key a ≤ key b)) l).filter (fun a => decide (key a = c)) =
      l.filter (fun a => decide (key a = c)) :=
  msortFuel_filter key c l.length l le_rfl

theorem msort_perm {α : Type} (le : α → α → Bool) (l : List α) :
    (msort le l).Perm l :=
  msortFuel_perm le l.length l

theorem msort_length {α : Type} (le : α → α → Bool) (l : List α) :
    (msort le l).length = l.length :=
  msortFuel_length le l.length l

theorem range_map_ite_getD (n : ℕ) (f : ℕ → ℕ) (s : List ℕ) (hlen : s.length = n) :
    (List.range n).map (fun i => if i < n then s.getD i 0 else f i) = s := by
  apply List.ext_getElem
  · simp [hlen]
  · intro i h1 h2
    simp only [List.getElem_map, List.getElem_range]
    rw [if_pos (by simp at h1; omega)]
    rw [List.getD_eq_getElem s 0 (by omega)]

/-- C4: after `tr_sort_surfaces` succeeds on a list, the minz key of every
surface is unchanged, the list's entries are pairwise ascending by minz
(hence every adjacent pair satisfies `minz s ≤ minz t`), and for every key
value the subsequence of entries with that minz equals the original one:
equal-minz surfaces keep their submission order (stability). -/
theorem C4_sort_sorted_stable (rc : TrContext) (lt : ℕ) (rc' : TrContext)
    (_hlt : lt = TA_LIST_TRANSLUCENT ∨ lt = TA_LIST_PUNCH_THROUGH)
    (hs : tr_sort_surfaces rc lt = some rc') :
    (∀ si, surf_minz rc' si = surf_minz rc si) ∧
    List.Pairwise (fun i j => surf_minz rc i ≤ surf_minz rc j) (listEntries rc' lt) ∧
    ∀ c : ℚ, (listEntries rc' lt).filter (fun si => decide (surf_minz rc si = c)) =
      (listEntries rc lt).filter (fun si => decide (surf_minz rc si = c)) := by
  unfold tr_sort_surfaces at hs
  dsimp only at hs
  split at hs
  · injection hs with hs'
    subst hs'
    have hentries : listEntries { rc with lists := updF rc.lists lt { rc.lists lt with surfs := fun i => if i < (rc.lists lt).num_surfs then (msort (fun i j => decide (surf_minz rc i ≤ surf_minz rc j)) (listEntries rc lt)).getD i 0 else (rc.lists lt).surfs i } } lt =
        msort (fun i j => decide (surf_minz rc i ≤ surf_minz rc j)) (listEntries rc lt) := by
      unfold listEntries
      simp only [updF_self]
      exact range_map_ite_getD _ _ _
        (by rw [msort_length]; simp [listEntries])
    refine ⟨fun si => rfl, ?_, ?_⟩
    · rw [hentries]
      exact msort_sorted (surf_minz rc) (listEntries rc lt)
    · intro c
      rw [hentries]
      exact msort_filter (surf_minz rc) c (listEntries rc lt)
  · exact Option.noConfusion hs

theorem C4_sort_sorted_stable_witness :
    (TA_LIST_TRANSLUCENT = TA_LIST_TRANSLUCENT ∨ TA_LIST_TRANSLUCENT = TA_LIST_PUNCH_THROUGH) ∧
    ∃ rc', tr_sort_surfaces { rc0 with num_surfs := 2, num_verts := 6, surfs := fun i => if i = 0 then { zeroSurf with num_verts := 3 } else { zeroSurf with num_verts := 3, first_vert := 3 }, verts := fun i => { zeroVert with xyz := ⟨0, 0, if i < 3 then 5 else 1⟩ }, lists := updF (fun _ => emptyList) TA_LIST_TRANSLUCENT { surfs := fun i => i, num_surfs := 2, num_orig_surfs := 2 } } TA_LIST_TRANSLUCENT = some rc' ∧
      List.Pairwise (fun i j => surf_minz { rc0 with num_surfs := 2, num_verts := 6, surfs := fun i => if i = 0 then { zeroSurf with num_verts := 3 } else { zeroSurf with num_verts := 3, first_vert := 3 }, verts := fun i => { zeroVert with xyz := ⟨0, 0, if i < 3 then 5 else 1⟩ }, lists := updF (fun _ => emptyList) TA_LIST_TRANSLUCENT { surfs := fun i => i, num_surfs := 2, num_orig_surfs := 2 } } i ≤ surf_minz { rc0 with num_surfs := 2, num_verts := 6, surfs := fun i => if i = 0 then { zeroSurf with num_verts := 3 } else { zeroSurf with num_verts := 3, first_vert := 3 }, verts := fun i => { zeroVert with xyz := ⟨0, 0, if i < 3 then 5 else 1⟩ }, lists := updF (fun _ => emptyList) TA_LIST_TRANSLUCENT { surfs := fun i => i, num_surfs := 2, num_orig_surfs := 2 } } j)
        (listEntries rc' TA_LIST_TRANSLUCENT) ∧
      ∀ c : ℚ, (listEntries rc' TA_LIST_TRANSLUCENT).filter
          (fun si => decide (surf_minz { rc0 with num_surfs := 2, num_verts := 6, surfs := fun i => if i = 0 then { zeroSurf with num_verts := 3 } else { zeroSurf with num_verts := 3, first_vert := 3 }, verts := fun i => { zeroVert with xyz := ⟨0, 0, if i < 3 then 5 else 1⟩ }, lists := updF (fun _ => emptyList) TA_LIST_TRANSLUCENT { surfs := fun i => i, num_surfs := 2, num_orig_surfs := 2 } } si = c)) =
        (listEntries { rc0 with num_surfs := 2, num_verts := 6, surfs := fun i => if i = 0 then { zeroSurf with num_verts := 3 } else { zeroSurf with num_verts := 3, first_vert := 3 }, verts := fun i => { zeroVert with xyz := ⟨0, 0, if i < 3 then 5 else 1⟩ }, lists := updF (fun _ => emptyList) TA_LIST_TRANSLUCENT { surfs := fun i => i, num_surfs := 2, num_orig_surfs := 2 } } TA_LIST_TRANSLUCENT).filter
          (fun si => decide (surf_minz { rc0 with num_surfs := 2, num_verts := 6, surfs := fun i => if i = 0 then { zeroSurf with num_verts := 3 } else { zeroSurf with num_verts := 3, first_vert := 3 }, verts := fun i => { zeroVert with xyz := ⟨0, 0, if i < 3 then 5 else 1⟩ }, lists := updF (fun _ => emptyList) TA_LIST_TRANSLUCENT { surfs := fun i => i, num_surfs := 2, num_orig_surfs := 2 } } si = c)) :=
  ⟨Or.inl rfl, _, rfl,
    (C4_sort_sorted_stable { rc0 with num_surfs := 2, num_verts := 6, surfs := fun i => if i = 0 then { zeroSurf with num_verts := 3 } else { zeroSurf with num_verts := 3, first_vert := 3 }, verts := fun i => { zeroVert with xyz := ⟨0, 0, if i < 3 then 5 else 1⟩ }, lists := updF (fun _ => emptyList) TA_LIST_TRANSLUCENT { surfs := fun i => i, num_surfs := 2, num_orig_surfs := 2 } } TA_LIST_TRANSLUCENT _ (Or.inl rfl) rfl).2.1,
    (C4_sort_sorted_stable { rc0 with num_surfs := 2, num_verts := 6, surfs := fun i => if i = 0 then { zeroSurf with num_verts := 3 } else { zeroSurf with num_verts := 3, first_vert := 3 }, verts := fun i => { zeroVert with xyz := ⟨0, 0, if i < 3 then 5 else 1⟩ }, lists := updF (fun _ => emptyList) TA_LIST_TRANSLUCENT { surfs := fun i => i, num_surfs := 2, num_orig_surfs := 2 } } TA_LIST_TRANSLUCENT _ (Or.inl rfl) rfl).2.2⟩

/-! ## C10: determinism w.r.t. prior render-context contents -/

/-- C10 counterexample: converting the single-vertex translucent strip of
`ctxCE` from two render contexts with different stale vertex memory
succeeds in both runs with equal counts, but the vertex at index 5 -- in
range, yet never written because the commit advanced the vertex count by
two past a one-vertex strip -- retains the two different prior contents. -/
theorem C10_prior_state_leak :
    ∃ o1 o2, tr_convert_context texFn0 ctxCE rc0 = some o1 ∧
      tr_convert_context texFn0 ctxCE rcP2 = some o2 ∧
      o1.num_verts = 6 ∧ o2.num_verts = 6 ∧ (5 : ℕ) < 6 ∧
      o1.verts 5 ≠ o2.verts 5 :=
  ⟨_, _, rfl, rfl, rfl, rfl, by decide, by decide⟩

theorem taSurface_ext (s t : TaSurface) (hp : s.params = t.params)
    (h1 : s.first_vert = t.first_vert) (h2 : s.num_verts = t.num_verts)
    (h3 : s.strip_offset = t.strip_offset) : s = t := by
  cases s; cases t
  simp_all

theorem agreeRC_surfs_at_ns {a b : TrContext} (hA : AgreeRC a b) (x y : TaSurface) :
    AgreeRC { a with surfs := updF a.surfs a.num_surfs x }
      { b with surfs := updF b.surfs b.num_surfs y } := by
  have hns := hA.ns
  refine ⟨hA.ns, hA.nv, hA.ni, hA.np, hA.w, hA.h, ?_, hA.verts, hA.idx, hA.lists, hA.pars⟩
  intro i hi
  have hi' : i < a.num_surfs := hi
  show updF a.surfs a.num_surfs x i = updF b.surfs b.num_surfs y i
  rw [updF_ne _ _ _ _ (by omega), updF_ne _ _ _ _ (by omega)]
  exact hA.surfs i hi'

theorem agreeRC_verts_above {a b : TrContext} (hA : AgreeRC a b) (k : ℕ) (x y : TaVertex) :
    AgreeRC { a with verts := updF a.verts (a.num_verts + k) x }
      { b with verts := updF b.verts (b.num_verts + k) y } := by
  have hnv := hA.nv
  refine ⟨hA.ns, hA.nv, hA.ni, hA.np, hA.w, hA.h, hA.surfs, ?_, hA.idx, hA.lists, hA.pars⟩
  intro i hi
  have hi' : i < a.num_verts := hi
  show updF a.verts (a.num_verts + k) x i = updF b.verts (b.num_verts + k) y i
  rw [updF_ne _ _ _ _ (by omega), updF_ne _ _ _ _ (by omega)]
  exact hA.verts i hi'

theorem agreeRC_lists_upd {a b : TrContext} (hA : AgreeRC a b) (lt : ℕ) (X Y : TrList)
    (hXY : lt < TA_NUM_LISTS → X.num_surfs = Y.num_surfs ∧
      X.num_orig_surfs = Y.num_orig_surfs ∧ ∀ i, i < X.num_surfs → X.surfs i = Y.surfs i) :
    AgreeRC { a with lists := updF a.lists lt X } { b with lists := updF b.lists lt Y } := by
  refine ⟨hA.ns, hA.nv, hA.ni, hA.np, hA.w, hA.h, hA.surfs, hA.verts, hA.idx, ?_, hA.pars⟩
  intro l hl
  by_cases hllt : l = lt
  · subst hllt
    have e1 : updF a.lists l X l = X := updF_self _ _ _
    have e2 : updF b.lists l Y l = Y := updF_self _ _ _
    simp only [e1, e2]
    exact hXY hl
  · have e1 : updF a.lists lt X l = a.lists l := updF_ne _ _ _ _ hllt
    have e2 : updF b.lists lt Y l = b.lists l := updF_ne _ _ _ _ hllt
    simp only [e1, e2]
    exact hA.lists l hl

theorem staged_reserve (a : TrContext) (cp : Bool) :
    staged (tr_reserve_surf a cp) =
      { (if cp then a.surfs (a.num_surfs - 1) else zeroSurf) with
        first_vert := a.num_verts, num_verts := 0 } := by
  show updF a.surfs a.num_surfs _ a.num_surfs = _
  rw [updF_self]

theorem staged_modStaged (a : TrContext) (f : TaSurface → TaSurface) :
    staged (modStaged a f) = f (staged a) := by
  show updF a.surfs a.num_surfs _ a.num_surfs = _
  rw [updF_self]

theorem staged_reserve_vert (a : TrContext) :
    staged (tr_reserve_vert a).1 = { staged a with num_verts := (staged a).num_verts + 1 } := by
  have h : (tr_reserve_vert a).1 = modStaged
      { a with verts := updF a.verts (a.num_verts + (staged a).num_verts) zeroVert }
      (fun s => { s with num_verts := s.num_verts + 1 }) := rfl
  rw [h, staged_modStaged]
  rfl

theorem agree_reserve_surf {a b : TrContext} (hA : AgreeRC a b) (cp : Bool)
    (h1 : cp = true → 1 ≤ a.num_surfs) :
    AgreeS (tr_reserve_surf a cp) (tr_reserve_surf b cp) := by
  have hns := hA.ns
  have hbase : (if cp then a.surfs (a.num_surfs - 1) else zeroSurf) =
      (if cp then b.surfs (b.num_surfs - 1) else zeroSurf) := by
    cases cp with
    | false => rfl
    | true =>
        rw [if_pos rfl, if_pos rfl, ← hns]
        exact hA.surfs _ (by have := h1 rfl; omega)
  refine ⟨agreeRC_surfs_at_ns hA _ _, ?_, ?_⟩
  · rw [staged_reserve, staged_reserve, hbase, hA.nv]
  · intro i hi
    have h0 : (staged (tr_reserve_surf a cp)).num_verts = 0 := by rw [staged_reserve]
    omega

theorem agree_modStaged {a b : TrContext} (hS : AgreeS a b) (f : TaSurface → TaSurface)
    (hf : (f (staged a)).num_verts = (staged a).num_verts) :
    AgreeS (modStaged a f) (modStaged b f) := by
  refine ⟨agreeRC_surfs_at_ns hS.rc _ _, ?_, ?_⟩
  · rw [staged_modStaged, staged_modStaged, hS.staged_eq]
  · intro i hi
    rw [staged_modStaged, hf] at hi
    exact hS.staged_verts i hi

theorem agree_reserve_vert {a b : TrContext} (hS : AgreeS a b) :
    AgreeS (tr_reserve_vert a).1 (tr_reserve_vert b).1 ∧
    (tr_reserve_vert a).2 = a.num_verts + (staged a).num_verts ∧
    (tr_reserve_vert b).2 = b.num_verts + (staged a).num_verts ∧
    (staged (tr_reserve_vert a).1).num_verts = (staged a).num_verts + 1 := by
  have hk : (staged b).num_verts = (staged a).num_verts := by rw [hS.staged_eq]
  have hnv := hS.rc.nv
  have hns := hS.rc.ns
  refine ⟨⟨⟨hS.rc.ns, hS.rc.nv, hS.rc.ni, hS.rc.np, hS.rc.w, hS.rc.h, ?_, ?_, hS.rc.idx,
      hS.rc.lists, hS.rc.pars⟩, ?_, ?_⟩, rfl,
    by show b.num_verts + (staged b).num_verts = _; rw [hk], ?_⟩
  · intro i hi
    have hi' : i < a.num_surfs := hi
    show updF a.surfs a.num_surfs _ i = updF b.surfs b.num_surfs _ i
    rw [updF_ne _ _ _ _ (by omega), updF_ne _ _ _ _ (by omega)]
    exact hS.rc.surfs i hi'
  · intro i hi
    have hi' : i < a.num_verts := hi
    show updF a.verts (a.num_verts + (staged a).num_verts) zeroVert i =
      updF b.verts (b.num_verts + (staged b).num_verts) zeroVert i
    rw [updF_ne _ _ _ _ (by omega), updF_ne _ _ _ _ (by omega)]
    exact hS.rc.verts i hi'
  · rw [staged_reserve_vert, staged_reserve_vert, hS.staged_eq]
  · intro i hi
    have hcount : (staged (tr_reserve_vert a).1).num_verts = (staged a).num_verts + 1 := by
      rw [staged_reserve_vert]
    rw [hcount] at hi
    show updF a.verts (a.num_verts + (staged a).num_verts) zeroVert (a.num_verts + i) =
      updF b.verts (b.num_verts + (staged b).num_verts) zeroVert (b.num_verts + i)
    rcases Nat.lt_or_ge i (staged a).num_verts with hil | hil
    · rw [updF_ne _ _ _ _ (by omega), updF_ne _ _ _ _ (by omega)]
      exact hS.staged_verts i hil
    · have hieq : i = (staged a).num_verts := by omega
      subst hieq
      rw [updF_self]
      rw [show b.num_verts + (staged a).num_verts = b.num_verts + (staged b).num_verts by omega]
      rw [updF_self]
  · rw [staged_reserve_vert]

theorem agree_modVert {a b : TrContext} (hS : AgreeS a b) (k : ℕ)
    (hk : k < (staged a).num_verts) (f g : TaVertex → TaVertex)
    (hv : f (a.verts (a.num_verts + k)) = g (b.verts (b.num_verts + k))) :
    AgreeS (modVert a (a.num_verts + k) f) (modVert b (b.num_verts + k) g) := by
  have hnv := hS.rc.nv
  refine ⟨⟨hS.rc.ns, hS.rc.nv, hS.rc.ni, hS.rc.np, hS.rc.w, hS.rc.h, hS.rc.surfs, ?_,
    hS.rc.idx, hS.rc.lists, hS.rc.pars⟩, hS.staged_eq, ?_⟩
  · intro i hi
    have hi' : i < a.num_verts := hi
    show updF a.verts (a.num_verts + k) _ i = updF b.verts (b.num_verts + k) _ i
    rw [updF_ne _ _ _ _ (by omega), updF_ne _ _ _ _ (by omega)]
    exact hS.rc.verts i hi'
  · intro i hi
    have hi' : i < (staged a).num_verts := hi
    show updF a.verts (a.num_verts + k) _ (a.num_verts + i) =
      updF b.verts (b.num_verts + k) _ (b.num_verts + i)
    by_cases hik : i = k
    · subst hik
      rw [updF_self, updF_self]
      exact hv
    · rw [updF_ne _ _ _ _ (by omega), updF_ne _ _ _ _ (by omega)]
      exact hS.staged_verts i hi'

theorem agree_listAppend {a b : TrContext} (hS : AgreeS a b) (lt : ℕ) (e1 e2 : ℕ)
    (he : e1 = e2) :
    AgreeS (listAppend a lt e1) (listAppend b lt e2) := by
  subst he
  refine ⟨agreeRC_lists_upd hS.rc lt _ _ ?_, hS.staged_eq, hS.staged_verts⟩
  intro hl
  obtain ⟨hc, ho, hent⟩ := hS.rc.lists lt hl
  refine ⟨?_, ?_, ?_⟩
  · show (a.lists lt).num_surfs + 1 = (b.lists lt).num_surfs + 1
    omega
  · exact ho
  · intro i hi
    have hi' : i < (a.lists lt).num_surfs + 1 := hi
    show updF (a.lists lt).surfs (a.lists lt).num_surfs e1 i =
      updF (b.lists lt).surfs (b.lists lt).num_surfs e1 i
    rcases Nat.lt_or_ge i (a.lists lt).num_surfs with hil | hil
    · rw [updF_ne _ _ _ _ (by omega), updF_ne _ _ _ _ (by omega)]
      exact hent i hil
    · have : i = (a.lists lt).num_surfs := by omega
      subst this
      rw [updF_self, show (a.lists lt).num_surfs = (b.lists lt).num_surfs from hc, updF_self]

theorem agree_origInc {a b : TrContext} (hS : AgreeS a b) (lt : ℕ) :
    AgreeS
      { a with lists := updF a.lists lt { a.lists lt with num_orig_surfs := (a.lists lt).num_orig_surfs + 1 } }
      { b with lists := updF b.lists lt { b.lists lt with num_orig_surfs := (b.lists lt).num_orig_surfs + 1 } } := by
  refine ⟨agreeRC_lists_upd hS.rc lt _ _ ?_, hS.staged_eq, hS.staged_verts⟩
  intro hl
  obtain ⟨hc, ho, hent⟩ := hS.rc.lists lt hl
  exact ⟨hc, by show (a.lists lt).num_orig_surfs + 1 = (b.lists lt).num_orig_surfs + 1; omega, hent⟩

theorem commit_tri_step_params (lt : ℕ) (rc : TrContext) (i : ℕ) :
    ((tr_commit_tri_step lt rc i).surfs rc.num_surfs).params =
      (rc.surfs (if i = 0 then rc.num_surfs else rc.num_surfs - 1)).params := by
  obtain hi | hi := eq_or_ne i 0 <;>
    simp [tr_commit_tri_step, tr_reserve_surf, modStaged, listAppend, staged, updF, hi]

theorem commitLoop_params (lt : ℕ) :
    ∀ (k : ℕ) (rc : TrContext), ∀ i, i < k →
      (((List.range k).foldl (tr_commit_tri_step lt) rc).surfs (rc.num_surfs + i)).params =
        (staged rc).params := by
  intro k
  induction k with
  | zero => intro rc i hi; omega
  | succ k ih =>
      intro rc i hi
      rw [List.range_succ, List.foldl_append]
      simp only [List.foldl_cons, List.foldl_nil]
      obtain ⟨h1, h2, h3, h4, h5, h6, h7, h8, h9, h10, h11, h12, h13, h14, h15⟩ :=
        commitLoop_spec lt k rc
      obtain ⟨s1, s2, s3, s4, s5, s6, s7, s8, s9, s10, s11, s12, s13, s14, s15, s16, s17, s18⟩ :=
        commit_tri_step_spec lt ((List.range k).foldl (tr_commit_tri_step lt) rc) k
      have hp := commit_tri_step_params lt ((List.range k).foldl (tr_commit_tri_step lt) rc) k
      rcases Nat.lt_or_ge i k with hik | hik
      · rw [s13 _ (by omega)]
        exact ih rc i hik
      · have hik2 : i = k := by omega
        rw [show rc.num_surfs + i =
          ((List.range k).foldl (tr_commit_tri_step lt) rc).num_surfs from by omega, hp]
        rcases eq_or_ne k 0 with h0 | h0
        · subst h0
          simp only [if_pos rfl, List.range_zero, List.foldl_nil]
          rfl
        · rw [if_neg h0, show ((List.range k).foldl (tr_commit_tri_step lt) rc).num_surfs - 1 =
            rc.num_surfs + (k - 1) from by omega]
          exact ih rc (k - 1) (by omega)

theorem agree_commit_loop {c d : TrContext} (hS : AgreeS c d) (lt : ℕ)
    (hn : 2 ≤ (staged c).num_verts) :
    AgreeRC { (List.range ((staged c).num_verts - 2)).foldl (tr_commit_tri_step lt) c with num_verts := ((List.range ((staged c).num_verts - 2)).foldl (tr_commit_tri_step lt) c).num_verts + 2 } { (List.range ((staged d).num_verts - 2)).foldl (tr_commit_tri_step lt) d with num_verts := ((List.range ((staged d).num_verts - 2)).foldl (tr_commit_tri_step lt) d).num_verts + 2 } := by
  have hsd : (staged d).num_verts = (staged c).num_verts := by rw [hS.staged_eq]
  rw [hsd]
  obtain ⟨h1, h2, h3, h4, h5, h6, h7, h8, h9, h10, h11, h12, h13, h14, h15⟩ :=
    commitLoop_spec lt ((staged c).num_verts - 2) c
  obtain ⟨g1, g2, g3, g4, g5, g6, g7, g8, g9, g10, g11, g12, g13, g14, g15⟩ :=
    commitLoop_spec lt ((staged c).num_verts - 2) d
  have hpc := commitLoop_params lt ((staged c).num_verts - 2) c
  have hpd := commitLoop_params lt ((staged c).num_verts - 2) d
  have hns := hS.rc.ns
  have hnv := hS.rc.nv
  have hni := hS.rc.ni
  have hnp := hS.rc.np
  refine ⟨?_, ?_, ?_, ?_, ?_, ?_, ?_, ?_, ?_, ?_, ?_⟩
  · dsimp only; omega
  · dsimp only; omega
  · dsimp only; omega
  · dsimp only; omega
  · dsimp only; rw [h8, g8]; exact hS.rc.w
  · dsimp only; rw [h9, g9]; exact hS.rc.h
  · intro i hi
    dsimp only at hi ⊢
    rw [h1] at hi
    rcases Nat.lt_or_ge i c.num_surfs with hio | hio
    · rw [h13 i hio, g13 i (by omega)]
      exact hS.rc.surfs i hio
    · obtain ⟨a1, a2, a3, a4⟩ := h15 (i - c.num_surfs) (by omega)
      obtain ⟨b1, b2, b3, b4⟩ := g15 (i - c.num_surfs) (by omega)
      have pc := hpc (i - c.num_surfs) (by omega)
      have pd := hpd (i - c.num_surfs) (by omega)
      rw [show c.num_surfs + (i - c.num_surfs) = i from by omega] at a1 a2 a3 pc
      rw [show d.num_surfs + (i - c.num_surfs) = i from by omega] at b1 b2 b3 pd
      refine taSurface_ext _ _ ?_ ?_ ?_ ?_
      · rw [pc, pd]
        exact congrArg TaSurface.params hS.staged_eq
      · rw [a3, b3]; omega
      · rw [a1, b1]
      · rw [a2, b2]
  · intro i hi
    dsimp only at hi ⊢
    rw [h2] at hi
    rw [h3, g3]
    rcases Nat.lt_or_ge i c.num_verts with hio | hio
    · exact hS.rc.verts i hio
    · have hsv := hS.staged_verts (i - c.num_verts) (by omega)
      rw [show c.num_verts + (i - c.num_verts) = i from by omega] at hsv
      rw [show d.num_verts + (i - c.num_verts) = i from by omega] at hsv
      exact hsv
  · intro i hi
    dsimp only at hi ⊢
    rw [h5] at hi
    rw [h4, g4]
    exact hS.rc.idx i hi
  · intro lt' hlt'
    dsimp only
    by_cases hl : lt' = lt
    · subst hl
      obtain ⟨xc, xo, xe⟩ := hS.rc.lists lt' hlt'
      refine ⟨by omega, by rw [h12, g12]; exact xo, ?_⟩
      intro i hi
      rw [h11] at hi
      rcases Nat.lt_or_ge i (c.lists lt').num_surfs with hio | hio
      · rw [h14 i hio, g14 i (by omega)]
        exact xe i hio
      · have a4 := (h15 (i - (c.lists lt').num_surfs) (by omega)).2.2.2
        have b4 := (g15 (i - (c.lists lt').num_surfs) (by omega)).2.2.2
        rw [show (c.lists lt').num_surfs + (i - (c.lists lt').num_surfs) = i from by omega] at a4
        rw [show (d.lists lt').num_surfs + (i - (c.lists lt').num_surfs) = i from by omega] at b4
        rw [a4, b4]
        omega
    · rw [h10 lt' hl, g10 lt' hl]
      exact hS.rc.lists lt' hlt'
  · intro i hi
    dsimp only at hi ⊢
    rw [h7] at hi
    rw [h6, g6]
    exact hS.rc.pars i hi

theorem agree_commit_app {c d : TrContext} (hS : AgreeS c d) (lt : ℕ) :
    AgreeRC { listAppend c lt c.num_surfs with num_verts := (listAppend c lt c.num_surfs).num_verts + (staged c).num_verts, num_surfs := (listAppend c lt c.num_surfs).num_surfs + 1 } { listAppend d lt d.num_surfs with num_verts := (listAppend d lt d.num_surfs).num_verts + (staged d).num_verts, num_surfs := (listAppend d lt d.num_surfs).num_surfs + 1 } := by
  have hL := agree_listAppend hS lt c.num_surfs d.num_surfs hS.rc.ns
  have hns := hS.rc.ns
  have hnv := hS.rc.nv
  have hsd : (staged d).num_verts = (staged c).num_verts := by rw [hS.staged_eq]
  have hcv : (listAppend c lt c.num_surfs).num_verts = c.num_verts := rfl
  have hcs : (listAppend c lt c.num_surfs).num_surfs = c.num_surfs := rfl
  have hcsf : (listAppend c lt c.num_surfs).surfs = c.surfs := rfl
  have hcvt : (listAppend c lt c.num_surfs).verts = c.verts := rfl
  have hdv : (listAppend d lt d.num_surfs).num_verts = d.num_verts := rfl
  have hds : (listAppend d lt d.num_surfs).num_surfs = d.num_surfs := rfl
  have hdsf : (listAppend d lt d.num_surfs).surfs = d.surfs := rfl
  have hdvt : (listAppend d lt d.num_surfs).verts = d.verts := rfl
  refine ⟨?_, ?_, ?_, ?_, ?_, ?_, ?_, ?_, ?_, ?_, ?_⟩
  · dsimp only; rw [hcs, hds]; omega
  · dsimp only; rw [hcv, hdv, hsd]; omega
  · dsimp only; exact hL.rc.ni
  · dsimp only; exact hL.rc.np
  · dsimp only; exact hL.rc.w
  · dsimp only; exact hL.rc.h
  · intro i hi
    dsimp only at hi ⊢
    rw [hcs] at hi
    rw [hcsf, hdsf]
    rcases Nat.lt_or_ge i c.num_surfs with hio | hio
    · exact hS.rc.surfs i hio
    · have hieq : i = c.num_surfs := by omega
      rw [hieq]
      nth_rewrite 2 [hns]
      exact hS.staged_eq
  · intro i hi
    dsimp only at hi ⊢
    rw [hcv] at hi
    rw [hcvt, hdvt]
    rcases Nat.lt_or_ge i c.num_verts with hio | hio
    · exact hS.rc.verts i hio
    · have hsv := hS.staged_verts (i - c.num_verts) (by omega)
      rw [show c.num_verts + (i - c.num_verts) = i from by omega] at hsv
      rw [show d.num_verts + (i - c.num_verts) = i from by omega] at hsv
      exact hsv
  · intro i hi
    dsimp only at hi ⊢
    exact hL.rc.idx i hi
  · intro lt' hlt'
    dsimp only
    exact hL.rc.lists lt' hlt'
  · intro i hi
    dsimp only at hi ⊢
    exact hL.rc.pars i hi

theorem agree_commit (tr : Tr) {a b : TrContext} (hS : AgreeS a b)
    (hn : tr.list_type = TA_LIST_TRANSLUCENT ∨ tr.list_type = TA_LIST_PUNCH_THROUGH →
      2 ≤ (staged a).num_verts) :
    AgreeRC (tr_commit_surf tr a) (tr_commit_surf tr b) := by
  have hS1 := agree_origInc hS tr.list_type
  unfold tr_commit_surf
  dsimp only
  by_cases hcase : tr.list_type = TA_LIST_TRANSLUCENT ∨ tr.list_type = TA_LIST_PUNCH_THROUGH
  · rw [if_pos hcase, if_pos hcase]
    exact agree_commit_loop hS1 tr.list_type (hn hcase)
  · rw [if_neg hcase, if_neg hcase]
    exact agree_commit_app hS1 tr.list_type

theorem rcInv_origInc (rc : TrContext) (lt : ℕ) (hI : RcInv rc) :
    RcInv { rc with lists := updF rc.lists lt { rc.lists lt with num_orig_surfs := (rc.lists lt).num_orig_surfs + 1 } } := by
  have hsame : ∀ lt' : ℕ,
      (updF rc.lists lt { rc.lists lt with num_orig_surfs := (rc.lists lt).num_orig_surfs + 1 } lt').num_surfs = (rc.lists lt').num_surfs ∧
      (updF rc.lists lt { rc.lists lt with num_orig_surfs := (rc.lists lt).num_orig_surfs + 1 } lt').surfs = (rc.lists lt').surfs := by
    intro lt'
    by_cases hl : lt' = lt
    · subst hl
      rw [updF_self]
      exact ⟨rfl, rfl⟩
    · rw [updF_ne _ _ _ _ hl]
      exact ⟨rfl, rfl⟩
  refine ⟨hI.one_surf, ?_, ?_⟩
  · intro lt' hlt' i hi
    dsimp only at hi ⊢
    rw [(hsame lt').1] at hi
    rw [(hsame lt').2]
    exact hI.entries_lt lt' hlt' i hi
  · intro lt' htp i hi
    dsimp only at hi ⊢
    rw [(hsame lt').1] at hi
    rw [(hsame lt').2]
    exact hI.tp_tri lt' htp i hi

theorem rcInv_commitLoop (lt k : ℕ) (rc : TrContext) (hI : RcInv rc) :
    RcInv { (List.range k).foldl (tr_commit_tri_step lt) rc with num_verts := ((List.range k).foldl (tr_commit_tri_step lt) rc).num_verts + 2 } := by
  obtain ⟨h1, h2, h3, h4, h5, h6, h7, h8, h9, h10, h11, h12, h13, h14, h15⟩ :=
    commitLoop_spec lt k rc
  refine ⟨?_, ?_, ?_⟩
  · show 1 ≤ ((List.range k).foldl (tr_commit_tri_step lt) rc).num_surfs
    have := hI.one_surf
    omega
  · intro lt' hlt' i hi
    dsimp only at hi ⊢
    by_cases hl : lt' = lt
    · subst hl
      rw [h11] at hi
      rcases Nat.lt_or_ge i (rc.lists lt').num_surfs with hio | hio
      · rw [h14 i hio]
        have := hI.entries_lt lt' hlt' i hio
        omega
      · have ha4 := (h15 (i - (rc.lists lt').num_surfs) (by omega)).2.2.2
        rw [show (rc.lists lt').num_surfs + (i - (rc.lists lt').num_surfs) = i from by omega] at ha4
        rw [ha4]
        omega
    · rw [h10 lt' hl] at hi ⊢
      have := hI.entries_lt lt' hlt' i hi
      omega
  · intro lt' htp i hi
    dsimp only at hi ⊢
    have hlt'5 : lt' < TA_NUM_LISTS := by rcases htp with h | h <;> subst h <;> decide
    by_cases hl : lt' = lt
    · subst hl
      rw [h11] at hi
      rcases Nat.lt_or_ge i (rc.lists lt').num_surfs with hio | hio
      · rw [h14 i hio]
        have he := hI.entries_lt lt' hlt'5 i hio
        rw [h13 _ he]
        obtain ⟨t1, t2⟩ := hI.tp_tri lt' htp i hio
        exact ⟨t1, by omega⟩
      · have hj := h15 (i - (rc.lists lt').num_surfs) (by omega)
        rw [show (rc.lists lt').num_surfs + (i - (rc.lists lt').num_surfs) = i from by omega] at hj
        obtain ⟨a1, a2, a3, a4⟩ := hj
        rw [a4]
        refine ⟨a1, ?_⟩
        rw [a3]
        omega
    · rw [h10 lt' hl] at hi ⊢
      have he := hI.entries_lt lt' hlt'5 i hi
      rw [h13 _ he]
      obtain ⟨t1, t2⟩ := hI.tp_tri lt' htp i hi
      exact ⟨t1, by omega⟩

theorem rcInv_append (lt : ℕ) (hlt2 : lt ≠ TA_LIST_TRANSLUCENT) (hlt4 : lt ≠ TA_LIST_PUNCH_THROUGH)
    (rc : TrContext) (nv : ℕ) (hI : RcInv rc) :
    RcInv { listAppend rc lt rc.num_surfs with num_verts := (listAppend rc lt rc.num_surfs).num_verts + nv, num_surfs := (listAppend rc lt rc.num_surfs).num_surfs + 1 } := by
  have hv : (listAppend rc lt rc.num_surfs).num_verts = rc.num_verts := rfl
  have hs : (listAppend rc lt rc.num_surfs).num_surfs = rc.num_surfs := rfl
  have hsf : (listAppend rc lt rc.num_surfs).surfs = rc.surfs := rfl
  have hll : ∀ l, l ≠ lt → (listAppend rc lt rc.num_surfs).lists l = rc.lists l := by
    intro l hl
    show updF rc.lists lt _ l = rc.lists l
    exact updF_ne _ _ _ _ hl
  have hlc : ((listAppend rc lt rc.num_surfs).lists lt).num_surfs = (rc.lists lt).num_surfs + 1 := by
    show (updF rc.lists lt _ lt).num_surfs = _
    rw [updF_self]
  have hle : ∀ i, ((listAppend rc lt rc.num_surfs).lists lt).surfs i = updF (rc.lists lt).surfs (rc.lists lt).num_surfs rc.num_surfs i := by
    intro i
    show (updF rc.lists lt _ lt).surfs i = _
    rw [updF_self]
  refine ⟨?_, ?_, ?_⟩
  · show 1 ≤ (listAppend rc lt rc.num_surfs).num_surfs + 1
    omega
  · intro lt' hlt' i hi
    dsimp only at hi ⊢
    by_cases hl : lt' = lt
    · subst hl
      rw [hlc] at hi
      rw [hle i, hs]
      rcases Nat.lt_or_ge i (rc.lists lt').num_surfs with hio | hio
      · rw [updF_ne _ _ _ _ (by omega)]
        have := hI.entries_lt lt' hlt' i hio
        omega
      · have hieq : i = (rc.lists lt').num_surfs := by omega
        rw [hieq, updF_self]
        omega
    · rw [hll lt' hl] at hi ⊢
      rw [hs]
      have := hI.entries_lt lt' hlt' i hi
      omega
  · intro lt' htp i hi
    dsimp only at hi ⊢
    have hl : lt' ≠ lt := by
      rcases htp with h | h
      · rw [h]; exact Ne.symm hlt2
      · rw [h]; exact Ne.symm hlt4
    rw [hll lt' hl] at hi ⊢
    rw [hsf, hv]
    obtain ⟨t1, t2⟩ := hI.tp_tri lt' htp i hi
    exact ⟨t1, by omega⟩

theorem commit_inv (tr : Tr) (rc : TrContext) (hI : RcInv rc) :
    RcInv (tr_commit_surf tr rc) := by
  have hI1 := rcInv_origInc rc tr.list_type hI
  unfold tr_commit_surf
  dsimp only
  by_cases hcase : tr.list_type = TA_LIST_TRANSLUCENT ∨ tr.list_type = TA_LIST_PUNCH_THROUGH
  · rw [if_pos hcase]
    exact rcInv_commitLoop _ _ _ hI1
  · rw [if_neg hcase]
    push_neg at hcase
    exact rcInv_append _ hcase.1 hcase.2 _ _ hI1

theorem bodyShape_trans {k1 k2 : ℕ} {c c' c'' : TrContext} (h1 : BodyShape k1 c c')
    (h2 : BodyShape k2 c' c'') : BodyShape (k1 + k2) c c'' := by
  refine ⟨h2.ns.trans h1.ns, h2.nv.trans h1.nv, ?_, ?_, fun l => (h2.lists l).trans (h1.lists l),
    h2.np.trans h1.np, h2.prs.trans h1.prs, h2.ni.trans h1.ni, h2.idx.trans h1.idx⟩
  · have e1 := h1.stg
    have e2 := h2.stg
    omega
  · intro j hj
    have hj' : j < c'.num_surfs := by rw [h1.ns]; exact hj
    exact (h2.surfs j hj').trans (h1.surfs j hj)

theorem reserve_vert_shape (rc : TrContext) : BodyShape 1 rc (tr_reserve_vert rc).1 := by
  refine ⟨rfl, rfl, ?_, ?_, fun l => rfl, rfl, rfl, rfl, rfl⟩
  · rw [staged_reserve_vert]
  · intro j hj
    show updF rc.surfs rc.num_surfs _ j = rc.surfs j
    rw [updF_ne _ _ _ _ (by omega)]

theorem modVert_shape (rc : TrContext) (i : ℕ) (f : TaVertex → TaVertex) :
    BodyShape 0 rc (modVert rc i f) :=
  ⟨rfl, rfl, rfl, fun _ _ => rfl, fun _ => rfl, rfl, rfl, rfl, rfl⟩

theorem emit1_shape (rc : TrContext) (f : TaVertex → TaVertex) :
    BodyShape 1 rc (modVert (tr_reserve_vert rc).1 (tr_reserve_vert rc).2 f) :=
  bodyShape_trans (reserve_vert_shape rc) (modVert_shape _ _ _)

theorem agree_modVert_staged {a b : TrContext} (hS : AgreeS a b) (k : ℕ)
    (hk : k < (staged a).num_verts) (f : TaVertex → TaVertex)
    (i j : ℕ) (hi : i = a.num_verts + k) (hj : j = b.num_verts + k) :
    AgreeS (modVert a i f) (modVert b j f) := by
  subst hi
  subst hj
  exact agree_modVert hS k hk f f (congrArg f (hS.staged_verts k hk))

theorem agree_emit1 {a b : TrContext} (hS : AgreeS a b) (f : TaVertex → TaVertex) :
    AgreeS (modVert (tr_reserve_vert a).1 (tr_reserve_vert a).2 f)
      (modVert (tr_reserve_vert b).1 (tr_reserve_vert b).2 f) := by
  obtain ⟨hS', ha, hb, hc⟩ := agree_reserve_vert hS
  exact agree_modVert_staged hS' (staged a).num_verts (by rw [hc]; omega) f _ _ ha hb

theorem agree_params_push {a b : TrContext} (hA : AgreeRC a b) (e1 e2 : TrParamRec)
    (he : e1 = e2) :
    AgreeRC { a with params := updF a.params a.num_params e1, num_params := a.num_params + 1 } { b with params := updF b.params b.num_params e2, num_params := b.num_params + 1 } := by
  subst he
  have hnp := hA.np
  refine ⟨hA.ns, hA.nv, hA.ni, ?_, hA.w, hA.h, hA.surfs, hA.verts, hA.idx, hA.lists, ?_⟩
  · dsimp only; omega
  · intro i hi
    dsimp only at hi ⊢
    rcases Nat.lt_or_ge i a.num_params with hio | hio
    · rw [updF_ne _ _ _ _ (by omega), updF_ne _ _ _ _ (by omega)]
      exact hA.pars i hio
    · have hieq : i = a.num_params := by omega
      rw [hieq, updF_self, hnp, updF_self]

theorem rcInv_transfer {a b : TrContext} (hns : b.num_surfs = a.num_surfs)
    (hsurfs : ∀ j, j < a.num_surfs → b.surfs j = a.surfs j)
    (hlists : ∀ lt, lt < TA_NUM_LISTS → b.lists lt = a.lists lt)
    (hnv : a.num_verts ≤ b.num_verts) (hI : RcInv a) : RcInv b := by
  refine ⟨by have := hI.one_surf; omega, ?_, ?_⟩
  · intro lt' hlt' i hi
    rw [hlists lt' hlt'] at hi ⊢
    have := hI.entries_lt lt' hlt' i hi
    omega
  · intro lt' htp i hi
    have hlt'5 : lt' < TA_NUM_LISTS := by rcases htp with h | h <;> subst h <;> decide
    rw [hlists lt' hlt'5] at hi ⊢
    have he := hI.entries_lt lt' hlt'5 i hi
    rw [hsurfs _ he]
    obtain ⟨t1, t2⟩ := hI.tp_tri lt' htp i hi
    exact ⟨t1, by omega⟩

theorem rcInv_bodyShape {k : ℕ} {a b : TrContext} (h : BodyShape k a b) (hI : RcInv a) :
    RcInv b :=
  rcInv_transfer h.ns h.surfs (fun lt _ => h.lists lt) (le_of_eq h.nv.symm) hI

theorem agree_sprite (tr : Tr) {a b : TrContext} (hS : AgreeS a b) (p : VertCmd) :
    (tr_parse_sprite_vert tr a p = .fatal ∧ tr_parse_sprite_vert tr b p = .fatal) ∨
    (∃ a' b', tr_parse_sprite_vert tr a p = .dropped a' ∧ tr_parse_sprite_vert tr b p = .dropped b' ∧ AgreeS a' b' ∧ BodyShape 4 a a' ∧ BodyShape 4 b b') ∨
    (∃ a' b', tr_parse_sprite_vert tr a p = .emitted a' ∧ tr_parse_sprite_vert tr b p = .emitted b' ∧ AgreeS a' b' ∧ BodyShape 4 a a' ∧ BodyShape 4 b b') := by
  by_cases heos : p.pcw.end_of_strip = true
  case neg =>
    have heosf : p.pcw.end_of_strip = false := by
      cases h : p.pcw.end_of_strip
      · rfl
      · exact absurd h heos
    left
    constructor <;> simp [tr_parse_sprite_vert, heosf]
  case pos =>
    obtain ⟨hS1, ha1, hb1, hc1⟩ := agree_reserve_vert hS
    set A1 := (tr_reserve_vert a).1 with hA1
    set B1 := (tr_reserve_vert b).1 with hB1
    obtain ⟨hS2, ha2, hb2, hc2⟩ := agree_reserve_vert hS1
    set A2 := (tr_reserve_vert A1).1 with hA2
    set B2 := (tr_reserve_vert B1).1 with hB2
    obtain ⟨hS3, ha3, hb3, hc3⟩ := agree_reserve_vert hS2
    set A3 := (tr_reserve_vert A2).1 with hA3
    set B3 := (tr_reserve_vert B2).1 with hB3
    obtain ⟨hS4, ha4, hb4, hc4⟩ := agree_reserve_vert hS3
    set A4 := (tr_reserve_vert A3).1 with hA4
    set B4 := (tr_reserve_vert B3).1 with hB4
    have k2 : (staged A2).num_verts = (staged a).num_verts + 2 := by rw [hc2, hc1]
    have k3 : (staged A3).num_verts = (staged a).num_verts + 3 := by rw [hc3, k2]
    have k4 : (staged A4).num_verts = (staged a).num_verts + 4 := by rw [hc4, k3]
    have nA1 : A1.num_verts = a.num_verts := rfl
    have nA2 : A2.num_verts = a.num_verts := rfl
    have nA3 : A3.num_verts = a.num_verts := rfl
    have nA4 : A4.num_verts = a.num_verts := rfl
    have nB1 : B1.num_verts = b.num_verts := rfl
    have nB2 : B2.num_verts = b.num_verts := rfl
    have nB3 : B3.num_verts = b.num_verts := rfl
    have nB4 : B4.num_verts = b.num_verts := rfl
    have ia2 : (tr_reserve_vert A1).2 = a.num_verts + ((staged a).num_verts + 1) := by
      rw [ha2, nA1, hc1]
    have ia3 : (tr_reserve_vert A2).2 = a.num_verts + ((staged a).num_verts + 2) := by
      rw [ha3, nA2, k2]
    have ia4 : (tr_reserve_vert A3).2 = a.num_verts + ((staged a).num_verts + 3) := by
      rw [ha4, nA3, k3]
    have ib2 : (tr_reserve_vert B1).2 = b.num_verts + ((staged a).num_verts + 1) := by
      rw [hb2, nB1, hc1]
    have ib3 : (tr_reserve_vert B2).2 = b.num_verts + ((staged a).num_verts + 2) := by
      rw [hb3, nB2, k2]
    have ib4 : (tr_reserve_vert B3).2 = b.num_verts + ((staged a).num_verts + 3) := by
      rw [hb4, nB3, k3]
    set fA := (fun v : TaVertex => { v with xyz := p.sprite_xyz_a, uv := parseUV16 p.sprite_uv_a, color := tr.sprite_color, offset_color := tr.sprite_offset_color }) with hfA
    set fB := (fun v : TaVertex => { v with xyz := p.sprite_xyz_b, uv := parseUV16 p.sprite_uv_b, color := tr.sprite_color, offset_color := tr.sprite_offset_color }) with hfB
    set fC := (fun v : TaVertex => { v with xyz := p.sprite_xyz_c, uv := parseUV16 p.sprite_uv_c, color := tr.sprite_color, offset_color := tr.sprite_offset_color }) with hfC
    set fD := (fun v : TaVertex => { v with xyz := (⟨p.sprite_xy_d.1, p.sprite_xy_d.2, v.xyz.z⟩ : Vec3), color := tr.sprite_color, offset_color := tr.sprite_offset_color }) with hfD
    have m1 := agree_modVert_staged hS4 (staged a).num_verts (by omega) fA
      (tr_reserve_vert a).2 (tr_reserve_vert b).2 (by omega) (by omega)
    set M1 := modVert A4 (tr_reserve_vert a).2 fA with hM1
    set N1 := modVert B4 (tr_reserve_vert b).2 fA with hN1
    have kM1 : (staged M1).num_verts = (staged a).num_verts + 4 := k4
    have nM1 : M1.num_verts = a.num_verts := rfl
    have nN1 : N1.num_verts = b.num_verts := rfl
    have m2 := agree_modVert_staged m1 ((staged a).num_verts + 1) (by omega) fB
      (tr_reserve_vert A1).2 (tr_reserve_vert B1).2 (by omega) (by omega)
    set M2 := modVert M1 (tr_reserve_vert A1).2 fB with hM2
    set N2 := modVert N1 (tr_reserve_vert B1).2 fB with hN2
    have kM2 : (staged M2).num_verts = (staged a).num_verts + 4 := k4
    have nM2 : M2.num_verts = a.num_verts := rfl
    have nN2 : N2.num_verts = b.num_verts := rfl
    have m3 := agree_modVert_staged m2 ((staged a).num_verts + 3) (by omega) fC
      (tr_reserve_vert A3).2 (tr_reserve_vert B3).2 (by omega) (by omega)
    set M3 := modVert M2 (tr_reserve_vert A3).2 fC with hM3
    set N3 := modVert N2 (tr_reserve_vert B3).2 fC with hN3
    have kM3 : (staged M3).num_verts = (staged a).num_verts + 4 := k4
    have nM3 : M3.num_verts = a.num_verts := rfl
    have nN3 : N3.num_verts = b.num_verts := rfl
    have m4 := agree_modVert_staged m3 ((staged a).num_verts + 2) (by omega) fD
      (tr_reserve_vert A2).2 (tr_reserve_vert B2).2 (by omega) (by omega)
    set M4 := modVert M3 (tr_reserve_vert A2).2 fD with hM4
    set N4 := modVert N3 (tr_reserve_vert B2).2 fD with hN4
    have kM4 : (staged M4).num_verts = (staged a).num_verts + 4 := k4
    have nM4 : M4.num_verts = a.num_verts := rfl
    have nN4 : N4.num_verts = b.num_verts := rfl
    have shA4 : BodyShape 4 a A4 :=
      bodyShape_trans (bodyShape_trans (bodyShape_trans (reserve_vert_shape a)
        (reserve_vert_shape A1)) (reserve_vert_shape A2)) (reserve_vert_shape A3)
    have shB4 : BodyShape 4 b B4 :=
      bodyShape_trans (bodyShape_trans (bodyShape_trans (reserve_vert_shape b)
        (reserve_vert_shape B1)) (reserve_vert_shape B2)) (reserve_vert_shape B3)
    have shMA : BodyShape 4 a M4 :=
      bodyShape_trans (bodyShape_trans (bodyShape_trans (bodyShape_trans shA4
        (modVert_shape A4 (tr_reserve_vert a).2 fA)) (modVert_shape M1 (tr_reserve_vert A1).2 fB))
        (modVert_shape M2 (tr_reserve_vert A3).2 fC)) (modVert_shape M3 (tr_reserve_vert A2).2 fD)
    have shMB : BodyShape 4 b N4 :=
      bodyShape_trans (bodyShape_trans (bodyShape_trans (bodyShape_trans shB4
        (modVert_shape B4 (tr_reserve_vert b).2 fA)) (modVert_shape N1 (tr_reserve_vert B1).2 fB))
        (modVert_shape N2 (tr_reserve_vert B3).2 fC)) (modVert_shape N3 (tr_reserve_vert B2).2 fD)
    by_cases hdeg : vec3_dot (vec3_cross (vec3_sub p.sprite_xyz_a p.sprite_xyz_b) (vec3_sub p.sprite_xyz_c p.sprite_xyz_b)) (vec3_cross (vec3_sub p.sprite_xyz_a p.sprite_xyz_b) (vec3_sub p.sprite_xyz_c p.sprite_xyz_b)) = 0 ∨ (vec3_cross (vec3_sub p.sprite_xyz_a p.sprite_xyz_b) (vec3_sub p.sprite_xyz_c p.sprite_xyz_b)).z = 0
    · refine Or.inr (Or.inl ⟨M4, N4, ?_, ?_, m4, shMA, shMB⟩)
      · simp only [tr_parse_sprite_vert, heos, Bool.not_true, Bool.false_eq_true, if_false, not_true]
        rw [if_pos hdeg]
      · simp only [tr_parse_sprite_vert, heos, Bool.not_true, Bool.false_eq_true, if_false, not_true]
        rw [if_pos hdeg]
    · set fE := (fun v : TaVertex =>
        let n := vec3_cross (vec3_sub p.sprite_xyz_a p.sprite_xyz_b) (vec3_sub p.sprite_xyz_c p.sprite_xyz_b)
        let d := vec3_dot n p.sprite_xyz_b
        { v with xyz := (⟨v.xyz.x, v.xyz.y, (d - n.x * v.xyz.x - n.y * v.xyz.y) / n.z⟩ : Vec3) }) with hfE
      set fF := (fun v : TaVertex =>
        let uv_ba := vec2_sub (parseUV16 p.sprite_uv_a) (parseUV16 p.sprite_uv_b)
        let uv_bc := vec2_sub (parseUV16 p.sprite_uv_c) (parseUV16 p.sprite_uv_b)
        { v with uv := vec2_add (vec2_add (parseUV16 p.sprite_uv_b) uv_ba) uv_bc }) with hfF
      have m5 := agree_modVert_staged m4 ((staged a).num_verts + 2) (by omega) fE
        (tr_reserve_vert A2).2 (tr_reserve_vert B2).2 (by omega) (by omega)
      set M5 := modVert M4 (tr_reserve_vert A2).2 fE with hM5
      set N5 := modVert N4 (tr_reserve_vert B2).2 fE with hN5
      have kM5 : (staged M5).num_verts = (staged a).num_verts + 4 := k4
      have nM5 : M5.num_verts = a.num_verts := rfl
      have nN5 : N5.num_verts = b.num_verts := rfl
      have m6 := agree_modVert_staged m5 ((staged a).num_verts + 2) (by omega) fF
        (tr_reserve_vert A2).2 (tr_reserve_vert B2).2 (by omega) (by omega)
      set M6 := modVert M5 (tr_reserve_vert A2).2 fF with hM6
      set N6 := modVert N5 (tr_reserve_vert B2).2 fF with hN6
      have shMA6 : BodyShape 4 a M6 :=
        bodyShape_trans (bodyShape_trans shMA (modVert_shape M4 (tr_reserve_vert A2).2 fE))
          (modVert_shape M5 (tr_reserve_vert A2).2 fF)
      have shMB6 : BodyShape 4 b N6 :=
        bodyShape_trans (bodyShape_trans shMB (modVert_shape N4 (tr_reserve_vert B2).2 fE))
          (modVert_shape N5 (tr_reserve_vert B2).2 fF)
      refine Or.inr (Or.inr ⟨M6, N6, ?_, ?_, m6, shMA6, shMB6⟩)
      · simp only [tr_parse_sprite_vert, heos, Bool.not_true, Bool.false_eq_true, if_false, not_true]
        rw [if_neg hdeg]
      · simp only [tr_parse_sprite_vert, heos, Bool.not_true, Bool.false_eq_true, if_false, not_true]
        rw [if_neg hdeg]

theorem vert_body_high (tr : Tr) (rc : TrContext) (p : VertCmd) (h : 17 ≤ tr.vert_type) :
    tr_parse_vert_body tr rc p = .fatal := by
  obtain ⟨m, hm⟩ : ∃ m, tr.vert_type = m + 17 := ⟨tr.vert_type - 17, by omega⟩
  unfold tr_parse_vert_body
  rw [hm]
  exact rfl

theorem agree_vert_body (tr : Tr) {a b : TrContext} (hS : AgreeS a b) (p : VertCmd) :
    (tr_parse_vert_body tr a p = .fatal ∧ tr_parse_vert_body tr b p = .fatal) ∨
    (∃ a' b' k, tr_parse_vert_body tr a p = .dropped a' ∧ tr_parse_vert_body tr b p = .dropped b' ∧ AgreeS a' b' ∧ BodyShape k a a' ∧ BodyShape k b b' ∧ k = (if tr.vert_type = 15 ∨ tr.vert_type = 16 then 4 else 1)) ∨
    (∃ a' b' k, tr_parse_vert_body tr a p = .emitted a' ∧ tr_parse_vert_body tr b p = .emitted b' ∧ AgreeS a' b' ∧ BodyShape k a a' ∧ BodyShape k b b' ∧ k = (if tr.vert_type = 15 ∨ tr.vert_type = 16 then 4 else 1)) := by
  rcases Nat.lt_or_ge tr.vert_type 17 with hlt | hge
  · have hv : tr.vert_type = 0 ∨ tr.vert_type = 1 ∨ tr.vert_type = 2 ∨ tr.vert_type = 3 ∨
        tr.vert_type = 4 ∨ tr.vert_type = 5 ∨ tr.vert_type = 6 ∨ tr.vert_type = 7 ∨
        tr.vert_type = 8 ∨ tr.vert_type = 9 ∨ tr.vert_type = 10 ∨ tr.vert_type = 11 ∨
        tr.vert_type = 12 ∨ tr.vert_type = 13 ∨ tr.vert_type = 14 ∨ tr.vert_type = 15 ∨
        tr.vert_type = 16 := by omega
    rcases hv with hv | hv | hv | hv | hv | hv | hv | hv | hv | hv | hv | hv | hv | hv | hv | hv | hv
    case _ | _ | _ | _ | _ | _ | _ | _ | _ =>
      have ea : ∃ f, tr_parse_vert_body tr a p =
            .emitted (modVert (tr_reserve_vert a).1 (tr_reserve_vert a).2 f) ∧
          tr_parse_vert_body tr b p =
            .emitted (modVert (tr_reserve_vert b).1 (tr_reserve_vert b).2 f) :=
        ⟨_, by unfold tr_parse_vert_body; rw [hv],
          by unfold tr_parse_vert_body; rw [hv]⟩
      obtain ⟨f, e1, e2⟩ := ea
      exact Or.inr (Or.inr ⟨_, _, 1, e1, e2, agree_emit1 hS f, emit1_shape a f, emit1_shape b f,
        by rw [hv]; decide⟩)
    case _ | _ | _ | _ | _ | _ =>
      refine Or.inl ⟨?_, ?_⟩ <;>
        · unfold tr_parse_vert_body
          rw [hv]
    case _ | _ =>
      have hbody_a : tr_parse_vert_body tr a p = tr_parse_sprite_vert tr a p := by
        unfold tr_parse_vert_body
        rw [hv]
      have hbody_b : tr_parse_vert_body tr b p = tr_parse_sprite_vert tr b p := by
        unfold tr_parse_vert_body
        rw [hv]
      rw [hbody_a, hbody_b]
      rcases agree_sprite tr hS p with h | ⟨a', b', e1, e2, hA, s1, s2⟩ | ⟨a', b', e1, e2, hA, s1, s2⟩
      · exact Or.inl h
      · exact Or.inr (Or.inl ⟨a', b', 4, e1, e2, hA, s1, s2, by rw [hv]; simp⟩)
      · exact Or.inr (Or.inr ⟨a', b', 4, e1, e2, hA, s1, s2, by rw [hv]; simp⟩)
  · left
    exact ⟨vert_body_high tr a p hge, vert_body_high tr b p hge⟩

theorem tr_parse_vert_param_eq (tr : Tr) (rc : TrContext) (p : VertCmd) :
    tr_parse_vert_param tr rc p = if tr.vert_type = 17 then some (tr, rc)
      else vertTail { tr with last_vertex := some p } (vertPhase1 tr rc) p := by
  unfold tr_parse_vert_param vertPhase1 vertTail
  rcases h : tr.last_vertex with _ | lv
  · rfl
  · rfl

theorem agree_vert_tail (tr : Tr) {a1 b1 : TrContext} (hS1 : AgreeS a1 b1) (hI1 : RcInv a1)
    (p : VertCmd)
    (hbound : p.pcw.end_of_strip = true →
      (tr.list_type = TA_LIST_TRANSLUCENT ∨ tr.list_type = TA_LIST_PUNCH_THROUGH) →
      2 ≤ (staged a1).num_verts +
        (if tr.vert_type = 15 ∨ tr.vert_type = 16 then 4 else 1)) :
    (vertTail tr a1 p = none ∧ vertTail tr b1 p = none) ∨
    (∃ a' b', vertTail tr a1 p = some (tr, a') ∧ vertTail tr b1 p = some (tr, b') ∧
      AgreeRC a' b' ∧ RcInv a' ∧
      (p.pcw.end_of_strip = false →
        staged a' = staged b' ∧
        (staged a').num_verts = (staged a1).num_verts +
          (if tr.vert_type = 15 ∨ tr.vert_type = 16 then 4 else 1) ∧
        (∀ i, i < (staged a').num_verts →
          a'.verts (a'.num_verts + i) = b'.verts (b'.num_verts + i)))) := by
  rcases agree_vert_body tr hS1 p with ⟨f1, f2⟩ |
      ⟨a', b', k, e1, e2, hA', s1, s2, hk⟩ | ⟨a', b', k, e1, e2, hA', s1, s2, hk⟩
  · left
    constructor <;> simp [vertTail, f1, f2]
  · right
    refine ⟨a', b', ?_, ?_, hA'.rc, rcInv_bodyShape s1 hI1, ?_⟩
    · simp [vertTail, e1]
    · simp [vertTail, e2]
    · intro _
      exact ⟨hA'.staged_eq, by rw [s1.stg, hk], hA'.staged_verts⟩
  · by_cases heos : p.pcw.end_of_strip = true
    · right
      refine ⟨tr_commit_surf tr a', tr_commit_surf tr b', ?_, ?_, ?_, ?_, ?_⟩
      · simp [vertTail, e1, heos]
      · simp [vertTail, e2, heos]
      · refine agree_commit tr hA' (fun hl => ?_)
        rw [s1.stg, hk]
        have := hbound heos hl
        omega
      · exact commit_inv tr a' (rcInv_bodyShape s1 hI1)
      · intro hf
        rw [hf] at heos
        exact absurd heos (by decide)
    · have heosf : p.pcw.end_of_strip = false := by
        cases h : p.pcw.end_of_strip
        · rfl
        · exact absurd h heos
      right
      refine ⟨a', b', ?_, ?_, hA'.rc, rcInv_bodyShape s1 hI1, ?_⟩
      · simp [vertTail, e1, heosf]
      · simp [vertTail, e2, heosf]
      · intro _
        exact ⟨hA'.staged_eq, by rw [s1.stg, hk], hA'.staged_verts⟩

theorem agree_vert_param (tr : Tr) {a b : TrContext} (p : VertCmd) (hA : AgreeRC a b)
    (hst : stagedLive tr → staged a = staged b ∧
      ∀ i, i < (staged a).num_verts → a.verts (a.num_verts + i) = b.verts (b.num_verts + i))
    (hI : RcInv a) (st : StripState)
    (hvt : st.vt = tr.vert_type) (heos : st.eos = lastEos tr)
    (hcnt : stagedLive tr → st.cnt = (staged a).num_verts)
    (hlt : stripAdopt st (.vertex p) = tr.list_type)
    (hchk : stripCheck st (.vertex p) = true) :
    (tr_parse_vert_param tr a p = none ∧ tr_parse_vert_param tr b p = none) ∨
    (∃ tr' a' b', tr_parse_vert_param tr a p = some (tr', a') ∧
      tr_parse_vert_param tr b p = some (tr', b') ∧
      tr'.list_type = tr.list_type ∧ tr'.vert_type = tr.vert_type ∧
      AgreeRC a' b' ∧ RcInv a' ∧
      (stagedLive tr' → staged a' = staged b' ∧
        ∀ i, i < (staged a').num_verts →
          a'.verts (a'.num_verts + i) = b'.verts (b'.num_verts + i)) ∧
      stripStateMatches (tr', a') (stripStateNext st (.vertex p))) := by
  by_cases h17 : tr.vert_type = 17
  · right
    have hst17 : st.vt = 17 := by rw [hvt, h17]
    have hnext : stripStateNext st (.vertex p) =
        ⟨stripAdopt st (.vertex p), st.vt, st.eos, st.cnt⟩ := by
      unfold stripStateNext
      dsimp only
      rw [if_pos hst17]
    refine ⟨tr, a, b, ?_, ?_, rfl, rfl, hA, hI, hst, ?_⟩
    · rw [tr_parse_vert_param_eq, if_pos h17]
    · rw [tr_parse_vert_param_eq, if_pos h17]
    · rw [hnext]
      exact ⟨hlt, hvt, heos, hcnt⟩
  · by_cases hhigh : 17 ≤ tr.vert_type
    · left
      have hfat : ∀ rc : TrContext,
          tr_parse_vert_body { tr with last_vertex := some p } rc p = .fatal :=
        fun rc => vert_body_high _ rc p hhigh
      constructor <;>
        · rw [tr_parse_vert_param_eq, if_neg h17]
          simp [vertTail, hfat]
    · have hlow : tr.vert_type ≤ 16 := by omega
      have hst17 : ¬ st.vt = 17 := by rw [hvt]; exact h17
      have hb : p.pcw.end_of_strip = true →
          (tr.list_type = TA_LIST_TRANSLUCENT ∨ tr.list_type = TA_LIST_PUNCH_THROUGH) →
          2 ≤ (if st.vt = 15 ∨ st.vt = 16 then (if st.eos then 0 else st.cnt) + 4
            else (if st.eos then 0 else st.cnt) + 1) := by
        intro hp hl
        have h := hchk
        unfold stripCheck at h
        dsimp only at h
        rw [if_neg hst17, hlt, if_pos ⟨hp, hl⟩] at h
        exact of_decide_eq_true h
      have hnext : stripStateNext st (.vertex p) =
          ⟨stripAdopt st (.vertex p), st.vt, p.pcw.end_of_strip,
            (if st.vt = 15 ∨ st.vt = 16 then (if st.eos then 0 else st.cnt) + 4
              else (if st.eos then 0 else st.cnt) + 1)⟩ := by
        unfold stripStateNext
        dsimp only
        rw [if_neg hst17]
      cases heol : lastEos tr
      ·
        have hph : ∀ rc : TrContext, vertPhase1 tr rc = rc := by
          intro rc
          have h2 := heol
          unfold lastEos at h2
          unfold vertPhase1
          rcases hlv : tr.last_vertex with _ | lv
          · simp [hlv]
          · rw [hlv] at h2
            dsimp only at h2
            simp [hlv, h2]
        have hlive : stagedLive tr := ⟨hlow, heol⟩
        obtain ⟨hse, hsv⟩ := hst hlive
        have hS1 : AgreeS a b := ⟨hA, hse, hsv⟩
        have hcnt1 : st.cnt = (staged a).num_verts := hcnt hlive
        have hseosf : st.eos = false := by rw [heos, heol]
        have hcnt2 : (if st.vt = 15 ∨ st.vt = 16 then (if st.eos then 0 else st.cnt) + 4
              else (if st.eos then 0 else st.cnt) + 1) =
            (staged a).num_verts + (if tr.vert_type = 15 ∨ tr.vert_type = 16 then 4 else 1) := by
          rw [hseosf, hvt]
          by_cases hsp : tr.vert_type = 15 ∨ tr.vert_type = 16
          · rw [if_pos hsp, if_pos hsp]
            simp [hcnt1]
          · rw [if_neg hsp, if_neg hsp]
            simp [hcnt1]
        have hbound : p.pcw.end_of_strip = true →
            (tr.list_type = TA_LIST_TRANSLUCENT ∨ tr.list_type = TA_LIST_PUNCH_THROUGH) →
            2 ≤ (staged a).num_verts +
              (if tr.vert_type = 15 ∨ tr.vert_type = 16 then 4 else 1) := by
          intro hp hl
          rw [← hcnt2]
          exact hb hp hl
        rcases agree_vert_tail { tr with last_vertex := some p } hS1 hI p hbound with
          ⟨f1, f2⟩ | ⟨a', b', e1, e2, hA', hI', himp⟩
        · left
          constructor
          · rw [tr_parse_vert_param_eq, if_neg h17, hph]; exact f1
          · rw [tr_parse_vert_param_eq, if_neg h17, hph]; exact f2
        · right
          refine ⟨{ tr with last_vertex := some p }, a', b', ?_, ?_, rfl, rfl, hA', hI', ?_, ?_⟩
          · rw [tr_parse_vert_param_eq, if_neg h17, hph]; exact e1
          · rw [tr_parse_vert_param_eq, if_neg h17, hph]; exact e2
          · intro hlive'
            have hpf : p.pcw.end_of_strip = false := hlive'.2
            obtain ⟨x1, x2, x3⟩ := himp hpf
            exact ⟨x1, x3⟩
          · rw [hnext]
            refine ⟨hlt, hvt, rfl, ?_⟩
            intro hlive'
            have hpf : p.pcw.end_of_strip = false := hlive'.2
            obtain ⟨x1, x2, x3⟩ := himp hpf
            have x2' : (staged a').num_verts = (staged a).num_verts +
                (if tr.vert_type = 15 ∨ tr.vert_type = 16 then 4 else 1) := x2
            rw [hcnt2, x2']
      ·
        have hph : ∀ rc : TrContext, vertPhase1 tr rc = tr_reserve_surf rc true := by
          intro rc
          have h2 := heol
          unfold lastEos at h2
          unfold vertPhase1
          rcases hlv : tr.last_vertex with _ | lv
          · rw [hlv] at h2
            dsimp only at h2
            simp at h2
          · rw [hlv] at h2
            dsimp only at h2
            simp [hlv, h2]
        have hS1 : AgreeS (tr_reserve_surf a true) (tr_reserve_surf b true) :=
          agree_reserve_surf hA true (fun _ => hI.one_surf)
        have hI1 : RcInv (tr_reserve_surf a true) :=
          rcInv_transfer (a := a) (b := tr_reserve_surf a true) rfl (fun j hj => by
              show updF a.surfs a.num_surfs _ j = a.surfs j
              rw [updF_ne _ _ _ _ (by omega)])
            (fun l _ => rfl) (le_refl _) hI
        have hstg0 : (staged (tr_reserve_surf a true)).num_verts = 0 := by rw [staged_reserve]
        have hseost : st.eos = true := by rw [heos, heol]
        have hcnt2 : (if st.vt = 15 ∨ st.vt = 16 then (if st.eos then 0 else st.cnt) + 4
              else (if st.eos then 0 else st.cnt) + 1) =
            (staged (tr_reserve_surf a true)).num_verts +
              (if tr.vert_type = 15 ∨ tr.vert_type = 16 then 4 else 1) := by
          rw [hseost, hvt, hstg0]
          by_cases hsp : tr.vert_type = 15 ∨ tr.vert_type = 16
          · rw [if_pos hsp, if_pos hsp]
            simp
          · rw [if_neg hsp, if_neg hsp]
            simp
        have hbound : p.pcw.end_of_strip = true →
            (tr.list_type = TA_LIST_TRANSLUCENT ∨ tr.list_type = TA_LIST_PUNCH_THROUGH) →
            2 ≤ (staged (tr_reserve_surf a true)).num_verts +
              (if tr.vert_type = 15 ∨ tr.vert_type = 16 then 4 else 1) := by
          intro hp hl
          rw [← hcnt2]
          exact hb hp hl
        rcases agree_vert_tail { tr with last_vertex := some p } hS1 hI1 p hbound with
          ⟨f1, f2⟩ | ⟨a', b', e1, e2, hA', hI', himp⟩
        · left
          constructor
          · rw [tr_parse_vert_param_eq, if_neg h17, hph]; exact f1
          · rw [tr_parse_vert_param_eq, if_neg h17, hph]; exact f2
        · right
          refine ⟨{ tr with last_vertex := some p }, a', b', ?_, ?_, rfl, rfl, hA', hI', ?_, ?_⟩
          · rw [tr_parse_vert_param_eq, if_neg h17, hph]; exact e1
          · rw [tr_parse_vert_param_eq, if_neg h17, hph]; exact e2
          · intro hlive'
            have hpf : p.pcw.end_of_strip = false := hlive'.2
            obtain ⟨x1, x2, x3⟩ := himp hpf
            exact ⟨x1, x3⟩
          · rw [hnext]
            refine ⟨hlt, hvt, rfl, ?_⟩
            intro hlive'
            have hpf : p.pcw.end_of_strip = false := hlive'.2
            obtain ⟨x1, x2, x3⟩ := himp hpf
            have x2' : (staged a').num_verts = (staged (tr_reserve_surf a true)).num_verts +
                (if tr.vert_type = 15 ∨ tr.vert_type = 16 then 4 else 1) := x2
            rw [hcnt2, x2']

theorem agree_poly_rc (texFn : TexOracle) (ctx : TaCtx) (lt : ℕ) (p : PolyCmd)
    {a b : TrContext} (hA : AgreeRC a b) (hI : RcInv a) :
    AgreeS (modStaged (tr_reserve_surf a false) (fun s => { s with params := tr_poly_surf_params texFn ctx lt p }))
      (modStaged (tr_reserve_surf b false) (fun s => { s with params := tr_poly_surf_params texFn ctx lt p })) ∧
    RcInv (modStaged (tr_reserve_surf a false) (fun s => { s with params := tr_poly_surf_params texFn ctx lt p })) ∧
    (staged (modStaged (tr_reserve_surf a false) (fun s => { s with params := tr_poly_surf_params texFn ctx lt p }))).num_verts = 0 := by
  refine ⟨agree_modStaged (agree_reserve_surf hA false (fun h => absurd h (by decide))) _ rfl,
    ?_, ?_⟩
  · refine rcInv_transfer (a := a) ?_ ?_ ?_ ?_ hI
    · exact rfl
    · intro j hj
      show updF (updF a.surfs a.num_surfs _) a.num_surfs _ j = a.surfs j
      rw [updF_ne _ _ _ _ (by omega), updF_ne _ _ _ _ (by omega)]
    · intro l _
      exact rfl
    · exact le_refl _
  · rw [staged_modStaged]
    dsimp only
    rw [staged_reserve]

theorem agree_poly_param (texFn : TexOracle) (ctx : TaCtx) (tr : Tr) {a b : TrContext}
    (p : PolyCmd) (hA : AgreeRC a b) (hI : RcInv a) (st : StripState)
    (hlt : stripAdopt st (.poly p) = tr.list_type) :
    (tr_parse_poly_param texFn ctx tr a p = none ∧
      tr_parse_poly_param texFn ctx tr b p = none) ∨
    (∃ tr' a' b', tr_parse_poly_param texFn ctx tr a p = some (tr', a') ∧
      tr_parse_poly_param texFn ctx tr b p = some (tr', b') ∧
      tr'.list_type = tr.list_type ∧
      AgreeRC a' b' ∧ RcInv a' ∧
      (stagedLive tr' → staged a' = staged b' ∧
        ∀ i, i < (staged a').num_verts →
          a'.verts (a'.num_verts + i) = b'.verts (b'.num_verts + i)) ∧
      stripStateMatches (tr', a') (stripStateNext st (.poly p))) := by
  have hnext : stripStateNext st (.poly p) =
      ⟨stripAdopt st (.poly p), ta_vert_type p, false, 0⟩ := rfl
  by_cases h6 : ta_poly_type p = 6
  · right
    have hvt17 : 17 ≤ ta_vert_type p := by
      unfold ta_poly_type at h6
      unfold ta_vert_type
      rcases hd : p.data with v | ⟨v, fc⟩ | ⟨v, fc, foc⟩ | ⟨v, bc, oc⟩ | - | t <;>
        rw [hd] at h6 <;> dsimp only at h6 ⊢ <;> first | decide | simp at h6
    refine ⟨{ tr with last_vertex := none, vert_type := ta_vert_type p }, a, b, ?_, ?_, rfl,
      hA, hI, ?_, ?_⟩
    · unfold tr_parse_poly_param
      dsimp only
      rw [if_pos h6]
    · unfold tr_parse_poly_param
      dsimp only
      rw [if_pos h6]
    · intro hlive
      exfalso
      have h1 : ta_vert_type p ≤ 16 := hlive.1
      omega
    · rw [hnext]
      refine ⟨hlt, rfl, rfl, ?_⟩
      intro hlive
      exfalso
      have h1 : ta_vert_type p ≤ 16 := hlive.1
      omega
  · rcases hd : p.data with v | ⟨v, fc⟩ | ⟨v, fc, foc⟩ | ⟨v, bc, oc⟩ | - | t
    · obtain ⟨hS', hI', h0⟩ := agree_poly_rc texFn ctx tr.list_type p hA hI
      right
      refine ⟨{ tr with last_vertex := none, vert_type := ta_vert_type p }, _, _, ?_, ?_, rfl,
        hS'.rc, hI', ?_, ?_⟩
      · unfold tr_parse_poly_param
        dsimp only
        rw [if_neg h6, hd]
        exact rfl
      · unfold tr_parse_poly_param
        dsimp only
        rw [if_neg h6, hd]
        exact rfl
      · intro _
        exact ⟨hS'.staged_eq, hS'.staged_verts⟩
      · rw [hnext]
        exact ⟨hlt, rfl, rfl, fun _ => h0.symm⟩
    · obtain ⟨hS', hI', h0⟩ := agree_poly_rc texFn ctx tr.list_type p hA hI
      right
      refine ⟨{ tr with last_vertex := none, vert_type := ta_vert_type p, face_color := parseFloatColor fc }, _, _, ?_, ?_, rfl, hS'.rc, hI', ?_, ?_⟩
      · unfold tr_parse_poly_param
        dsimp only
        rw [if_neg h6, hd]
        exact rfl
      · unfold tr_parse_poly_param
        dsimp only
        rw [if_neg h6, hd]
        exact rfl
      · intro _
        exact ⟨hS'.staged_eq, hS'.staged_verts⟩
      · rw [hnext]
        exact ⟨hlt, rfl, rfl, fun _ => h0.symm⟩
    · obtain ⟨hS', hI', h0⟩ := agree_poly_rc texFn ctx tr.list_type p hA hI
      right
      refine ⟨{ tr with last_vertex := none, vert_type := ta_vert_type p, face_color := parseFloatColor fc, face_offset_color := parseFloatColor foc }, _, _, ?_, ?_, rfl, hS'.rc, hI', ?_, ?_⟩
      · unfold tr_parse_poly_param
        dsimp only
        rw [if_neg h6, hd]
        exact rfl
      · unfold tr_parse_poly_param
        dsimp only
        rw [if_neg h6, hd]
        exact rfl
      · intro _
        exact ⟨hS'.staged_eq, hS'.staged_verts⟩
      · rw [hnext]
        exact ⟨hlt, rfl, rfl, fun _ => h0.symm⟩
    · obtain ⟨hS', hI', h0⟩ := agree_poly_rc texFn ctx tr.list_type p hA hI
      right
      refine ⟨{ tr with last_vertex := none, vert_type := ta_vert_type p, sprite_color := parsePackedColor bc, sprite_offset_color := parsePackedColor oc }, _, _, ?_, ?_, rfl, hS'.rc, hI', ?_, ?_⟩
      · unfold tr_parse_poly_param
        dsimp only
        rw [if_neg h6, hd]
        exact rfl
      · unfold tr_parse_poly_param
        dsimp only
        rw [if_neg h6, hd]
        exact rfl
      · intro _
        exact ⟨hS'.staged_eq, hS'.staged_verts⟩
      · rw [hnext]
        exact ⟨hlt, rfl, rfl, fun _ => h0.symm⟩
    · exfalso
      apply h6
      unfold ta_poly_type
      rw [hd]
    · left
      constructor <;>
        · unfold tr_parse_poly_param
          dsimp only
          rw [if_neg h6, hd]

theorem tr_step_eq (texFn : TexOracle) (ctx : TaCtx) (tr : Tr) (rc : TrContext) (p : TaParam) :
    tr_step texFn ctx (tr, rc) p =
      match tr_dispatch texFn ctx (tr_adopt tr p) rc p with
      | none => none
      | some (tr, rc) =>
          some (tr, { rc with params := updF rc.params rc.num_params { list_type := tr.list_type, vert_type := tr.vert_type, last_surf := (rc.num_surfs : ℤ) - 1, last_vert := (rc.num_verts : ℤ) - 1 }, num_params := rc.num_params + 1 }) := by
  rcases p with w | w | w | c | c <;> rfl

theorem agree_tr_step (texFn : TexOracle) (ctx : TaCtx) {tr : Tr} {a b : TrContext}
    (hA : AgreeRC a b)
    (hst : stagedLive tr → staged a = staged b ∧
      ∀ i, i < (staged a).num_verts → a.verts (a.num_verts + i) = b.verts (b.num_verts + i))
    (hI : RcInv a) (st : StripState) (hM : stripStateMatches (tr, a) st)
    (p : TaParam) (hchk : stripCheck st p = true) :
    (tr_step texFn ctx (tr, a) p = none ∧ tr_step texFn ctx (tr, b) p = none) ∨
    (∃ tr' a' b', tr_step texFn ctx (tr, a) p = some (tr', a') ∧
      tr_step texFn ctx (tr, b) p = some (tr', b') ∧
      AgreeRC a' b' ∧
      (stagedLive tr' → staged a' = staged b' ∧
        ∀ i, i < (staged a').num_verts →
          a'.verts (a'.num_verts + i) = b'.verts (b'.num_verts + i)) ∧
      RcInv a' ∧ stripStateMatches (tr', a') (stripStateNext st p)) := by
  have hvt1 : ∀ q : TaParam, (tr_adopt tr q).vert_type = tr.vert_type := by
    intro q
    unfold tr_adopt
    split <;> rfl
  have hlv1 : ∀ q : TaParam, (tr_adopt tr q).last_vertex = tr.last_vertex := by
    intro q
    unfold tr_adopt
    split <;> rfl
  have hle1 : ∀ q : TaParam, lastEos (tr_adopt tr q) = lastEos tr := by
    intro q
    unfold lastEos
    rw [hlv1]
  have hlive1 : ∀ q : TaParam, stagedLive (tr_adopt tr q) ↔ stagedLive tr := by
    intro q
    unfold stagedLive
    rw [hvt1, hle1]
  have hadopt : ∀ q : TaParam, stripAdopt st q = (tr_adopt tr q).list_type := by
    intro q
    unfold stripAdopt tr_adopt ta_pcw_list_type_valid
    rw [hM.1]
    by_cases hc : (tr.list_type == TA_NUM_LISTS) = true
    · rw [if_pos hc, if_pos hc]
    · rw [if_neg hc, if_neg hc]
  have hdisp : (tr_dispatch texFn ctx (tr_adopt tr p) a p = none ∧
      tr_dispatch texFn ctx (tr_adopt tr p) b p = none) ∨
    (∃ tr' a' b', tr_dispatch texFn ctx (tr_adopt tr p) a p = some (tr', a') ∧
      tr_dispatch texFn ctx (tr_adopt tr p) b p = some (tr', b') ∧
      AgreeRC a' b' ∧
      (stagedLive tr' → staged a' = staged b' ∧
        ∀ i, i < (staged a').num_verts →
          a'.verts (a'.num_verts + i) = b'.verts (b'.num_verts + i)) ∧
      RcInv a' ∧ stripStateMatches (tr', a') (stripStateNext st p)) := by
    rcases p with w | w | w | c | c
    · right
      refine ⟨tr_parse_eol (tr_adopt tr (.eol w)), a, b, rfl, rfl, hA,
        fun hlive => absurd hlive.1 (by show ¬ TA_NUM_VERTS ≤ 16; decide), hI, ?_⟩
      exact ⟨rfl, rfl, rfl, fun hlive => absurd hlive.1 (by show ¬ TA_NUM_VERTS ≤ 16; decide)⟩
    · right
      refine ⟨tr_adopt tr (.userTileClip w), a, b, rfl, rfl, hA,
        fun hl => hst ((hlive1 _).mp hl), hI, ?_⟩
      refine ⟨hadopt _, ?_, ?_, fun hl => hM.2.2.2 ((hlive1 _).mp hl)⟩
      · rw [hvt1]
        exact hM.2.1
      · rw [hle1]
        exact hM.2.2.1
    · left
      exact ⟨rfl, rfl⟩
    · rcases agree_poly_param texFn ctx (tr_adopt tr (.poly c)) c hA hI st (hadopt _) with
        ⟨f1, f2⟩ | ⟨tr', a', b', e1, e2, hltp, hArc, hIp, hlivep, hMp⟩
      · exact Or.inl ⟨f1, f2⟩
      · exact Or.inr ⟨tr', a', b', e1, e2, hArc, hlivep, hIp, hMp⟩
    · have hvt' : st.vt = (tr_adopt tr (.vertex c)).vert_type := by
        rw [hvt1]
        exact hM.2.1
      have heos' : st.eos = lastEos (tr_adopt tr (.vertex c)) := by
        rw [hle1]
        exact hM.2.2.1
      rcases agree_vert_param (tr_adopt tr (.vertex c)) c hA
          (fun hl => hst ((hlive1 _).mp hl)) hI st hvt' heos'
          (fun hl => hM.2.2.2 ((hlive1 _).mp hl)) (hadopt _) hchk with
        ⟨f1, f2⟩ | ⟨tr', a', b', e1, e2, hltv, hvtv, hArc, hIv, hlivev, hMv⟩
      · exact Or.inl ⟨f1, f2⟩
      · exact Or.inr ⟨tr', a', b', e1, e2, hArc, hlivev, hIv, hMv⟩
  rcases hdisp with ⟨f1, f2⟩ | ⟨tr', a', b', e1, e2, hA', hst', hI', hM'⟩
  · left
    constructor
    · rw [tr_step_eq, f1]
    · rw [tr_step_eq, f2]
  · right
    refine ⟨tr', { a' with params := updF a'.params a'.num_params { list_type := tr'.list_type, vert_type := tr'.vert_type, last_surf := (a'.num_surfs : ℤ) - 1, last_vert := (a'.num_verts : ℤ) - 1 }, num_params := a'.num_params + 1 }, { b' with params := updF b'.params b'.num_params { list_type := tr'.list_type, vert_type := tr'.vert_type, last_surf := (b'.num_surfs : ℤ) - 1, last_vert := (b'.num_verts : ℤ) - 1 }, num_params := b'.num_params + 1 }, ?_, ?_, ?_, ?_, ?_, ?_⟩
    · rw [tr_step_eq, e1]
    · rw [tr_step_eq, e2]
    · exact agree_params_push hA' _ _ (by rw [hA'.ns, hA'.nv])
    · intro hl
      exact hst' hl
    · refine rcInv_transfer (a := a') ?_ ?_ ?_ ?_ hI'
      · exact rfl
      · intro j hj
        exact rfl
      · intro l _
        exact rfl
      · exact le_refl _
    · exact hM'

theorem rcInv_append_first (lt : ℕ) (hlt2 : lt ≠ TA_LIST_TRANSLUCENT)
    (hlt4 : lt ≠ TA_LIST_PUNCH_THROUGH) (rc : TrContext) (h0 : rc.num_surfs = 0)
    (hlst : ∀ l, l < TA_NUM_LISTS → (rc.lists l).num_surfs = 0) (nv : ℕ) :
    RcInv { listAppend rc lt rc.num_surfs with num_verts := (listAppend rc lt rc.num_surfs).num_verts + nv, num_surfs := (listAppend rc lt rc.num_surfs).num_surfs + 1 } := by
  have hs : (listAppend rc lt rc.num_surfs).num_surfs = rc.num_surfs := rfl
  have hll : ∀ l, l ≠ lt → (listAppend rc lt rc.num_surfs).lists l = rc.lists l := by
    intro l hl
    show updF rc.lists lt _ l = rc.lists l
    exact updF_ne _ _ _ _ hl
  have hlc : ((listAppend rc lt rc.num_surfs).lists lt).num_surfs =
      (rc.lists lt).num_surfs + 1 := by
    show (updF rc.lists lt _ lt).num_surfs = _
    rw [updF_self]
  have hle : ∀ i, ((listAppend rc lt rc.num_surfs).lists lt).surfs i =
      updF (rc.lists lt).surfs (rc.lists lt).num_surfs rc.num_surfs i := by
    intro i
    show (updF rc.lists lt _ lt).surfs i = _
    rw [updF_self]
  refine ⟨?_, ?_, ?_⟩
  · show 1 ≤ (listAppend rc lt rc.num_surfs).num_surfs + 1
    omega
  · intro lt' hlt' i hi
    dsimp only at hi ⊢
    by_cases hl : lt' = lt
    · subst hl
      rw [hlc, hlst lt' hlt'] at hi
      rw [hle i, hs]
      have hieq : i = (rc.lists lt').num_surfs := by rw [hlst lt' hlt']; omega
      rw [hieq, updF_self]
      omega
    · rw [hll lt' hl, hlst lt' hlt'] at hi
      omega
  · intro lt' htp i hi
    dsimp only at hi ⊢
    have hlt'5 : lt' < TA_NUM_LISTS := by rcases htp with h | h <;> subst h <;> decide
    have hl : lt' ≠ lt := by
      rcases htp with h | h
      · rw [h]; exact Ne.symm hlt2
      · rw [h]; exact Ne.symm hlt4
    rw [hll lt' hl, hlst lt' hlt'5] at hi
    omega

theorem rcInv_first_commit (tr0 : Tr) (rc : TrContext)
    (hne : ¬(tr0.list_type = TA_LIST_TRANSLUCENT ∨ tr0.list_type = TA_LIST_PUNCH_THROUGH))
    (h0 : rc.num_surfs = 0)
    (hlst : ∀ l, l < TA_NUM_LISTS → (rc.lists l).num_surfs = 0) :
    RcInv (tr_commit_surf tr0 rc) := by
  have h0' : ({ rc with lists := updF rc.lists tr0.list_type { rc.lists tr0.list_type with num_orig_surfs := (rc.lists tr0.list_type).num_orig_surfs + 1 } } : TrContext).num_surfs = 0 := h0
  have hlst' : ∀ l, l < TA_NUM_LISTS → (({ rc with lists := updF rc.lists tr0.list_type { rc.lists tr0.list_type with num_orig_surfs := (rc.lists tr0.list_type).num_orig_surfs + 1 } } : TrContext).lists l).num_surfs = 0 := by
    intro l hl
    show (updF rc.lists tr0.list_type _ l).num_surfs = 0
    by_cases hll : l = tr0.list_type
    · subst hll
      rw [updF_self]
      exact hlst _ hl
    · rw [updF_ne _ _ _ _ hll]
      exact hlst l hl
  unfold tr_commit_surf
  dsimp only
  rw [if_neg hne]
  push_neg at hne
  exact rcInv_append_first tr0.list_type hne.1 hne.2 _ h0' hlst' _

theorem agree_modVert_staged2 {a b : TrContext} (hS : AgreeS a b) (k : ℕ)
    (hk : k < (staged a).num_verts) (f g : TaVertex → TaVertex)
    (hv : f (a.verts (a.num_verts + k)) = g (b.verts (b.num_verts + k)))
    (i j : ℕ) (hi : i = a.num_verts + k) (hj : j = b.num_verts + k) :
    AgreeS (modVert a i f) (modVert b j g) := by
  subst hi
  subst hj
  exact agree_modVert hS k hk f g hv

set_option maxHeartbeats 1600000 in
theorem agree_bg (texFn : TexOracle) (ctx : TaCtx) (tr : Tr) {a0 b0 : TrContext}
    (hA : AgreeRC a0 b0) (h0 : a0.num_surfs = 0)
    (hlst : ∀ l, l < TA_NUM_LISTS → (a0.lists l).num_surfs = 0) :
    AgreeRC (tr_parse_bg texFn ctx tr a0).2 (tr_parse_bg texFn ctx tr b0).2 ∧
    RcInv (tr_parse_bg texFn ctx tr a0).2 := by
  have hS1 := agree_modStaged (agree_reserve_surf hA false (fun h => absurd h (by decide)))
    (fun s => { s with params := { zeroParams with texture := if ctx.bg_isp.texture then texFn ctx.bg_tsp ctx.bg_tcw else 0, depth_write := ! ctx.bg_isp.z_write_disable, depth_func := translate_depth_func ctx.bg_isp.depth_compare_mode, cull := translate_cull ctx.bg_isp.culling_mode, src_blend := .none, dst_blend := .none } }) rfl
  set A1 := modStaged (tr_reserve_surf a0 false) (fun s => { s with params := { zeroParams with texture := if ctx.bg_isp.texture then texFn ctx.bg_tsp ctx.bg_tcw else 0, depth_write := ! ctx.bg_isp.z_write_disable, depth_func := translate_depth_func ctx.bg_isp.depth_compare_mode, cull := translate_cull ctx.bg_isp.culling_mode, src_blend := .none, dst_blend := .none } }) with hA1e
  set B1 := modStaged (tr_reserve_surf b0 false) (fun s => { s with params := { zeroParams with texture := if ctx.bg_isp.texture then texFn ctx.bg_tsp ctx.bg_tcw else 0, depth_write := ! ctx.bg_isp.z_write_disable, depth_func := translate_depth_func ctx.bg_isp.depth_compare_mode, cull := translate_cull ctx.bg_isp.culling_mode, src_blend := .none, dst_blend := .none } }) with hB1e
  have k0 : (staged A1).num_verts = 0 := by
    rw [hA1e, staged_modStaged]
    dsimp only
    rw [staged_reserve]
  obtain ⟨hS2, ha2, hb2, hc2⟩ := agree_reserve_vert hS1
  set A2 := (tr_reserve_vert A1).1 with hA2e
  set B2 := (tr_reserve_vert B1).1 with hB2e
  obtain ⟨hS3, ha3, hb3, hc3⟩ := agree_reserve_vert hS2
  set A3 := (tr_reserve_vert A2).1 with hA3e
  set B3 := (tr_reserve_vert B2).1 with hB3e
  obtain ⟨hS4, ha4, hb4, hc4⟩ := agree_reserve_vert hS3
  set A4 := (tr_reserve_vert A3).1 with hA4e
  set B4 := (tr_reserve_vert B3).1 with hB4e
  obtain ⟨hS5, ha5, hb5, hc5⟩ := agree_reserve_vert hS4
  set A5 := (tr_reserve_vert A4).1 with hA5e
  set B5 := (tr_reserve_vert B4).1 with hB5e
  have k1 : (staged A2).num_verts = 1 := by rw [hc2, k0]
  have k2 : (staged A3).num_verts = 2 := by rw [hc3, k1]
  have k3 : (staged A4).num_verts = 3 := by rw [hc4, k2]
  have k4 : (staged A5).num_verts = 4 := by rw [hc5, k3]
  have nA1 : A1.num_verts = a0.num_verts := rfl
  have nA2 : A2.num_verts = a0.num_verts := rfl
  have nA3 : A3.num_verts = a0.num_verts := rfl
  have nA4 : A4.num_verts = a0.num_verts := rfl
  have nA5 : A5.num_verts = a0.num_verts := rfl
  have nB1 : B1.num_verts = b0.num_verts := rfl
  have nB2 : B2.num_verts = b0.num_verts := rfl
  have nB3 : B3.num_verts = b0.num_verts := rfl
  have nB4 : B4.num_verts = b0.num_verts := rfl
  have nB5 : B5.num_verts = b0.num_verts := rfl
  have ja1 : (tr_reserve_vert A1).2 = a0.num_verts + 0 := by rw [ha2, nA1, k0]
  have ja2 : (tr_reserve_vert A2).2 = a0.num_verts + 1 := by rw [ha3, nA2, k1]
  have ja3 : (tr_reserve_vert A3).2 = a0.num_verts + 2 := by rw [ha4, nA3, k2]
  have ja4 : (tr_reserve_vert A4).2 = a0.num_verts + 3 := by rw [ha5, nA4, k3]
  have jb1 : (tr_reserve_vert B1).2 = b0.num_verts + 0 := by rw [hb2, nB1, k0]
  have jb2 : (tr_reserve_vert B2).2 = b0.num_verts + 1 := by rw [hb3, nB2, k1]
  have jb3 : (tr_reserve_vert B3).2 = b0.num_verts + 2 := by rw [hb4, nB3, k2]
  have jb4 : (tr_reserve_vert B4).2 = b0.num_verts + 3 := by rw [hb5, nB4, k3]
  have m1 := agree_modVert_staged hS5 0 (by omega) (tr_parse_bg_vert ctx ctx.bg_a)
    (tr_reserve_vert A1).2 (tr_reserve_vert B1).2 (by omega) (by omega)
  set M1 := modVert A5 (tr_reserve_vert A1).2 (tr_parse_bg_vert ctx ctx.bg_a) with hM1e
  set N1 := modVert B5 (tr_reserve_vert B1).2 (tr_parse_bg_vert ctx ctx.bg_a) with hN1e
  have kM1 : (staged M1).num_verts = 4 := k4
  have nM1 : M1.num_verts = a0.num_verts := rfl
  have nN1 : N1.num_verts = b0.num_verts := rfl
  have m2 := agree_modVert_staged m1 1 (by omega) (tr_parse_bg_vert ctx ctx.bg_b)
    (tr_reserve_vert A2).2 (tr_reserve_vert B2).2 (by omega) (by omega)
  set M2 := modVert M1 (tr_reserve_vert A2).2 (tr_parse_bg_vert ctx ctx.bg_b) with hM2e
  set N2 := modVert N1 (tr_reserve_vert B2).2 (tr_parse_bg_vert ctx ctx.bg_b) with hN2e
  have kM2 : (staged M2).num_verts = 4 := k4
  have nM2 : M2.num_verts = a0.num_verts := rfl
  have nN2 : N2.num_verts = b0.num_verts := rfl
  have m3 := agree_modVert_staged m2 2 (by omega) (tr_parse_bg_vert ctx ctx.bg_c)
    (tr_reserve_vert A3).2 (tr_reserve_vert B3).2 (by omega) (by omega)
  set M3 := modVert M2 (tr_reserve_vert A3).2 (tr_parse_bg_vert ctx ctx.bg_c) with hM3e
  set N3 := modVert N2 (tr_reserve_vert B3).2 (tr_parse_bg_vert ctx ctx.bg_c) with hN3e
  have kM3 : (staged M3).num_verts = 4 := k4
  have nM3 : M3.num_verts = a0.num_verts := rfl
  have nN3 : N3.num_verts = b0.num_verts := rfl
  have va_eq := m3.staged_verts 0 (by omega)
  rw [show M3.num_verts + 0 = (tr_reserve_vert A1).2 from by omega,
    show N3.num_verts + 0 = (tr_reserve_vert B1).2 from by omega] at va_eq
  have vb_eq := m3.staged_verts 1 (by omega)
  rw [show M3.num_verts + 1 = (tr_reserve_vert A2).2 from by omega,
    show N3.num_verts + 1 = (tr_reserve_vert B2).2 from by omega] at vb_eq
  have vc_eq := m3.staged_verts 2 (by omega)
  rw [show M3.num_verts + 2 = (tr_reserve_vert A3).2 from by omega,
    show N3.num_verts + 2 = (tr_reserve_vert B3).2 from by omega] at vc_eq
  have hv : (fun v : TaVertex => { v with xyz := vec3_add (vec3_add (M3.verts (tr_reserve_vert A2).2).xyz (vec3_sub (M3.verts (tr_reserve_vert A2).2).xyz (M3.verts (tr_reserve_vert A1).2).xyz)) (vec3_sub (M3.verts (tr_reserve_vert A3).2).xyz (M3.verts (tr_reserve_vert A1).2).xyz), uv := vec2_add (vec2_add (M3.verts (tr_reserve_vert A2).2).uv (vec2_sub (M3.verts (tr_reserve_vert A2).2).uv (M3.verts (tr_reserve_vert A1).2).uv)) (vec2_sub (M3.verts (tr_reserve_vert A3).2).uv (M3.verts (tr_reserve_vert A1).2).uv), color := (M3.verts (tr_reserve_vert A1).2).color, offset_color := (M3.verts (tr_reserve_vert A1).2).offset_color }) (M3.verts (M3.num_verts + 3)) = (fun v : TaVertex => { v with xyz := vec3_add (vec3_add (N3.verts (tr_reserve_vert B2).2).xyz (vec3_sub (N3.verts (tr_reserve_vert B2).2).xyz (N3.verts (tr_reserve_vert B1).2).xyz)) (vec3_sub (N3.verts (tr_reserve_vert B3).2).xyz (N3.verts (tr_reserve_vert B1).2).xyz), uv := vec2_add (vec2_add (N3.verts (tr_reserve_vert B2).2).uv (vec2_sub (N3.verts (tr_reserve_vert B2).2).uv (N3.verts (tr_reserve_vert B1).2).uv)) (vec2_sub (N3.verts (tr_reserve_vert B3).2).uv (N3.verts (tr_reserve_vert B1).2).uv), color := (N3.verts (tr_reserve_vert B1).2).color, offset_color := (N3.verts (tr_reserve_vert B1).2).offset_color }) (N3.verts (N3.num_verts + 3)) := by
    dsimp only
    rw [va_eq, vb_eq, vc_eq]
  have m4 := agree_modVert_staged2 m3 3 (by omega) (fun v : TaVertex => { v with xyz := vec3_add (vec3_add (M3.verts (tr_reserve_vert A2).2).xyz (vec3_sub (M3.verts (tr_reserve_vert A2).2).xyz (M3.verts (tr_reserve_vert A1).2).xyz)) (vec3_sub (M3.verts (tr_reserve_vert A3).2).xyz (M3.verts (tr_reserve_vert A1).2).xyz), uv := vec2_add (vec2_add (M3.verts (tr_reserve_vert A2).2).uv (vec2_sub (M3.verts (tr_reserve_vert A2).2).uv (M3.verts (tr_reserve_vert A1).2).uv)) (vec2_sub (M3.verts (tr_reserve_vert A3).2).uv (M3.verts (tr_reserve_vert A1).2).uv), color := (M3.verts (tr_reserve_vert A1).2).color, offset_color := (M3.verts (tr_reserve_vert A1).2).offset_color }) (fun v : TaVertex => { v with xyz := vec3_add (vec3_add (N3.verts (tr_reserve_vert B2).2).xyz (vec3_sub (N3.verts (tr_reserve_vert B2).2).xyz (N3.verts (tr_reserve_vert B1).2).xyz)) (vec3_sub (N3.verts (tr_reserve_vert B3).2).xyz (N3.verts (tr_reserve_vert B1).2).xyz), uv := vec2_add (vec2_add (N3.verts (tr_reserve_vert B2).2).uv (vec2_sub (N3.verts (tr_reserve_vert B2).2).uv (N3.verts (tr_reserve_vert B1).2).uv)) (vec2_sub (N3.verts (tr_reserve_vert B3).2).uv (N3.verts (tr_reserve_vert B1).2).uv), color := (N3.verts (tr_reserve_vert B1).2).color, offset_color := (N3.verts (tr_reserve_vert B1).2).offset_color }) hv
    (tr_reserve_vert A4).2 (tr_reserve_vert B4).2 (by omega) (by omega)
  set M4 := modVert M3 (tr_reserve_vert A4).2 (fun v : TaVertex => { v with xyz := vec3_add (vec3_add (M3.verts (tr_reserve_vert A2).2).xyz (vec3_sub (M3.verts (tr_reserve_vert A2).2).xyz (M3.verts (tr_reserve_vert A1).2).xyz)) (vec3_sub (M3.verts (tr_reserve_vert A3).2).xyz (M3.verts (tr_reserve_vert A1).2).xyz), uv := vec2_add (vec2_add (M3.verts (tr_reserve_vert A2).2).uv (vec2_sub (M3.verts (tr_reserve_vert A2).2).uv (M3.verts (tr_reserve_vert A1).2).uv)) (vec2_sub (M3.verts (tr_reserve_vert A3).2).uv (M3.verts (tr_reserve_vert A1).2).uv), color := (M3.verts (tr_reserve_vert A1).2).color, offset_color := (M3.verts (tr_reserve_vert A1).2).offset_color }) with hM4e
  set N4 := modVert N3 (tr_reserve_vert B4).2 (fun v : TaVertex => { v with xyz := vec3_add (vec3_add (N3.verts (tr_reserve_vert B2).2).xyz (vec3_sub (N3.verts (tr_reserve_vert B2).2).xyz (N3.verts (tr_reserve_vert B1).2).xyz)) (vec3_sub (N3.verts (tr_reserve_vert B3).2).xyz (N3.verts (tr_reserve_vert B1).2).xyz), uv := vec2_add (vec2_add (N3.verts (tr_reserve_vert B2).2).uv (vec2_sub (N3.verts (tr_reserve_vert B2).2).uv (N3.verts (tr_reserve_vert B1).2).uv)) (vec2_sub (N3.verts (tr_reserve_vert B3).2).uv (N3.verts (tr_reserve_vert B1).2).uv), color := (N3.verts (tr_reserve_vert B1).2).color, offset_color := (N3.verts (tr_reserve_vert B1).2).offset_color }) with hN4e
  have hM40 : M4.num_surfs = 0 := h0
  have hMlst : ∀ l, l < TA_NUM_LISTS → (M4.lists l).num_surfs = 0 := hlst
  have hne : ¬(({ tr with list_type := TA_LIST_OPAQUE } : Tr).list_type = TA_LIST_TRANSLUCENT ∨
      ({ tr with list_type := TA_LIST_OPAQUE } : Tr).list_type = TA_LIST_PUNCH_THROUGH) := by
    show ¬(TA_LIST_OPAQUE = TA_LIST_TRANSLUCENT ∨ TA_LIST_OPAQUE = TA_LIST_PUNCH_THROUGH)
    decide
  have hfin_rc := agree_commit { tr with list_type := TA_LIST_OPAQUE } m4
    (fun hl => absurd hl hne)
  have hfin_inv := rcInv_first_commit { tr with list_type := TA_LIST_OPAQUE } M4 hne hM40 hMlst
  have hqa : (tr_parse_bg texFn ctx tr a0).2 =
      tr_commit_surf { tr with list_type := TA_LIST_OPAQUE } M4 := rfl
  have hqb : (tr_parse_bg texFn ctx tr b0).2 =
      tr_commit_surf { tr with list_type := TA_LIST_OPAQUE } N4 := rfl
  rw [hqa, hqb]
  exact ⟨hfin_rc, hfin_inv⟩

theorem agree_stream (texFn : TexOracle) (ctx : TaCtx) :
    ∀ (l : List TaParam) (st : StripState) {tr : Tr} {a b : TrContext},
      AgreeRC a b →
      (stagedLive tr → staged a = staged b ∧
        ∀ i, i < (staged a).num_verts →
          a.verts (a.num_verts + i) = b.verts (b.num_verts + i)) →
      RcInv a → stripStateMatches (tr, a) st → stripsOk st l = true →
      (l.foldlM (tr_step texFn ctx) (tr, a) = none ∧
        l.foldlM (tr_step texFn ctx) (tr, b) = none) ∨
      (∃ tr' a' b', l.foldlM (tr_step texFn ctx) (tr, a) = some (tr', a') ∧
        l.foldlM (tr_step texFn ctx) (tr, b) = some (tr', b') ∧
        AgreeRC a' b' ∧ RcInv a') := by
  intro l
  induction l with
  | nil =>
      intro st tr a b hA hst hI hM hok
      right
      exact ⟨tr, a, b, rfl, rfl, hA, hI⟩
  | cons p rest ih =>
      intro st tr a b hA hst hI hM hok
      rw [stripsOk, Bool.and_eq_true] at hok
      rcases agree_tr_step texFn ctx hA hst hI st hM p hok.1 with
        ⟨f1, f2⟩ | ⟨tr', a', b', e1, e2, hA', hst', hI', hM'⟩
      · left
        constructor
        · rw [List.foldlM_cons, f1]
          rfl
        · rw [List.foldlM_cons, f2]
          rfl
      · rw [List.foldlM_cons, e1, List.foldlM_cons, e2]
        exact ih (stripStateNext st p) hA' hst' hI' hM' hok.2

theorem mergeRuns_congr {α : Type} (le1 le2 : α → α → Bool) :
    ∀ (fuel : ℕ) (xs ys : List α), (∀ x ∈ xs, ∀ y ∈ ys, le1 x y = le2 x y) →
      mergeRuns le1 fuel xs ys = mergeRuns le2 fuel xs ys := by
  intro fuel
  induction fuel with
  | zero => intro xs ys h; rfl
  | succ fuel ih =>
      intro xs ys h
      match xs, ys with
      | [], ys => rfl
      | x :: xs, [] => rfl
      | x :: xs, y :: ys =>
          rw [mergeRuns, mergeRuns]
          have hxy : le1 x y = le2 x y := h x (by simp) y (by simp)
          rw [hxy]
          split
          · rw [ih xs (y :: ys) (fun a ha b hb => h a (List.mem_cons_of_mem x ha) b hb)]
          · rw [ih (x :: xs) ys (fun a ha b hb => h a ha b (List.mem_cons_of_mem y hb))]

theorem msortFuel_congr {α : Type} (le1 le2 : α → α → Bool) :
    ∀ (fuel : ℕ) (l : List α), (∀ x ∈ l, ∀ y ∈ l, le1 x y = le2 x y) →
      msortFuel le1 fuel l = msortFuel le2 fuel l := by
  intro fuel
  induction fuel with
  | zero => intro l h; rfl
  | succ fuel ih =>
      intro l h
      rw [msortFuel, msortFuel]
      dsimp only
      split
      · rfl
      · rw [ih (l.take (l.length / 2))
            (fun a ha b hb => h a (List.mem_of_mem_take ha) b (List.mem_of_mem_take hb)),
          ih (l.drop (l.length / 2))
            (fun a ha b hb => h a (List.mem_of_mem_drop ha) b (List.mem_of_mem_drop hb))]
        apply mergeRuns_congr
        intro x hx y hy
        rw [mem_msortFuel] at hx hy
        exact h x (List.mem_of_mem_take hx) y (List.mem_of_mem_drop hy)

theorem msort_congr {α : Type} (le1 le2 : α → α → Bool) (l : List α)
    (h : ∀ x ∈ l, ∀ y ∈ l, le1 x y = le2 x y) : msort le1 l = msort le2 l :=
  msortFuel_congr le1 le2 l.length l h

theorem getD_mem_of_lt {α : Type} (l : List α) (i : ℕ) (d : α) (h : i < l.length) :
    l.getD i d ∈ l := by
  rw [List.getD_eq_getElem l d h]
  exact l.getElem_mem h

theorem agree_sort {a b : TrContext} (hA : AgreeRC a b) (hI : RcInv a) (lt : ℕ)
    (htp : lt = TA_LIST_TRANSLUCENT ∨ lt = TA_LIST_PUNCH_THROUGH) :
    ∃ a' b', tr_sort_surfaces a lt = some a' ∧ tr_sort_surfaces b lt = some b' ∧
      AgreeRC a' b' ∧ RcInv a' := by
  have hlt5 : lt < TA_NUM_LISTS := by rcases htp with h | h <;> subst h <;> decide
  obtain ⟨hc, ho, hent⟩ := hA.lists lt hlt5
  have hE : listEntries b lt = listEntries a lt := by
    unfold listEntries
    rw [← hc]
    apply List.map_congr_left
    intro i hi
    rw [List.mem_range] at hi
    exact (hent i hi).symm
  have hmem : ∀ si ∈ listEntries a lt, si < a.num_surfs ∧ (a.surfs si).num_verts = 3 ∧
      (a.surfs si).first_vert + 3 ≤ a.num_verts := by
    intro si hsi
    unfold listEntries at hsi
    rw [List.mem_map] at hsi
    obtain ⟨i, hi, hrfl⟩ := hsi
    rw [List.mem_range] at hi
    subst hrfl
    exact ⟨hI.entries_lt lt hlt5 i hi, (hI.tp_tri lt htp i hi).1, (hI.tp_tri lt htp i hi).2⟩
  have hminz : ∀ si ∈ listEntries a lt, surf_minz b si = surf_minz a si := by
    intro si hsi
    obtain ⟨h1, h2, h3⟩ := hmem si hsi
    unfold surf_minz
    dsimp only
    rw [← hA.surfs si h1]
    rw [← hA.verts (a.surfs si).first_vert (by omega),
      ← hA.verts ((a.surfs si).first_vert + 1) (by omega),
      ← hA.verts ((a.surfs si).first_vert + 2) (by omega)]
  have halla : (listEntries a lt).all (fun si => (a.surfs si).num_verts == 3) = true := by
    rw [List.all_eq_true]
    intro si hsi
    have := (hmem si hsi).2.1
    simp [this]
  have hallb : (listEntries b lt).all (fun si => (b.surfs si).num_verts == 3) = true := by
    rw [hE, List.all_eq_true]
    intro si hsi
    rw [← hA.surfs si (hmem si hsi).1]
    have := (hmem si hsi).2.1
    simp [this]
  have hsorted : msort (fun i j => decide (surf_minz b i ≤ surf_minz b j)) (listEntries b lt) =
      msort (fun i j => decide (surf_minz a i ≤ surf_minz a j)) (listEntries a lt) := by
    rw [hE]
    exact msort_congr _ _ _ (fun x hx y hy => by rw [hminz x hx, hminz y hy])
  have hslen : (msort (fun i j => decide (surf_minz a i ≤ surf_minz a j))
      (listEntries a lt)).length = (a.lists lt).num_surfs := by
    rw [msort_length]
    unfold listEntries
    simp
  have hsmem : ∀ x ∈ msort (fun i j => decide (surf_minz a i ≤ surf_minz a j))
      (listEntries a lt), x ∈ listEntries a lt :=
    fun x hx => (msort_perm _ _).mem_iff.mp hx
  refine ⟨{ a with lists := updF a.lists lt { a.lists lt with surfs := fun i => if i < (a.lists lt).num_surfs then (msort (fun i j => decide (surf_minz a i ≤ surf_minz a j)) (listEntries a lt)).getD i 0 else (a.lists lt).surfs i } }, { b with lists := updF b.lists lt { b.lists lt with surfs := fun i => if i < (b.lists lt).num_surfs then (msort (fun i j => decide (surf_minz b i ≤ surf_minz b j)) (listEntries b lt)).getD i 0 else (b.lists lt).surfs i } }, ?_, ?_, ?_, ?_⟩
  · unfold tr_sort_surfaces
    dsimp only
    rw [if_pos halla]
  · unfold tr_sort_surfaces
    dsimp only
    rw [if_pos hallb]
  · refine agreeRC_lists_upd hA lt _ _ ?_
    intro _
    refine ⟨hc, ho, ?_⟩
    intro i hi
    have hi' : i < (a.lists lt).num_surfs := hi
    dsimp only
    rw [if_pos hi', if_pos (by omega), hsorted]
  · refine ⟨hI.one_surf, ?_, ?_⟩
    · intro lt' hlt' i hi
      dsimp only at hi ⊢
      by_cases hl : lt' = lt
      · subst hl
        rw [updF_self] at hi ⊢
        dsimp only at hi ⊢
        rw [if_pos hi]
        have hx := hsmem _ (getD_mem_of_lt _ i 0 (by rw [hslen]; exact hi))
        exact (hmem _ hx).1
      · rw [updF_ne _ _ _ _ hl] at hi ⊢
        exact hI.entries_lt lt' hlt' i hi
    · intro lt' htp' i hi
      dsimp only at hi ⊢
      have hlt'5 : lt' < TA_NUM_LISTS := by rcases htp' with h | h <;> subst h <;> decide
      by_cases hl : lt' = lt
      · subst hl
        rw [updF_self] at hi ⊢
        dsimp only at hi ⊢
        rw [if_pos hi]
        have hx := hsmem _ (getD_mem_of_lt _ i 0 (by rw [hslen]; exact hi))
        exact ⟨(hmem _ hx).2.1, (hmem _ hx).2.2⟩
      · rw [updF_ne _ _ _ _ hl] at hi ⊢
        exact hI.tp_tri lt' htp' i hi
